import Mathlib

/-!
# DebugLogger (hi_core/DebugLogger.cpp)

A shallow embedding of the HISE debug logger: the report entries, the capture
functions called from the render thread, the session lifecycle and the
periodic drain (timerCallback), followed by theorems about them.

Conventions of the embedding.

* C++ `int` fields are `Int`; `float` / `double` samples and values are rationals
  (every finite float is one, and the code only compares, counts and copies
  them). NaN and the infinities are outside the model.
* An `Array<T>` is a `List T`, `add` appends at the end.
* The clock (`Time::getMillisecondCounterHiRes()`) is an input: every function
  that reads it takes the value read as an argument `now`.
* The log file is the list of the blocks written to it; the text of a block is
  determined by the entry it renders, so a block records that entry.
* Locks only matter where the code probes them (checkPriorityInversion); the
  operations are executed one after another.

The two snex parameter tests (parameter/parameter_expression and
parameter/parameter_mixed) follow in namespaces of their own.
-/

namespace DebugLogger

/-! ## Taxonomy -/

/-- The enumerators of `DebugLogger::Location`, as listed by `getNameForLocation`. -/
inductive Location
  | Empty
  | MainRenderCallback
  | MultiMicSampleRendering
  | SampleRendering
  | ScriptFXRendering
  | ScriptFXRenderingPost
  | DspInstanceRendering
  | DspInstanceRenderingPost
  | TimerCallback
  | SampleLoaderPreFillVoiceBufferRead
  | SampleLoaderPreFillVoiceBufferWrite
  | SampleLoaderPostFillVoiceBuffer
  | SampleLoaderPostFillVoiceBufferWrapped
  | SampleVoiceBufferFill
  | SampleVoiceBufferFillPost
  | SampleLoaderReadOperation
  | SynthRendering
  | SynthPreVoiceRendering
  | SynthPostVoiceRenderingGainMod
  | SynthPostVoiceRendering
  | SynthChainRendering
  | SampleStart
  | VoiceEffectRendering
  | ModulatorChainVoiceRendering
  | ModulatorChainTimeVariantRendering
  | SynthVoiceRendering
  | NoteOnCallback
  | NoteOffCallback
  | MasterEffectRendering
  | ScriptMidiEventCallback
  | ConvolutionRendering
  deriving DecidableEq, Repr

/-- The enumerators of `DebugLogger::FailureType`, as listed by `getNameForFailure`. -/
inductive FailureType
  | Empty
  | SampleRateChange
  | Assertion
  | BufferSizeChange
  | PerformanceWarning
  | BurstLeft
  | BurstRight
  | ClickLeft
  | ClickRight
  | AudioThreadWasLocked
  | Discontinuity
  | PriorityInversion
  | SampleLoadingError
  | StreamingFailure
  deriving DecidableEq, Repr

/-! ## Collaborators the logger only reads -/

/-- A `juce::Identifier`; the null identifier has the empty name. -/
structure Identifier where
  name : String
  deriving DecidableEq, Repr

/-- The null identifier, `Identifier()`. -/
def Identifier.null : Identifier := ⟨""⟩

/-- The test `Identifier::isNull`. -/
def Identifier.isNull (i : Identifier) : Bool := i.name == ""

/-- A `Processor` as far as the logger looks at it: its id, used for display. -/
structure Processor where
  getId : String
  deriving DecidableEq, Repr

/-- A `juce::var`, the dynamically typed value of a parameter change. -/
inductive var
  | undefined
  | int (i : Int)
  | bool (b : Bool)
  | double (d : ℚ)
  | string (s : String)
  deriving DecidableEq, Repr

/-- The types of a `HiseEvent`. -/
inductive HiseEventType
  | Empty
  | NoteOn
  | NoteOff
  | Controller
  | PitchBend
  | Aftertouch
  | AllNotesOff
  | SongPosition
  | MidiStart
  | MidiStop
  | VolumeFade
  | PitchFade
  | TimerEvent
  | ProgramChange
  deriving DecidableEq, Repr

/-- A `HiseEvent`: the fields an `Event` entry prints. -/
structure HiseEvent where
  type : HiseEventType
  eventId : Int
  timeStamp : Int
  noteNumber : Int
  velocity : Int
  channel : Int
  deriving DecidableEq, Repr

/-- The test `HiseEvent::isAftertouch`. -/
def HiseEvent.isAftertouch (e : HiseEvent) : Bool := e.type == HiseEventType.Aftertouch

/-- The `DebugLogger::PerformanceData` sample handed to `logPerformanceWarning`.
The source dereferences `p`, so it is a processor, not a nullable pointer. -/
structure PerformanceData where
  location : Location
  p : Processor
  limit : ℚ
  averagePercentage : ℚ
  thisPercentage : ℚ
  deriving DecidableEq, Repr

/-- The `JavascriptProcessor*` argument of `logParameterChange`: only a
`JavascriptMidiProcessor` passes the dynamic cast, and it knows whether it is
the front interface. -/
inductive JavascriptProcessor
  | midiProcessor (isFront : Bool)
  | other
  deriving DecidableEq, Repr

/-- The control handed to `logParameterChange`, a `ScriptComponent` with its name. -/
structure ScriptComponent where
  getName : Identifier
  deriving DecidableEq, Repr

/-! ## Message model -/

/-- The fields of `DebugLogger::Message`, with the defaults of `Message()`. -/
structure Message where
  messageIndex : Int := -1
  callbackIndex : Int := -1
  timestamp : ℚ := 0
  p : Option Processor := none
  id : Identifier := Identifier.null
  location : Location := Location.Empty
  deriving DecidableEq, Repr

/-- The entry `DebugLogger::StringMessage`. -/
structure StringMessage extends Message where
  message : String
  deriving DecidableEq, Repr

/-- The entry `DebugLogger::Event`. -/
structure Event extends Message where
  e : HiseEvent
  deriving DecidableEq, Repr

/-- The entry `DebugLogger::AudioSettingChange`. -/
structure AudioSettingChange extends Message where
  type : FailureType
  oldValue : ℚ
  newValue : ℚ
  deriving DecidableEq, Repr

/-- The entry `DebugLogger::PerformanceWarning`. -/
structure PerformanceWarning extends Message where
  d : PerformanceData
  voiceAmount : Int
  deriving DecidableEq, Repr

/-- The entry `DebugLogger::ParameterChange`. -/
structure ParameterChange extends Message where
  value : var
  deriving DecidableEq, Repr

/-- The entry `DebugLogger::Failure`. -/
structure Failure extends Message where
  type : FailureType
  extraValue : ℚ
  deriving DecidableEq, Repr

/-- The constructor `StringMessage(messageIndex, callbackIndex, message, ts)`. -/
def StringMessage.new (messageIndex callbackIndex : Int) (message : String) (ts : ℚ) :
    StringMessage :=
  { messageIndex := messageIndex, callbackIndex := callbackIndex, timestamp := ts,
    p := none, id := Identifier.null, location := Location.Empty, message := message }

/-- The constructor `Event(messageIndex, callbackIndex, e)`. The source passes the
entry's own, not yet initialised `timestamp` member to the base constructor; the
field is never printed for an event and is 0 here. -/
def Event.new (messageIndex callbackIndex : Int) (e : HiseEvent) : Event :=
  { messageIndex := messageIndex, callbackIndex := callbackIndex, timestamp := 0,
    p := none, id := Identifier.null, location := Location.MainRenderCallback, e := e }

/-- The constructor `AudioSettingChange(messageIndex, callbackIndex, ts, type, old, new)`. -/
def AudioSettingChange.new (messageIndex callbackIndex : Int) (ts : ℚ) (type : FailureType)
    (oldValue newValue : ℚ) : AudioSettingChange :=
  { messageIndex := messageIndex, callbackIndex := callbackIndex, timestamp := ts,
    p := none, id := Identifier.null, location := Location.MainRenderCallback,
    type := type, oldValue := oldValue, newValue := newValue }

/-- The constructor `PerformanceWarning(messageIndex, callbackIndex, d, timestamp, voiceAmount)`. -/
def PerformanceWarning.new (messageIndex callbackIndex : Int) (d : PerformanceData) (ts : ℚ)
    (voiceAmount : Int) : PerformanceWarning :=
  { messageIndex := messageIndex, callbackIndex := callbackIndex, timestamp := ts,
    p := some d.p, id := Identifier.null, location := d.location,
    d := d, voiceAmount := voiceAmount }

/-- The constructor `ParameterChange(messageIndex, callbackIndex, timestamp, id, value)`. -/
def ParameterChange.new (messageIndex callbackIndex : Int) (ts : ℚ) (id : Identifier)
    (value : var) : ParameterChange :=
  { messageIndex := messageIndex, callbackIndex := callbackIndex, timestamp := ts,
    p := none, id := id, location := Location.Empty, value := value }

/-- The default constructor `ParameterChange()`, which `Array::getLast` returns for
an empty array. -/
def ParameterChange.default : ParameterChange :=
  { value := var.undefined }

/-- The constructor `Failure(messageIndex, callbackIndex, loc, t, faultyModule, ts,
extraValue, id)`. -/
def Failure.new (messageIndex callbackIndex : Int) (loc : Location) (t : FailureType)
    (faultyModule : Option Processor) (ts : ℚ) (extraValue : ℚ)
    (id : Identifier) : Failure :=
  { messageIndex := messageIndex, callbackIndex := callbackIndex, timestamp := ts,
    p := faultyModule, id := id, location := loc, type := t, extraValue := extraValue }

/-- One element of the `Array<Message*>` the drain sorts: a pointer to an entry of
one of the six kinds. -/
inductive Entry
  | warning (w : PerformanceWarning)
  | event (e : Event)
  | failure (f : Failure)
  | stringMessage (m : StringMessage)
  | audioChange (a : AudioSettingChange)
  | parameterChange (c : ParameterChange)
  deriving DecidableEq, Repr

/-- The base-class part of an entry. -/
def Entry.toMessage : Entry → Message
  | .warning w => w.toMessage
  | .event e => e.toMessage
  | .failure f => f.toMessage
  | .stringMessage m => m.toMessage
  | .audioChange a => a.toMessage
  | .parameterChange c => c.toMessage

/-- The sequence index `messageIndex` of an entry. -/
def Entry.messageIndex (e : Entry) : Int := e.toMessage.messageIndex

/-- The virtual `shouldPrintBacktrace`: false in `Message`, overridden by `Failure`. -/
def Entry.shouldPrintBacktrace : Entry → Bool
  | .failure f => f.type == FailureType.PriorityInversion
  | _ => false

/-! ## Session state -/

/-- One block of the log file: the header and the system specification written by
`startLogging`, the text of one entry (`getMessageText`), and the stack back trace
block the drain may write after an entry. -/
inductive LogBlock
  | header
  | systemSpecs
  | text (m : Entry)
  | stackBackTrace (trace : String)
  deriving DecidableEq, Repr

/-- The three callbacks of `DebugLogger::Listener`. -/
inductive Notification
  | logStarted
  | logEnded
  | errorDetected
  deriving DecidableEq, Repr

/-- A `WeakReference<Listener>`: the listener it was made for, and whether that
listener has been destroyed since. -/
structure WeakReference where
  target : Nat
  expired : Bool
  deriving DecidableEq, Repr

/-- The pointer `WeakReference::get`: null once the listener is gone. -/
def WeakReference.get (w : WeakReference) : Option Nat :=
  if w.expired then none else some w.target

end DebugLogger

/-- The member variables of `DebugLogger`. `logFiles` holds the files created so
far, the current one (`currentLogFile`) first; `notifications` records the listener
callbacks made so far, in order. -/
structure DebugLogger where
  currentlyLogging : Bool
  currentlyFailing : Bool
  numErrorsSinceLogStart : Int
  messageIndex : Int
  callbackIndex : Int
  lastSampleRate : ℚ
  lastSamplesPerBlock : Int
  uptime : ℚ
  warningLevel : Int
  locationForErrorInCurrentCallback : DebugLogger.Location
  lastErrorMessage : String
  actualBackTrace : String
  messageCallbackStackBacktrace : String
  pendingFailures : List DebugLogger.Failure
  pendingStringMessages : List DebugLogger.StringMessage
  pendingEvents : List DebugLogger.Event
  pendingPerformanceWarnings : List DebugLogger.PerformanceWarning
  pendingAudioChanges : List DebugLogger.AudioSettingChange
  pendingParameterChanges : List DebugLogger.ParameterChange
  listeners : List DebugLogger.WeakReference
  notifications : List (Nat × DebugLogger.Notification)
  timerRunning : Bool
  logFiles : List (List DebugLogger.LogBlock)
  deriving DecidableEq, Repr

namespace DebugLogger

/-- Modelled from the spec: the member initialisers of `DebugLogger` are in
DebugLogger.h, which is not among the sources. The logger after construction is
Idle, with the sequence counter, the callback index and the error count at 0, all
six queues empty, no listener and no log file; the stored sample rate and block size
hold the sentinel, and the texts are empty. -/
def constructed : DebugLogger :=
  { currentlyLogging := false, currentlyFailing := false, numErrorsSinceLogStart := 0,
    messageIndex := 0, callbackIndex := 0, lastSampleRate := -1, lastSamplesPerBlock := -1,
    uptime := 0, warningLevel := 0, locationForErrorInCurrentCallback := Location.Empty,
    lastErrorMessage := "", actualBackTrace := "", messageCallbackStackBacktrace := "",
    pendingFailures := [], pendingStringMessages := [], pendingEvents := [],
    pendingPerformanceWarnings := [], pendingAudioChanges := [],
    pendingParameterChanges := [], listeners := [], notifications := [],
    timerRunning := false, logFiles := [] }

/-- The sizes of the six pending queues, in the order failures, string messages,
events, performance warnings, audio changes, parameter changes. -/
def queueSizes (s : DebugLogger) : List Nat :=
  [s.pendingFailures.length, s.pendingStringMessages.length, s.pendingEvents.length,
   s.pendingPerformanceWarnings.length, s.pendingAudioChanges.length,
   s.pendingParameterChanges.length]

/-- The query `DebugLogger::isLogging`. -/
def isLogging (s : DebugLogger) : Bool :=
  s.currentlyLogging && decide (s.numErrorsSinceLogStart < 200)

/-- The query `DebugLogger::isCurrentlyFailing`. -/
def isCurrentlyFailing (s : DebugLogger) : Bool := s.currentlyFailing

/-- The function `DebugLogger::getCurrentTimeStamp`, `now` being the value of
`Time::getMillisecondCounterHiRes()`. -/
def getCurrentTimeStamp (s : DebugLogger) (now : ℚ) : ℚ :=
  (1 / 1000) * (now - s.uptime)

/-- The callbacks a loop over `listeners` makes: one for each reference that is
still alive. -/
def notifyListeners (ls : List WeakReference) (n : Notification) : List (Nat × Notification) :=
  ls.filterMap (fun l => (l.get).map (fun t => (t, n)))

/-! ## Capture API -/

/-- The function `DebugLogger::addFailure`. -/
def addFailure (s : DebugLogger) (f : Failure) : DebugLogger :=
  { s with pendingFailures := s.pendingFailures ++ [f] }

/-- The function `DebugLogger::addPerformanceWarning`. -/
def addPerformanceWarning (s : DebugLogger) (f : PerformanceWarning) : DebugLogger :=
  { s with pendingPerformanceWarnings := s.pendingPerformanceWarnings ++ [f] }

/-- The function `DebugLogger::addStreamingFailure`. -/
def addStreamingFailure (s : DebugLogger) (voiceUptime now : ℚ) : DebugLogger :=
  let f := Failure.new s.messageIndex s.callbackIndex Location.SampleRendering
    FailureType.StreamingFailure none (getCurrentTimeStamp s now) voiceUptime Identifier.null
  addFailure { s with messageIndex := s.messageIndex + 1 } f

/-- The body of the loop of `logEvents` for one event of the buffer. -/
def logEvent (s : DebugLogger) (e : HiseEvent) : DebugLogger :=
  if e.isAftertouch then s
  else
    { s with messageIndex := s.messageIndex + 1,
             pendingEvents := s.pendingEvents ++ [Event.new s.messageIndex s.callbackIndex e] }

/-- The function `DebugLogger::logEvents`. -/
def logEvents (s : DebugLogger) (masterBuffer : List HiseEvent) : DebugLogger :=
  if isLogging s then masterBuffer.foldl logEvent s else s

/-- The function `DebugLogger::logMessage`. -/
def logMessage (s : DebugLogger) (errorMessage : String) (now : ℚ) : DebugLogger :=
  let m := StringMessage.new s.messageIndex s.callbackIndex errorMessage
    (getCurrentTimeStamp s now)
  { s with messageIndex := s.messageIndex + 1,
           pendingStringMessages := s.pendingStringMessages ++ [m] }

/-- The function `DebugLogger::logPerformanceWarning`; `numActiveVoices` is what the
main controller of `logData.p` answers to `getNumActiveVoices()`. -/
def logPerformanceWarning (s : DebugLogger) (logData : PerformanceData) (numActiveVoices : Int)
    (now : ℚ) : DebugLogger :=
  if !isLogging s then s
  else
    let f := PerformanceWarning.new s.messageIndex s.callbackIndex logData
      (getCurrentTimeStamp s now) numActiveVoices
    addPerformanceWarning { s with messageIndex := s.messageIndex + 1 } f

/-- The element `Array::getLast` returns: the last one, or a default-constructed
`ParameterChange` for an empty array. -/
def getLast (q : List ParameterChange) : ParameterChange :=
  q.getLast?.getD ParameterChange.default

/-- The function `DebugLogger::logParameterChange`. A null `control` is `none`; the
source casts a non-null control to `ScriptComponent` without a check. -/
def logParameterChange (s : DebugLogger) (p : JavascriptProcessor)
    (control : Option ScriptComponent) (newValue : var) (now : ℚ) : DebugLogger :=
  if isLogging s then
    match control, p with
    | some c, .midiProcessor true =>
      let id := c.getName
      let pc := ParameterChange.new s.messageIndex s.callbackIndex
        (getCurrentTimeStamp s now) id newValue
      let q := if (getLast s.pendingParameterChanges).id = id
        then s.pendingParameterChanges.dropLast else s.pendingParameterChanges
      { s with messageIndex := s.messageIndex + 1, pendingParameterChanges := q ++ [pc] }
    | _, _ => s
  else s

/-- The function `DebugLogger::addAudioDeviceChange`. -/
def addAudioDeviceChange (s : DebugLogger) (changeType : FailureType) (oldValue newValue : ℚ)
    (now : ℚ) : DebugLogger :=
  if isLogging s then
    let f := AudioSettingChange.new s.messageIndex s.callbackIndex (getCurrentTimeStamp s now)
      changeType oldValue newValue
    { s with messageIndex := s.messageIndex + 1,
             pendingAudioChanges := s.pendingAudioChanges ++ [f] }
  else s

/-- The function `DebugLogger::checkAudioCallbackProperties`; `now₁` and `now₂` are the
clock values read by the first and the second `addAudioDeviceChange`. -/
def checkAudioCallbackProperties (s : DebugLogger) (sampleRate : ℚ) (samplesPerBlock : Int)
    (now₁ now₂ : ℚ) : DebugLogger :=
  if !isLogging s then s
  else
    let s₁ := { s with callbackIndex := s.callbackIndex + 1,
                       locationForErrorInCurrentCallback := Location.Empty }
    let s₂ :=
      if sampleRate ≠ s₁.lastSampleRate then
        { addAudioDeviceChange s₁ FailureType.SampleRateChange s₁.lastSampleRate sampleRate now₁
          with lastSampleRate := sampleRate }
      else s₁
    if samplesPerBlock ≠ s₂.lastSamplesPerBlock then
      { addAudioDeviceChange s₂ FailureType.BufferSizeChange s₂.lastSamplesPerBlock
          samplesPerBlock now₂
        with lastSamplesPerBlock := samplesPerBlock }
    else s₂

/-- Modelled from the spec: `FloatVectorOperations::findMinAndMax` is JUCE library
code, not among the sources. It scans the buffer and returns the range from the least
to the greatest sample (start, end), and the empty range (0, 0) for no samples. -/
def findMinAndMax : List ℚ → ℚ × ℚ
  | [] => (0, 0)
  | first :: rest =>
    rest.foldl (fun r v => (if v < r.1 then v else r.1, if r.2 < v then v else r.2))
      (first, first)

/-- The threshold `maxValue` of `checkSampleData`. -/
def maxValue : ℚ := 32

/-- The local `isError` of `checkSampleData` after the two range tests. -/
def isError (data : List ℚ) : Bool :=
  decide ((findMinAndMax data).2 > maxValue) || decide ((findMinAndMax data).1 < -maxValue)

/-- The local `errorValue` of `checkSampleData` after the two range tests: the second
test overwrites what the first one stored. -/
def errorValue (data : List ℚ) : ℚ :=
  let range := findMinAndMax data
  let errorValue₁ := if range.2 > maxValue then range.2 else 0
  if range.1 < -maxValue then range.1 else errorValue₁

/-- The local `numFaultySamples` of `checkSampleData` after the two counting loops. -/
def numFaultySamples (data : List ℚ) : Nat :=
  let range := findMinAndMax data
  let n₁ := if range.2 > maxValue then data.countP (fun x => decide (x > maxValue)) else 0
  if range.1 < -maxValue then n₁ + data.countP (fun x => decide (x < -maxValue)) else n₁

/-- The function `DebugLogger::checkSampleData`, on a buffer of `data.length` samples;
it returns the result and the logger afterwards. -/
def checkSampleData (s : DebugLogger) (p : Option Processor) (location : Location)
    (isLeftChannel : Bool) (data : List ℚ) (id : Identifier) (now : ℚ) : Bool × DebugLogger :=
  if !isLogging s then (true, s)
  else if isError data then
    let failureType :=
      if numFaultySamples data = 1 then
        (if isLeftChannel then FailureType.ClickLeft else FailureType.ClickRight)
      else
        (if isLeftChannel then FailureType.BurstLeft else FailureType.BurstRight)
    let s₁ := { s with locationForErrorInCurrentCallback := location }
    let f := Failure.new s₁.messageIndex s₁.callbackIndex location failureType p
      (getCurrentTimeStamp s₁ now) (errorValue data) id
    (false, addFailure { s₁ with messageIndex := s₁.messageIndex + 1 } f)
  else (true, s)

/-- The function `DebugLogger::checkAssertion`. -/
def checkAssertion (s : DebugLogger) (p : Option Processor) (location : Location)
    (result : Bool) (extraData : ℚ) (now : ℚ) : DebugLogger :=
  if !isLogging s then s
  else if !result then
    let f := Failure.new s.messageIndex s.callbackIndex location FailureType.Assertion p
      (getCurrentTimeStamp s now) extraData Identifier.null
    addFailure { s with messageIndex := s.messageIndex + 1 } f
  else s

/-- A non-blocking acquisition (`ScopedTryLock`, `SpinLock::tryEnter`) of a lock that
is held by another thread (`true`) or free (`false`): whether it succeeded, and the
lock afterwards. -/
def tryEnter (held : Bool) : Bool × Bool :=
  if held then (false, true) else (true, true)

/-- The function `DebugLogger::checkPriorityInversion(const CriticalSection&)`; it
returns the logger and the state of the probed lock afterwards. -/
def checkPriorityInversion (s : DebugLogger) (lockToCheck : Bool) (now : ℚ) :
    DebugLogger × Bool :=
  if !isLogging s then (s, lockToCheck)
  else
    let sl := tryEnter lockToCheck
    if !sl.1 then
      let f := Failure.new s.messageIndex (s.callbackIndex - 1) Location.MainRenderCallback
        FailureType.PriorityInversion none (getCurrentTimeStamp s now) 0 Identifier.null
      (addFailure { s with messageIndex := s.messageIndex + 1,
                           actualBackTrace := s.messageCallbackStackBacktrace } f, sl.2)
    else (s, false)

/-- The function `DebugLogger::checkPriorityInversion(const SpinLock&, Location,
Processor*, const Identifier&)`. -/
def checkPriorityInversionSpinLock (s : DebugLogger) (spinLockToCheck : Bool) (l : Location)
    (p : Option Processor) (id : Identifier) (now : ℚ) : DebugLogger × Bool :=
  if !isLogging s then (s, spinLockToCheck)
  else
    let r := tryEnter spinLockToCheck
    if r.1 then (s, false)
    else
      let f := Failure.new s.messageIndex s.callbackIndex l FailureType.PriorityInversion p
        (getCurrentTimeStamp s now) 0 id
      (addFailure { s with messageIndex := s.messageIndex + 1 } f, r.2)

/-- The function `DebugLogger::setPerformanceWarningLevel`. -/
def setPerformanceWarningLevel (s : DebugLogger) (newWarningLevel : Int) (now : ℚ) :
    DebugLogger :=
  { logMessage s ("New Warning level selected: " ++ toString newWarningLevel) now
    with warningLevel := newWarningLevel }

/-! ## Session lifecycle -/

/-- The function `DebugLogger::startLogging`: a new log file becomes the current one
and receives the header and the system specification. -/
def startLogging (s : DebugLogger) (now : ℚ) : DebugLogger :=
  { s with
    logFiles := [LogBlock.header, LogBlock.systemSpecs] :: s.logFiles,
    currentlyLogging := true,
    numErrorsSinceLogStart := 0,
    lastSampleRate := -1,
    lastSamplesPerBlock := -1,
    callbackIndex := 0,
    uptime := now,
    timerRunning := true,
    notifications := s.notifications ++ notifyListeners s.listeners Notification.logStarted }

/-- The function `DebugLogger::stopLogging`. -/
def stopLogging (s : DebugLogger) : DebugLogger :=
  { s with
    currentlyLogging := false,
    timerRunning := false,
    notifications := s.notifications ++ notifyListeners s.listeners Notification.logEnded }

/-- The function `DebugLogger::toggleLogging`. -/
def toggleLogging (s : DebugLogger) (now : ℚ) : DebugLogger :=
  if isLogging s then stopLogging s else startLogging s now

/-- The function `DebugLogger::addListener` (`addIfNotAlreadyThere`): a reference that
is still alive and points to the listener counts as already there. -/
def addListener (s : DebugLogger) (newListener : Nat) : DebugLogger :=
  if s.listeners.any (fun l => l.get == some newListener) then s
  else { s with listeners := s.listeners ++ [⟨newListener, false⟩] }

/-- The function `DebugLogger::removeListener` (`removeAllInstancesOf`). -/
def removeListener (s : DebugLogger) (listenerToRemove : Nat) : DebugLogger :=
  { s with listeners := s.listeners.filter (fun l => !(l.get == some listenerToRemove)) }

/-! ## Drain -/

/-- The comparator `MessageComparator::compareElements`. -/
def compareElements (first second : Entry) : Int :=
  if first.messageIndex > second.messageIndex then 1 else -1

/-- The order `Array::sort` hands to the sorting routine: `first` goes before `second`
when `compareElements first second < 0`. -/
def sortsBefore (first second : Entry) : Prop := compareElements first second < 0

instance : DecidableRel sortsBefore := fun a b =>
  inferInstanceAs (Decidable (compareElements a b < 0))

/-- The call `messages.sort(mec, false)`. JUCE passes the comparator to `std::sort`,
which is library code; it is an insertion sort here. For entries with pairwise
distinct sequence indices every sorting routine returns the same list. -/
def sortMessages (messages : List Entry) : List Entry :=
  messages.insertionSort sortsBefore

/-- One drained queue: what the drain copies out of a pending queue, and what is left
in the queue (`addArray` and `clearQuick`, skipped when the queue is empty). -/
def swapOut {α : Type} (pending : List α) : List α × List α :=
  if pending.length ≠ 0 then (pending, []) else ([], pending)

/-- The list `messages` of `timerCallback` before sorting: the entries of the six
copies in the order warnings, events, failures, string messages, audio changes,
parameter changes. -/
def mergeCopies (warningCopy : List PerformanceWarning) (eventCopy : List Event)
    (failureCopy : List Failure) (messageCopy : List StringMessage)
    (audioCopy : List AudioSettingChange) (parameterCopy : List ParameterChange) :
    List Entry :=
  warningCopy.map Entry.warning ++ eventCopy.map Entry.event ++ failureCopy.map Entry.failure
    ++ messageCopy.map Entry.stringMessage ++ audioCopy.map Entry.audioChange
    ++ parameterCopy.map Entry.parameterChange

/-- The writing loop of `timerCallback` over the sorted entries, starting with
`actualBackTrace = trace`: the blocks written and `actualBackTrace` afterwards. -/
def writeMessages (trace : String) : List Entry → List LogBlock × String
  | [] => ([], trace)
  | m :: rest =>
    if m.shouldPrintBacktrace && trace ≠ "" then
      let r := writeMessages "" rest
      (LogBlock.text m :: LogBlock.stackBackTrace trace :: r.1, r.2)
    else
      let r := writeMessages trace rest
      (LogBlock.text m :: r.1, r.2)

/-- A write through `FileOutputStream fos(currentLogFile)`: the blocks are appended to
the current log file; without a file nothing is written. -/
def appendToLogFile (files : List (List LogBlock)) (blocks : List LogBlock) :
    List (List LogBlock) :=
  match files with
  | [] => []
  | current :: older => (current ++ blocks) :: older

/-- The entries in `messages` of `timerCallback` after sorting, that is, the entries
the drain serialises, in the order it writes them. -/
def drainedMessages (s : DebugLogger) : List Entry :=
  sortMessages (mergeCopies (swapOut s.pendingPerformanceWarnings).1 (swapOut s.pendingEvents).1
    (swapOut s.pendingFailures).1 (swapOut s.pendingStringMessages).1
    (swapOut s.pendingAudioChanges).1 (swapOut s.pendingParameterChanges).1)

/-- The function `DebugLogger::timerCallback`, one drain. -/
def timerCallback (s : DebugLogger) : DebugLogger :=
  let failureCopy := (swapOut s.pendingFailures).1
  let warningCopy := (swapOut s.pendingPerformanceWarnings).1
  let s₁ : DebugLogger :=
    { s with
      pendingFailures := (swapOut s.pendingFailures).2,
      pendingStringMessages := (swapOut s.pendingStringMessages).2,
      pendingEvents := (swapOut s.pendingEvents).2,
      pendingPerformanceWarnings := (swapOut s.pendingPerformanceWarnings).2,
      pendingAudioChanges := (swapOut s.pendingAudioChanges).2,
      pendingParameterChanges := (swapOut s.pendingParameterChanges).2,
      messageIndex := 0 }
  let messages := drainedMessages s
  if !messages.isEmpty then
    let written := writeMessages s₁.actualBackTrace messages
    let s₂ : DebugLogger :=
      { s₁ with logFiles := appendToLogFile s₁.logFiles written.1,
                actualBackTrace := written.2 }
    let containsError := warningCopy.length ≠ 0 || failureCopy.length ≠ 0
    if containsError then
      { s₂ with
        notifications := s₂.notifications
          ++ notifyListeners s₂.listeners Notification.errorDetected,
        numErrorsSinceLogStart :=
          s₂.numErrorsSinceLogStart + failureCopy.length + warningCopy.length }
    else s₂
  else
    { s₁ with currentlyFailing := false }

/-- The function `DebugLogger::getLastErrorMessage`. -/
def getLastErrorMessage (s : DebugLogger) : String :=
  "# Errors: " ++ toString s.numErrorsSinceLogStart ++ ", Last Error Type: "
    ++ s.lastErrorMessage

/-! ## Runs -/

/-- The calls a logger can receive between a start and the next stop or start: the
capture functions, the drain and the listener registration. -/
inductive Op
  | checkAudioCallbackProperties (sampleRate : ℚ) (samplesPerBlock : Int) (now₁ now₂ : ℚ)
  | checkSampleData (p : Option Processor) (location : Location) (isLeftChannel : Bool)
      (data : List ℚ) (id : Identifier) (now : ℚ)
  | checkAssertion (p : Option Processor) (location : Location) (result : Bool)
      (extraData : ℚ) (now : ℚ)
  | checkPriorityInversion (lockToCheck : Bool) (now : ℚ)
  | checkPriorityInversionSpinLock (spinLockToCheck : Bool) (l : Location)
      (p : Option Processor) (id : Identifier) (now : ℚ)
  | logEvents (masterBuffer : List HiseEvent)
  | logMessage (errorMessage : String) (now : ℚ)
  | logPerformanceWarning (logData : PerformanceData) (numActiveVoices : Int) (now : ℚ)
  | logParameterChange (p : JavascriptProcessor) (control : Option ScriptComponent)
      (newValue : var) (now : ℚ)
  | addStreamingFailure (voiceUptime now : ℚ)
  | setPerformanceWarningLevel (newWarningLevel : Int) (now : ℚ)
  | addListener (newListener : Nat)
  | removeListener (listenerToRemove : Nat)
  | timerCallback

/-- The logger after one call. -/
def Op.apply (s : DebugLogger) : Op → DebugLogger
  | .checkAudioCallbackProperties sr n t₁ t₂ =>
    DebugLogger.checkAudioCallbackProperties s sr n t₁ t₂
  | .checkSampleData p l c data id t => (DebugLogger.checkSampleData s p l c data id t).2
  | .checkAssertion p l r x t => DebugLogger.checkAssertion s p l r x t
  | .checkPriorityInversion k t => (DebugLogger.checkPriorityInversion s k t).1
  | .checkPriorityInversionSpinLock k l p id t =>
    (DebugLogger.checkPriorityInversionSpinLock s k l p id t).1
  | .logEvents b => DebugLogger.logEvents s b
  | .logMessage m t => DebugLogger.logMessage s m t
  | .logPerformanceWarning d v t => DebugLogger.logPerformanceWarning s d v t
  | .logParameterChange p c v t => DebugLogger.logParameterChange s p c v t
  | .addStreamingFailure u t => DebugLogger.addStreamingFailure s u t
  | .setPerformanceWarningLevel n t => DebugLogger.setPerformanceWarningLevel s n t
  | .addListener l => DebugLogger.addListener s l
  | .removeListener l => DebugLogger.removeListener s l
  | .timerCallback => DebugLogger.timerCallback s

/-- The logger after a sequence of calls, executed one after another. -/
def run (s : DebugLogger) (ops : List Op) : DebugLogger :=
  ops.foldl Op.apply s

/-- Whether an entry counts as an error of the session: a `Failure` or a
`PerformanceWarning`. -/
def Entry.isErrorEntry : Entry → Bool
  | .failure _ => true
  | .warning _ => true
  | _ => false

/-- The number of `Failure` and `PerformanceWarning` entries written to a log file. -/
def errorEntriesIn (file : List LogBlock) : Nat :=
  file.countP (fun b => match b with
    | .text m => m.isErrorEntry
    | _ => false)

/-- The number of `Failure` and `PerformanceWarning` entries a call takes out of the
queues of `s`: those pending when the call is a drain, none for any other call. -/
def Op.errorsDrained (s : DebugLogger) : Op → Nat
  | .timerCallback => s.pendingFailures.length + s.pendingPerformanceWarnings.length
  | _ => 0

/-- The number of `Failure` and `PerformanceWarning` entries the drains of a run
take out of the queues, the run starting in state `s`. -/
def drainedErrors (s : DebugLogger) : List Op → Nat
  | [] => 0
  | op :: ops => op.errorsDrained s + drainedErrors (op.apply s) ops

/-- The entries whose text a sequence of log blocks contains, in order. -/
def entriesWritten (blocks : List LogBlock) : List Entry :=
  blocks.filterMap (fun b => match b with
    | .text m => some m
    | _ => none)

/-- The entries of all six pending queues. -/
def pendingEntries (s : DebugLogger) : List Entry :=
  s.pendingFailures.map Entry.failure ++ s.pendingStringMessages.map Entry.stringMessage
    ++ s.pendingEvents.map Entry.event ++ s.pendingPerformanceWarnings.map Entry.warning
    ++ s.pendingAudioChanges.map Entry.audioChange
    ++ s.pendingParameterChanges.map Entry.parameterChange

/-- The parameter change an entry holds, if it is one. -/
def Entry.asParameterChange : Entry → Option ParameterChange
  | .parameterChange c => some c
  | _ => none

/-- The kind and the extra value of the failure an entry holds, if it is one. -/
def Entry.failureKind : Entry → Option (FailureType × ℚ)
  | .failure f => some (f.type, f.extraValue)
  | _ => none

/-- A buffer in which one sample is `v` and all others are 0: `i` zeros before it
and `j` zeros after it. -/
def clickBuffer (i j : Nat) (v : ℚ) : List ℚ :=
  List.replicate i 0 ++ v :: List.replicate j 0

/-- A started session in the middle of a drain window: a performance warning with
sequence index 3, an event with index 1 and a failure with index 2 are pending, so
the drain merges them in the order 3, 1, 2. -/
def windowThreeOneTwo : DebugLogger :=
  { startLogging constructed 0 with
    messageIndex := 4,
    pendingPerformanceWarnings :=
      [PerformanceWarning.new 3 1 ⟨Location.SynthRendering, ⟨"Synth"⟩, 1, 0, 0⟩ 0 8],
    pendingEvents := [Event.new 1 1 ⟨HiseEventType.NoteOn, 1, 0, 60, 100, 1⟩],
    pendingFailures :=
      [Failure.new 2 1 Location.SampleRendering FailureType.Assertion none 0 1
        Identifier.null] }

/-! ## Sessions -/

/-- The calls a logger can receive at all: those of `Op`, and the three functions of
the session lifecycle. -/
inductive Call
  | op (o : Op)
  | startLogging (now : ℚ)
  | stopLogging
  | toggleLogging (now : ℚ)

/-- The logger after one call. -/
def Call.apply (s : DebugLogger) : Call → DebugLogger
  | .op o => o.apply s
  | .startLogging now => DebugLogger.startLogging s now
  | .stopLogging => DebugLogger.stopLogging s
  | .toggleLogging now => DebugLogger.toggleLogging s now

/-- The logger after a sequence of calls of any kind, executed one after another. -/
def runCalls (s : DebugLogger) (calls : List Call) : DebugLogger :=
  calls.foldl Call.apply s

/-- Whether a call, made in state `s`, runs `startLogging`: directly, or as a toggle
of a logger that is not logging. -/
def Call.startsSession (s : DebugLogger) : Call → Bool
  | .startLogging _ => true
  | .toggleLogging _ => !isLogging s
  | _ => false

/-- Whether a call, made in state `s`, is a `checkAudioCallbackProperties` call made
while `isLogging` is true. -/
def Call.isLoggedCallback (s : DebugLogger) : Call → Bool
  | .op (.checkAudioCallbackProperties _ _ _ _) => isLogging s
  | _ => false

/-- The number of `checkAudioCallbackProperties` calls made while `isLogging` was true
since the last start, after the calls `calls` made from state `s`, `n` being that
number before them. -/
def callbacksSinceStart (s : DebugLogger) (n : Nat) : List Call → Nat
  | [] => n
  | c :: cs =>
    callbacksSinceStart (c.apply s)
      (if c.startsSession s then 0 else if c.isLoggedCallback s then n + 1 else n) cs

/-- The entries `logEvents` makes of a batch without aftertouch events: one per
event, in batch order, numbered from `messageIndex` on. -/
def eventsFrom (messageIndex callbackIndex : Int) : List HiseEvent → List Event
  | [] => []
  | e :: es =>
    Event.new messageIndex callbackIndex e :: eventsFrom (messageIndex + 1) callbackIndex es

/-- The listeners a list of weak references still reaches: the targets of the
references that have not expired. -/
def liveTargets (ls : List WeakReference) : List Nat :=
  ls.filterMap WeakReference.get

/-- The callbacks a call added to the record: those of `after` beyond the first
`before.notifications.length`. -/
def newNotifications (before after : DebugLogger) : List (Nat × Notification) :=
  after.notifications.drop before.notifications.length

/-- A started session with two registered listeners, of which listener 2 has been
destroyed, and with one failed assertion pending. -/
def sessionWithListeners : DebugLogger :=
  { startLogging constructed 0 with
    messageIndex := 1,
    listeners := [⟨1, false⟩, ⟨2, true⟩],
    pendingFailures :=
      [Failure.new 0 0 Location.SampleRendering FailureType.Assertion none 0 1
        Identifier.null] }

/-! ## Display names -/

/-- The text `#x` the macro `RETURN_CASE_STRING_LOCATION(x)` returns: the identifier of
the enumerator. -/
def Location.identifier : Location → String
  | .Empty => "Empty"
  | .MainRenderCallback => "MainRenderCallback"
  | .MultiMicSampleRendering => "MultiMicSampleRendering"
  | .SampleRendering => "SampleRendering"
  | .ScriptFXRendering => "ScriptFXRendering"
  | .ScriptFXRenderingPost => "ScriptFXRenderingPost"
  | .DspInstanceRendering => "DspInstanceRendering"
  | .DspInstanceRenderingPost => "DspInstanceRenderingPost"
  | .TimerCallback => "TimerCallback"
  | .SampleLoaderPreFillVoiceBufferRead => "SampleLoaderPreFillVoiceBufferRead"
  | .SampleLoaderPreFillVoiceBufferWrite => "SampleLoaderPreFillVoiceBufferWrite"
  | .SampleLoaderPostFillVoiceBuffer => "SampleLoaderPostFillVoiceBuffer"
  | .SampleLoaderPostFillVoiceBufferWrapped => "SampleLoaderPostFillVoiceBufferWrapped"
  | .SampleVoiceBufferFill => "SampleVoiceBufferFill"
  | .SampleVoiceBufferFillPost => "SampleVoiceBufferFillPost"
  | .SampleLoaderReadOperation => "SampleLoaderReadOperation"
  | .SynthRendering => "SynthRendering"
  | .SynthPreVoiceRendering => "SynthPreVoiceRendering"
  | .SynthPostVoiceRenderingGainMod => "SynthPostVoiceRenderingGainMod"
  | .SynthPostVoiceRendering => "SynthPostVoiceRendering"
  | .SynthChainRendering => "SynthChainRendering"
  | .SampleStart => "SampleStart"
  | .VoiceEffectRendering => "VoiceEffectRendering"
  | .ModulatorChainVoiceRendering => "ModulatorChainVoiceRendering"
  | .ModulatorChainTimeVariantRendering => "ModulatorChainTimeVariantRendering"
  | .SynthVoiceRendering => "SynthVoiceRendering"
  | .NoteOnCallback => "NoteOnCallback"
  | .NoteOffCallback => "NoteOffCallback"
  | .MasterEffectRendering => "MasterEffectRendering"
  | .ScriptMidiEventCallback => "ScriptMidiEventCallback"
  | .ConvolutionRendering => "ConvolutionRendering"

/-- The text `#x` the macro `RETURN_CASE_STRING_FAILURE(x)` returns: the identifier of
the enumerator. -/
def FailureType.identifier : FailureType → String
  | .Empty => "Empty"
  | .SampleRateChange => "SampleRateChange"
  | .Assertion => "Assertion"
  | .BufferSizeChange => "BufferSizeChange"
  | .PerformanceWarning => "PerformanceWarning"
  | .BurstLeft => "BurstLeft"
  | .BurstRight => "BurstRight"
  | .ClickLeft => "ClickLeft"
  | .ClickRight => "ClickRight"
  | .AudioThreadWasLocked => "AudioThreadWasLocked"
  | .Discontinuity => "Discontinuity"
  | .PriorityInversion => "PriorityInversion"
  | .SampleLoadingError => "SampleLoadingError"
  | .StreamingFailure => "StreamingFailure"

/-- The case labels of the switch of `getNameForLocation`, in source order. -/
def locationCases : List Location :=
  [Location.Empty, Location.MainRenderCallback, Location.MultiMicSampleRendering,
   Location.SampleRendering, Location.ScriptFXRendering, Location.ScriptFXRenderingPost,
   Location.DspInstanceRendering, Location.DspInstanceRenderingPost,
   Location.TimerCallback, Location.SampleLoaderPreFillVoiceBufferRead,
   Location.SampleLoaderPreFillVoiceBufferWrite, Location.SampleLoaderPostFillVoiceBuffer,
   Location.SampleLoaderPostFillVoiceBufferWrapped, Location.SampleVoiceBufferFill,
   Location.SampleVoiceBufferFillPost, Location.SampleLoaderReadOperation,
   Location.SynthRendering, Location.SynthPreVoiceRendering,
   Location.SynthPostVoiceRenderingGainMod, Location.SynthPostVoiceRendering,
   Location.SynthChainRendering, Location.SampleStart, Location.VoiceEffectRendering,
   Location.ModulatorChainVoiceRendering, Location.ModulatorChainTimeVariantRendering,
   Location.SynthVoiceRendering, Location.NoteOnCallback, Location.NoteOffCallback,
   Location.MasterEffectRendering, Location.ScriptMidiEventCallback,
   Location.ConvolutionRendering]

/-- The case labels of the switch of `getNameForFailure`, in source order. -/
def failureCases : List FailureType :=
  [FailureType.Empty, FailureType.SampleRateChange, FailureType.Assertion,
   FailureType.BufferSizeChange, FailureType.PerformanceWarning, FailureType.BurstLeft,
   FailureType.BurstRight, FailureType.ClickLeft, FailureType.ClickRight,
   FailureType.AudioThreadWasLocked, FailureType.Discontinuity,
   FailureType.PriorityInversion, FailureType.SampleLoadingError,
   FailureType.StreamingFailure]

/-- The function `DebugLogger::getNameForLocation` on the integer an argument of type
`Location` holds. The integer values of the enumerators are declared in DebugLogger.h,
which is not among the sources; they are the parameter `value`. The switch returns the
text of the case whose label has the value of the argument, and falls through to the
last line when there is none. -/
def getNameForLocation (value : Location → Int) (l : Int) : String :=
  match locationCases.find? (fun x => value x == l) with
  | some x => x.identifier
  | none => "Unknown Location"

/-- The function `DebugLogger::getNameForFailure` on the integer an argument of type
`FailureType` holds; `value` gives the integer values of the enumerators, declared in
DebugLogger.h. -/
def getNameForFailure (value : FailureType → Int) (f : Int) : String :=
  match failureCases.find? (fun x => value x == f) with
  | some x => x.identifier
  | none => "Unknown failure"

/-- Modelled from the spec: the declarations of the enumerations are in DebugLogger.h,
which is not among the sources. These are the values the enumerators of `Location`
have when the declaration lists them in the order of the switch, counting from 0. -/
def Location.declaredValue (x : Location) : Int := x.toCtorIdx

/-- Modelled from the spec: the values the enumerators of `FailureType` have when
DebugLogger.h, which is not among the sources, lists them in the order of the switch,
counting from 0. -/
def FailureType.declaredValue (x : FailureType) : Int := x.toCtorIdx

/-- Whether `AudioSettingChange::getMessageText` reaches its `return`: the condition
of the only `if` of its body, after which the function ends without a return value. -/
def AudioSettingChange.getMessageTextReturns (a : AudioSettingChange) : Bool :=
  a.type == FailureType.SampleRateChange || a.type == FailureType.BufferSizeChange

/-! ## Sequence indices -/

/-- The sequence indices of the entries of the six pending queues, queue by queue, in
the order of `pendingEntries`. -/
def queueIndices (s : DebugLogger) : List (List Int) :=
  [s.pendingFailures.map (fun x => x.messageIndex),
   s.pendingStringMessages.map (fun x => x.messageIndex),
   s.pendingEvents.map (fun x => x.messageIndex),
   s.pendingPerformanceWarnings.map (fun x => x.messageIndex),
   s.pendingAudioChanges.map (fun x => x.messageIndex),
   s.pendingParameterChanges.map (fun x => x.messageIndex)]

/-- The property of a sequence counter `c` and queues of indices: within each queue
the indices strictly increase, each index is smaller than the counter, and no index
occurs twice in all queues together. -/
def SeqInv (c : Int) (qs : List (List Int)) : Prop :=
  (∀ q ∈ qs, List.Sorted (fun i j : Int => i < j) q ∧ ∀ i ∈ q, i < c) ∧ qs.flatten.Nodup

/-- A session that has counted 199 errors, with one failed assertion pending and one
registered listener. -/
def sessionBelowCeiling : DebugLogger :=
  { startLogging constructed 0 with
    numErrorsSinceLogStart := 199,
    messageIndex := 1,
    listeners := [⟨7, false⟩],
    pendingFailures :=
      [Failure.new 0 3 Location.SampleRendering FailureType.Assertion none 0 1
        Identifier.null] }

/-- A session in which a priority inversion with sequence index 1 is pending between
two other entries, with a captured stack back trace. -/
def sessionWithBackTrace : DebugLogger :=
  { startLogging constructed 0 with
    messageIndex := 3,
    actualBackTrace := "frame 0",
    pendingStringMessages := [StringMessage.new 0 1 "note" 0],
    pendingFailures :=
      [Failure.new 1 0 Location.MainRenderCallback FailureType.PriorityInversion none 0 0
        Identifier.null,
       Failure.new 2 1 Location.NoteOnCallback FailureType.PriorityInversion none 0 0
        Identifier.null] }

end DebugLogger

/-! # snex test parameter/parameter_expression -/

namespace ParameterExpression

/-- The expression `TestExpression`, declared with `DECLARE_PARAMETER_EXPRESSION`. -/
def TestExpression.op (input : ℚ) : ℚ := 2 * input - 1

/-- The node `Test` of the test. -/
structure Test where
  value : ℚ := 2
  deriving DecidableEq, Repr

/-- The member `Test::setParameter<P>`. -/
def Test.setParameter (_P : Int) (self : Test) (v : ℚ) : Test :=
  { self with value := v }

/-- Modelled from the spec: `parameter::expression<Test, 0, TestExpression>` is snex
library code, not among the sources. Called with `v`, it passes
`TestExpression::op(v)` to `setParameter<0>` of the node it is connected to. -/
def ParameterType.call (target : Test) (v : ℚ) : Test :=
  Test.setParameter 0 target (TestExpression.op v)

/-- The globals of the test: the two `Test` nodes of the chain `c`, and `x`. -/
structure Globals where
  first : Test := {}
  second : Test := {}
  x : ℚ := 5
  deriving DecidableEq, Repr

/-- The function `main` of the test: what it returns and the globals afterwards. The
parameter `p` is connected to the second node of the chain and called with `x`. -/
def main (g : Globals) (_input : ℚ) : ℚ × Globals :=
  let g₁ := { g with second := ParameterType.call g.second g.x }
  (g₁.second.value, g₁)

end ParameterExpression

/-! # snex test parameter/parameter_mixed -/

namespace ParameterMixed

/-- The function `MyRangeConverter::from0To1`. -/
def MyRangeConverter.from0To1 (input : ℚ) : ℚ := input * 2

/-- The node `OtherTest` of the test. -/
structure OtherTest where
  o : ℚ := 12
  deriving DecidableEq, Repr

/-- The member `OtherTest::setParameter<P>`. -/
def OtherTest.setParameter (P : Int) (self : OtherTest) (v : ℚ) : OtherTest :=
  if P = 1 then { self with o := v * 9 } else self

/-- The node `Test` of the test. -/
structure Test where
  value : ℚ := 12
  deriving DecidableEq, Repr

/-- The member `Test::setParameter<P>`. -/
def Test.setParameter (_P : Int) (self : Test) (v : ℚ) : Test :=
  { self with value := v }

/-- The expression `TestExpression`, declared with `DECLARE_PARAMETER_EXPRESSION`. -/
def TestExpression.op (input : ℚ) : ℚ := input + 1

/-- Modelled from the spec: `parameter::plain<Test, 0>` is snex library code, not among
the sources. Called with `v`, it passes `v` to `setParameter<0>` of the node it is
connected to. -/
def ParameterType1.call (target : Test) (v : ℚ) : Test :=
  Test.setParameter 0 target v

/-- Modelled from the spec: `parameter::expression<OtherTest, 1, TestExpression>` is
snex library code, not among the sources. Called with `v`, it passes
`TestExpression::op(v)` to `setParameter<1>` of the node it is connected to. -/
def OtherParameter.call (target : OtherTest) (v : ℚ) : OtherTest :=
  OtherTest.setParameter 1 target (TestExpression.op v)

/-- The chain `c`: its two nodes, to which the parameter chain is connected. -/
structure Chain where
  first : Test := {}
  second : OtherTest := {}
  deriving DecidableEq, Repr

/-- Modelled from the spec: `parameter::chain<MyRangeConverter, ParameterType1,
OtherParameter>` is snex library code, not among the sources. Called with `v`, it
converts `v` with `MyRangeConverter::from0To1` and calls each of its parameters with
the result. -/
def ParameterChainType.call (c : Chain) (v : ℚ) : Chain :=
  { first := ParameterType1.call c.first (MyRangeConverter.from0To1 v),
    second := OtherParameter.call c.second (MyRangeConverter.from0To1 v) }

/-- The function `main` of the test: what it returns and the chain afterwards;
`c.setParameter<0>` calls the parameter chain of the container. -/
def main (c : Chain) (_input : ℚ) : ℚ × Chain :=
  let c₁ := ParameterChainType.call c 0.2
  (c₁.first.value + c₁.second.o, c₁)

end ParameterMixed

/-! # Theorems -/

namespace DebugLogger

/-! ## Inactive logger -/

theorem checkAudioCallbackProperties_inactive (s : DebugLogger) (sr : ℚ) (n : Int) (t₁ t₂ : ℚ)
    (h : isLogging s = false) : checkAudioCallbackProperties s sr n t₁ t₂ = s := by
  simp [checkAudioCallbackProperties, h]

theorem checkSampleData_inactive (s : DebugLogger) (p : Option Processor) (l : Location)
    (c : Bool) (data : List ℚ) (id : Identifier) (t : ℚ) (h : isLogging s = false) :
    checkSampleData s p l c data id t = (true, s) := by
  simp [checkSampleData, h]

theorem checkAssertion_inactive (s : DebugLogger) (p : Option Processor) (l : Location)
    (r : Bool) (x t : ℚ) (h : isLogging s = false) : checkAssertion s p l r x t = s := by
  simp [checkAssertion, h]

theorem checkPriorityInversion_inactive (s : DebugLogger) (k : Bool) (t : ℚ)
    (h : isLogging s = false) : checkPriorityInversion s k t = (s, k) := by
  simp [checkPriorityInversion, h]

theorem checkPriorityInversionSpinLock_inactive (s : DebugLogger) (k : Bool) (l : Location)
    (p : Option Processor) (id : Identifier) (t : ℚ) (h : isLogging s = false) :
    checkPriorityInversionSpinLock s k l p id t = (s, k) := by
  simp [checkPriorityInversionSpinLock, h]

theorem logEvents_inactive (s : DebugLogger) (b : List HiseEvent) (h : isLogging s = false) :
    logEvents s b = s := by
  simp [logEvents, h]

theorem logPerformanceWarning_inactive (s : DebugLogger) (d : PerformanceData) (v : Int) (t : ℚ)
    (h : isLogging s = false) : logPerformanceWarning s d v t = s := by
  simp [logPerformanceWarning, h]

theorem logParameterChange_inactive (s : DebugLogger) (p : JavascriptProcessor)
    (c : Option ScriptComponent) (v : var) (t : ℚ) (h : isLogging s = false) :
    logParameterChange s p c v t = s := by
  simp [logParameterChange, h]

/-- Unlike the other capture functions, `logMessage` does not look at `isLogging`:
it always appends one entry to the string-message queue. -/
theorem logMessage_queueSizes (s : DebugLogger) (m : String) (t : ℚ) :
    queueSizes (logMessage s m t)
      = [s.pendingFailures.length, s.pendingStringMessages.length + 1, s.pendingEvents.length,
         s.pendingPerformanceWarnings.length, s.pendingAudioChanges.length,
         s.pendingParameterChanges.length] := by
  simp [logMessage, queueSizes]

/-- C1 (evaluation at the failing input). On a logger that was never started
`isLogging` is false and all six queues are empty, yet `logMessage` appends an entry to
the string-message queue: the queue sizes change from all 0 to 1 for that queue. -/
theorem logMessage_on_inactive_logger_grows_queue :
    isLogging constructed = false
      ∧ queueSizes constructed = [0, 0, 0, 0, 0, 0]
      ∧ queueSizes (logMessage constructed "note" 0) = [0, 1, 0, 0, 0, 0] := by
  decide

/-! ## checkAssertion, start and stop, parameter changes -/

/-- C10. While logging, `checkAssertion` appends exactly one `Failure` of kind
`Assertion`, carrying the given location and extra value, to the pending failures
when the condition result is false, and leaves the logger as it is (so no queue
changes) when the result is true; the other five queues never change. -/
theorem checkAssertion_records_iff_false (s : DebugLogger) (p : Option Processor)
    (location : Location) (result : Bool) (extraData now : ℚ) (h : isLogging s = true) :
    (checkAssertion s p location result extraData now).pendingFailures
        = (if result then s.pendingFailures
           else s.pendingFailures ++ [Failure.new s.messageIndex s.callbackIndex location
             FailureType.Assertion p (getCurrentTimeStamp s now) extraData Identifier.null])
      ∧ (result = true → checkAssertion s p location result extraData now = s)
      ∧ ((checkAssertion s p location result extraData now).pendingFailures.length
          = s.pendingFailures.length + 1 ↔ result = false)
      ∧ (checkAssertion s p location result extraData now).pendingStringMessages
          = s.pendingStringMessages
      ∧ (checkAssertion s p location result extraData now).pendingEvents = s.pendingEvents
      ∧ (checkAssertion s p location result extraData now).pendingPerformanceWarnings
          = s.pendingPerformanceWarnings
      ∧ (checkAssertion s p location result extraData now).pendingAudioChanges
          = s.pendingAudioChanges
      ∧ (checkAssertion s p location result extraData now).pendingParameterChanges
          = s.pendingParameterChanges := by
  cases result <;> simp [checkAssertion, h, addFailure]

theorem checkAssertion_records_iff_false_witness :
    isLogging (startLogging constructed 0) = true
      ∧ (checkAssertion (startLogging constructed 0) none Location.SampleRendering false 1
          5).pendingFailures
        = [Failure.new 0 0 Location.SampleRendering FailureType.Assertion none
            (getCurrentTimeStamp (startLogging constructed 0) 5) 1 Identifier.null] :=
  ⟨by decide,
   (checkAssertion_records_iff_false (startLogging constructed 0) none
      Location.SampleRendering false 1 5 (by decide)).1⟩

theorem isLogging_startLogging (s : DebugLogger) (now : ℚ) :
    isLogging (startLogging s now) = true := by
  simp [isLogging, startLogging]

/-- C9. After `stopLogging` and `startLogging`, from any state, the callback
counter is 0 and the stored sample rate and block size are the sentinel -1; the next
`checkAudioCallbackProperties` with a sample rate and a block size other than -1
appends to the pending audio changes a `SampleRateChange` and a `BufferSizeChange`,
each with the sentinel as old and the supplied value as new value. -/
theorem stop_start_resets_audio_properties (s : DebugLogger) (sampleRate : ℚ)
    (samplesPerBlock : Int) (t₀ t₁ t₂ : ℚ) (hsr : sampleRate ≠ -1)
    (hbs : samplesPerBlock ≠ -1) :
    (startLogging (stopLogging s) t₀).callbackIndex = 0
      ∧ (startLogging (stopLogging s) t₀).lastSampleRate = -1
      ∧ (startLogging (stopLogging s) t₀).lastSamplesPerBlock = -1
      ∧ (checkAudioCallbackProperties (startLogging (stopLogging s) t₀) sampleRate
          samplesPerBlock t₁ t₂).pendingAudioChanges
        = s.pendingAudioChanges
          ++ [AudioSettingChange.new s.messageIndex 1 ((1 / 1000) * (t₁ - t₀))
                FailureType.SampleRateChange (-1) sampleRate,
              AudioSettingChange.new (s.messageIndex + 1) 1 ((1 / 1000) * (t₂ - t₀))
                FailureType.BufferSizeChange (-1) samplesPerBlock] := by
  simp [checkAudioCallbackProperties, addAudioDeviceChange, isLogging, startLogging,
    stopLogging, getCurrentTimeStamp, hsr, hbs]

theorem stop_start_resets_audio_properties_witness :
    (44100 : ℚ) ≠ -1 ∧ (512 : Int) ≠ -1
      ∧ (checkAudioCallbackProperties (startLogging (stopLogging constructed) 0) 44100 512 3
          4).pendingAudioChanges
        = [AudioSettingChange.new 0 1 (3 / 1000) FailureType.SampleRateChange (-1) 44100,
           AudioSettingChange.new 1 1 (4 / 1000) FailureType.BufferSizeChange (-1) 512] :=
  ⟨by decide, by decide,
   (stop_start_resets_audio_properties constructed 44100 512 0 3 4
      (by decide) (by decide)).2.2.2.trans (by norm_num [constructed])⟩

/-! ## What a drain takes out of the queues -/

theorem swapOut_fst {α : Type} (q : List α) : (swapOut q).1 = q := by
  cases q <;> simp [swapOut]

theorem swapOut_snd {α : Type} (q : List α) : (swapOut q).2 = [] := by
  cases q <;> simp [swapOut]

theorem drainedMessages_eq (s : DebugLogger) :
    drainedMessages s = sortMessages (mergeCopies s.pendingPerformanceWarnings s.pendingEvents
      s.pendingFailures s.pendingStringMessages s.pendingAudioChanges
      s.pendingParameterChanges) := by
  simp [drainedMessages, swapOut_fst]

theorem drainedMessages_perm_mergeCopies (s : DebugLogger) :
    List.Perm (drainedMessages s) (mergeCopies s.pendingPerformanceWarnings s.pendingEvents
      s.pendingFailures s.pendingStringMessages s.pendingAudioChanges
      s.pendingParameterChanges) := by
  rw [drainedMessages_eq]
  exact List.perm_insertionSort _ _

theorem mergeCopies_perm_pendingEntries (s : DebugLogger) :
    List.Perm (mergeCopies s.pendingPerformanceWarnings s.pendingEvents
      s.pendingFailures s.pendingStringMessages s.pendingAudioChanges
      s.pendingParameterChanges) (pendingEntries s) := by
  apply List.perm_iff_count.mpr
  intro a
  simp only [mergeCopies, pendingEntries, List.count_append]
  omega

theorem drainedMessages_perm (s : DebugLogger) :
    List.Perm (drainedMessages s) (pendingEntries s) :=
  (drainedMessages_perm_mergeCopies s).trans (mergeCopies_perm_pendingEntries s)

theorem drainedMessages_parameterChanges (s : DebugLogger) :
    List.Perm ((drainedMessages s).filterMap Entry.asParameterChange)
      s.pendingParameterChanges := by
  have h := (drainedMessages_perm_mergeCopies s).filterMap Entry.asParameterChange
  have e : (mergeCopies s.pendingPerformanceWarnings s.pendingEvents
      s.pendingFailures s.pendingStringMessages s.pendingAudioChanges
      s.pendingParameterChanges).filterMap Entry.asParameterChange
      = s.pendingParameterChanges := by
    have z : ∀ (α : Type) (l : List α),
        l.filterMap (fun _ => (none : Option ParameterChange)) = [] := by
      intro α l
      induction l with
      | nil => rfl
      | cons a l ih => simp
    simp [mergeCopies, List.filterMap_append, List.filterMap_map, Function.comp_def,
      Entry.asParameterChange, z]
  rw [e] at h
  exact h

theorem getLast_concat (q : List ParameterChange) (c : ParameterChange) :
    getLast (q ++ [c]) = c := by
  simp [getLast]

/-- C8. While logging, two consecutive `logParameterChange` calls of a front
interface processor for the same control, with `v₁` and then `v₂`, leave one entry
for the pair at the end of the pending parameter changes, carrying `v₂`: the queue is
what the first call kept of the old queue, followed by that entry. The parameter
changes the next drain serialises are exactly these. -/
theorem logParameterChange_twice_coalesces (s : DebugLogger) (c : ScriptComponent)
    (v₁ v₂ : var) (t₁ t₂ : ℚ) (h : isLogging s = true) :
    (logParameterChange
        (logParameterChange s (JavascriptProcessor.midiProcessor true) (some c) v₁ t₁)
        (JavascriptProcessor.midiProcessor true) (some c) v₂ t₂).pendingParameterChanges
      = (if (getLast s.pendingParameterChanges).id = c.getName
          then s.pendingParameterChanges.dropLast else s.pendingParameterChanges)
        ++ [ParameterChange.new (s.messageIndex + 1) s.callbackIndex
              (getCurrentTimeStamp s t₂) c.getName v₂]
    ∧ List.Perm
        ((drainedMessages (logParameterChange
            (logParameterChange s (JavascriptProcessor.midiProcessor true) (some c) v₁ t₁)
            (JavascriptProcessor.midiProcessor true) (some c) v₂ t₂)).filterMap
          Entry.asParameterChange)
        ((if (getLast s.pendingParameterChanges).id = c.getName
          then s.pendingParameterChanges.dropLast else s.pendingParameterChanges)
        ++ [ParameterChange.new (s.messageIndex + 1) s.callbackIndex
              (getCurrentTimeStamp s t₂) c.getName v₂]) := by
  have step : ∀ (r : DebugLogger) (v : var) (t : ℚ), isLogging r = true →
      logParameterChange r (JavascriptProcessor.midiProcessor true) (some c) v t
        = { r with
            messageIndex := r.messageIndex + 1,
            pendingParameterChanges :=
              (if (getLast r.pendingParameterChanges).id = c.getName
                then r.pendingParameterChanges.dropLast else r.pendingParameterChanges)
              ++ [ParameterChange.new r.messageIndex r.callbackIndex
                    (getCurrentTimeStamp r t) c.getName v] } := by
    intro r v t hr
    simp [logParameterChange, hr]
  have hq : (logParameterChange
        (logParameterChange s (JavascriptProcessor.midiProcessor true) (some c) v₁ t₁)
        (JavascriptProcessor.midiProcessor true) (some c) v₂ t₂).pendingParameterChanges
      = (if (getLast s.pendingParameterChanges).id = c.getName
          then s.pendingParameterChanges.dropLast else s.pendingParameterChanges)
        ++ [ParameterChange.new (s.messageIndex + 1) s.callbackIndex
              (getCurrentTimeStamp s t₂) c.getName v₂] := by
    rw [step s v₁ t₁ h, step _ v₂ t₂ (by simpa [isLogging] using h)]
    simp [getLast_concat, ParameterChange.new, getCurrentTimeStamp]
  refine ⟨hq, ?_⟩
  rw [← hq]
  exact drainedMessages_parameterChanges _

theorem logParameterChange_twice_coalesces_witness :
    isLogging (startLogging constructed 0) = true
      ∧ (logParameterChange
          (logParameterChange (startLogging constructed 0)
            (JavascriptProcessor.midiProcessor true) (some ⟨⟨"Knob1"⟩⟩) (var.int 1) 5)
          (JavascriptProcessor.midiProcessor true) (some ⟨⟨"Knob1"⟩⟩) (var.int 2)
          6).pendingParameterChanges.map (fun c => (c.id.name, c.value))
        = [("Knob1", var.int 2)] :=
  ⟨by decide, by
    rw [(logParameterChange_twice_coalesces (startLogging constructed 0) ⟨⟨"Knob1"⟩⟩
      (var.int 1) (var.int 2) 5 6 (by decide)).1]
    decide⟩

/-! ## The scan of checkSampleData -/

theorem foldl_minMax (rest : List ℚ) :
    ∀ lo hi : ℚ,
      (((rest.foldl (fun r v => (if v < r.1 then v else r.1, if r.2 < v then v else r.2))
            (lo, hi)).2 = hi
          ∨ (rest.foldl (fun r v => (if v < r.1 then v else r.1, if r.2 < v then v else r.2))
            (lo, hi)).2 ∈ rest)
        ∧ hi ≤ (rest.foldl (fun r v => (if v < r.1 then v else r.1, if r.2 < v then v else r.2))
            (lo, hi)).2
        ∧ ∀ x ∈ rest, x ≤ (rest.foldl
            (fun r v => (if v < r.1 then v else r.1, if r.2 < v then v else r.2)) (lo, hi)).2)
      ∧ (((rest.foldl (fun r v => (if v < r.1 then v else r.1, if r.2 < v then v else r.2))
            (lo, hi)).1 = lo
          ∨ (rest.foldl (fun r v => (if v < r.1 then v else r.1, if r.2 < v then v else r.2))
            (lo, hi)).1 ∈ rest)
        ∧ (rest.foldl (fun r v => (if v < r.1 then v else r.1, if r.2 < v then v else r.2))
            (lo, hi)).1 ≤ lo
        ∧ ∀ x ∈ rest, (rest.foldl
            (fun r v => (if v < r.1 then v else r.1, if r.2 < v then v else r.2)) (lo, hi)).1
            ≤ x) := by
  induction rest with
  | nil => intro lo hi; simp
  | cons v rest ih =>
    intro lo hi
    simp only [List.foldl_cons]
    obtain ⟨⟨h1, h2, h3⟩, h4, h5, h6⟩ :=
      ih (if v < lo then v else lo) (if hi < v then v else hi)
    refine ⟨⟨?_, ?_, ?_⟩, ?_, ?_, ?_⟩
    · rcases h1 with h1 | h1
      · rw [h1]
        by_cases c : hi < v
        · simp [c]
        · simp [c]
      · exact Or.inr (List.mem_cons_of_mem _ h1)
    · refine le_trans ?_ h2
      by_cases c : hi < v
      · simp [c, le_of_lt c]
      · simp [c]
    · intro x hx
      rcases List.mem_cons.mp hx with hx | hx
      · subst hx
        refine le_trans ?_ h2
        by_cases c : hi < x
        · simp [c]
        · simp [c, not_lt.mp c]
      · exact h3 x hx
    · rcases h4 with h4 | h4
      · rw [h4]
        by_cases c : v < lo
        · simp [c]
        · simp [c]
      · exact Or.inr (List.mem_cons_of_mem _ h4)
    · refine le_trans h5 ?_
      by_cases c : v < lo
      · simp [c, le_of_lt c]
      · simp [c]
    · intro x hx
      rcases List.mem_cons.mp hx with hx | hx
      · subst hx
        refine le_trans h5 ?_
        by_cases c : x < lo
        · simp [c]
        · simp [c, not_lt.mp c]
      · exact h6 x hx

/-- On a buffer with at least one sample `findMinAndMax` returns the least and the
greatest sample. -/
theorem findMinAndMax_spec (data : List ℚ) (h : data ≠ []) :
    (findMinAndMax data).1 ∈ data ∧ (∀ x ∈ data, (findMinAndMax data).1 ≤ x)
      ∧ (findMinAndMax data).2 ∈ data ∧ (∀ x ∈ data, x ≤ (findMinAndMax data).2) := by
  cases data with
  | nil => exact absurd rfl h
  | cons first rest =>
    obtain ⟨⟨h1, h2, h3⟩, h4, h5, h6⟩ := foldl_minMax rest first first
    simp only [findMinAndMax]
    refine ⟨?_, ?_, ?_, ?_⟩
    · rcases h4 with h4 | h4
      · rw [h4]; exact List.mem_cons_self _ _
      · exact List.mem_cons_of_mem _ h4
    · intro x hx
      rcases List.mem_cons.mp hx with hx | hx
      · rw [hx]; exact h5
      · exact h6 x hx
    · rcases h1 with h1 | h1
      · rw [h1]; exact List.mem_cons_self _ _
      · exact List.mem_cons_of_mem _ h1
    · intro x hx
      rcases List.mem_cons.mp hx with hx | hx
      · rw [hx]; exact h2
      · exact h3 x hx

theorem max_gt_iff (data : List ℚ) :
    (findMinAndMax data).2 > maxValue ↔ ∃ x ∈ data, x > maxValue := by
  cases data with
  | nil => simp [findMinAndMax, maxValue]
  | cons first rest =>
    obtain ⟨_, _, h3, h4⟩ := findMinAndMax_spec (first :: rest) (by simp)
    constructor
    · intro h; exact ⟨_, h3, h⟩
    · rintro ⟨x, hx, hgt⟩; exact lt_of_lt_of_le hgt (h4 x hx)

theorem min_lt_iff (data : List ℚ) :
    (findMinAndMax data).1 < -maxValue ↔ ∃ x ∈ data, x < -maxValue := by
  cases data with
  | nil => simp [findMinAndMax, maxValue]
  | cons first rest =>
    obtain ⟨h1, h2, _, _⟩ := findMinAndMax_spec (first :: rest) (by simp)
    constructor
    · intro h; exact ⟨_, h1, h⟩
    · rintro ⟨x, hx, hlt⟩; exact lt_of_le_of_lt (h2 x hx) hlt

/-- The scan reports an error exactly when some sample has a magnitude above 32. -/
theorem isError_iff (data : List ℚ) : isError data = true ↔ ∃ x ∈ data, 32 < |x| := by
  simp only [isError, Bool.or_eq_true, decide_eq_true_eq, max_gt_iff, min_lt_iff]
  constructor
  · rintro (⟨x, hx, h⟩ | ⟨x, hx, h⟩)
    · exact ⟨x, hx, lt_abs.mpr (Or.inl h)⟩
    · exact ⟨x, hx, lt_abs.mpr (Or.inr (by simp only [maxValue] at h; linarith))⟩
  · rintro ⟨x, hx, h⟩
    rcases lt_abs.mp h with h | h
    · exact Or.inl ⟨x, hx, h⟩
    · exact Or.inr ⟨x, hx, by simp only [maxValue]; linarith⟩

theorem countP_above_below (data : List ℚ) :
    data.countP (fun x => decide (x > maxValue)) + data.countP (fun x => decide (x < -maxValue))
      = data.countP (fun x => decide (32 < |x|)) := by
  induction data with
  | nil => rfl
  | cons a l ih =>
    simp only [List.countP_cons, maxValue] at ih ⊢
    by_cases h1 : a > 32
    · have h2 : ¬ a < -32 := by linarith
      have h3 : 32 < |a| := lt_abs.mpr (Or.inl h1)
      simp only [h1, h2, h3, decide_True, decide_False, if_true]
      simp only [Bool.false_eq_true, if_false]
      omega
    · by_cases h2 : a < -32
      · have h3 : 32 < |a| := lt_abs.mpr (Or.inr (by linarith))
        simp only [h1, h2, h3, decide_True, decide_False, if_true]
        simp only [Bool.false_eq_true, if_false]
        omega
      · have h3 : ¬ 32 < |a| := by
          intro h
          rcases lt_abs.mp h with h | h
          · exact h1 h
          · exact h2 (by linarith)
        simp only [h1, h2, h3, decide_False]
        simp only [Bool.false_eq_true, if_false]
        omega

/-- The two counting loops together count the samples with a magnitude above 32. -/
theorem numFaultySamples_eq (data : List ℚ) :
    numFaultySamples data = data.countP (fun x => decide (32 < |x|)) := by
  have ha : (if (findMinAndMax data).2 > maxValue
      then data.countP (fun x => decide (x > maxValue)) else 0)
      = data.countP (fun x => decide (x > maxValue)) := by
    by_cases h : (findMinAndMax data).2 > maxValue
    · simp [h]
    · rw [if_neg h]
      symm
      rw [List.countP_eq_zero]
      intro x hx
      have := mt (max_gt_iff data).mpr h
      simp only [decide_eq_true_eq]
      intro hgt
      exact this ⟨x, hx, hgt⟩
  have hb : ∀ n : Nat, (if (findMinAndMax data).1 < -maxValue
      then n + data.countP (fun x => decide (x < -maxValue)) else n)
      = n + data.countP (fun x => decide (x < -maxValue)) := by
    intro n
    by_cases h : (findMinAndMax data).1 < -maxValue
    · simp [h]
    · rw [if_neg h]
      have : data.countP (fun x => decide (x < -maxValue)) = 0 := by
        rw [List.countP_eq_zero]
        intro x hx
        have := mt (min_lt_iff data).mpr h
        simp only [decide_eq_true_eq]
        intro hlt
        exact this ⟨x, hx, hlt⟩
      omega
  simp only [numFaultySamples]
  rw [ha, hb, countP_above_below]

/-! ## checkSampleData -/

theorem checkSampleData_logging (s : DebugLogger) (p : Option Processor) (location : Location)
    (isLeftChannel : Bool) (data : List ℚ) (id : Identifier) (now : ℚ)
    (h : isLogging s = true) :
    checkSampleData s p location isLeftChannel data id now
      = if isError data then
          (false,
            { s with
              locationForErrorInCurrentCallback := location,
              messageIndex := s.messageIndex + 1,
              pendingFailures := s.pendingFailures
                ++ [Failure.new s.messageIndex s.callbackIndex location
                      (if numFaultySamples data = 1 then
                        (if isLeftChannel then FailureType.ClickLeft
                          else FailureType.ClickRight)
                       else
                        (if isLeftChannel then FailureType.BurstLeft
                          else FailureType.BurstRight))
                      p (getCurrentTimeStamp s now) (errorValue data) id] })
        else (true, s) := by
  simp only [checkSampleData, h, addFailure]
  rfl

/-- C2. While logging, `checkSampleData` returns true exactly when every sample of
the buffer lies in [-32, 32]; when it returns true the logger, and so the pending
failure queue, is unchanged, and when it returns false exactly one `Failure` has been
appended to the pending failures. -/
theorem checkSampleData_true_iff_in_range (s : DebugLogger) (p : Option Processor)
    (location : Location) (isLeftChannel : Bool) (data : List ℚ) (id : Identifier) (now : ℚ)
    (h : isLogging s = true) :
    ((checkSampleData s p location isLeftChannel data id now).1 = true
        ↔ ∀ x ∈ data, -32 ≤ x ∧ x ≤ 32)
      ∧ ((checkSampleData s p location isLeftChannel data id now).1 = true
          → (checkSampleData s p location isLeftChannel data id now).2 = s)
      ∧ ((checkSampleData s p location isLeftChannel data id now).1 = false
          → ∃ f : Failure,
              (checkSampleData s p location isLeftChannel data id now).2.pendingFailures
                = s.pendingFailures ++ [f]) := by
  rw [checkSampleData_logging s p location isLeftChannel data id now h]
  by_cases he : isError data = true
  · have hex := (isError_iff data).mp he
    simp only [he, if_true]
    refine ⟨?_, ?_, ?_⟩
    · constructor
      · intro hf; exact absurd hf (by simp)
      · intro hall
        obtain ⟨x, hx, habs⟩ := hex
        obtain ⟨h1, h2⟩ := hall x hx
        exact absurd (abs_le.mpr ⟨h1, h2⟩) (not_le.mpr habs)
    · intro hf; exact absurd hf (by simp)
    · intro _; exact ⟨_, rfl⟩
  · have hne : ¬ ∃ x ∈ data, 32 < |x| := fun hex => he ((isError_iff data).mpr hex)
    simp only [he]
    refine ⟨?_, ?_, ?_⟩
    · constructor
      · intro _ x hx
        have hx32 : |x| ≤ 32 := not_lt.mp (fun hlt => hne ⟨x, hx, hlt⟩)
        exact abs_le.mp hx32
      · intro _; rfl
    · intro _; rfl
    · intro hf; exact absurd hf (by simp)

theorem checkSampleData_true_iff_in_range_witness :
    isLogging (startLogging constructed 0) = true
      ∧ ((checkSampleData (startLogging constructed 0) none Location.SampleRendering true
            [0, 31, -32] Identifier.null 0).1 = true
          ↔ ∀ x ∈ [(0 : ℚ), 31, -32], -32 ≤ x ∧ x ≤ 32) :=
  ⟨by decide,
   (checkSampleData_true_iff_in_range (startLogging constructed 0) none
      Location.SampleRendering true [0, 31, -32] Identifier.null 0 (by decide)).1⟩

/-- C3. While logging, for a buffer with at least one sample of magnitude above 32,
`checkSampleData` appends one `Failure` whose kind is ClickLeft (left channel) or
ClickRight when exactly one sample has a magnitude above 32, and BurstLeft or
BurstRight when two or more have, samples above 32 and below -32 counted together. -/
theorem checkSampleData_click_or_burst (s : DebugLogger) (p : Option Processor)
    (location : Location) (isLeftChannel : Bool) (data : List ℚ) (id : Identifier) (now : ℚ)
    (h : isLogging s = true) (hex : ∃ x ∈ data, 32 < |x|) :
    ∃ f : Failure,
      (checkSampleData s p location isLeftChannel data id now).2.pendingFailures
          = s.pendingFailures ++ [f]
        ∧ (data.countP (fun x => decide (32 < |x|)) = 1 →
            f.type = if isLeftChannel then FailureType.ClickLeft else FailureType.ClickRight)
        ∧ (2 ≤ data.countP (fun x => decide (32 < |x|)) →
            f.type = if isLeftChannel then FailureType.BurstLeft
              else FailureType.BurstRight) := by
  rw [checkSampleData_logging s p location isLeftChannel data id now h]
  simp only [(isError_iff data).mpr hex, if_true, numFaultySamples_eq]
  refine ⟨_, rfl, ?_, ?_⟩
  · intro h1
    simp [Failure.new, h1]
  · intro h2
    have : ¬ data.countP (fun x => decide (32 < |x|)) = 1 := by omega
    simp [Failure.new, this]

theorem checkSampleData_click_or_burst_witness :
    isLogging (startLogging constructed 0) = true
      ∧ (∃ x ∈ [(40 : ℚ), 0, -33], 32 < |x|)
      ∧ ∃ f : Failure,
          (checkSampleData (startLogging constructed 0) none Location.SampleRendering false
            [40, 0, -33] Identifier.null 0).2.pendingFailures
              = (startLogging constructed 0).pendingFailures ++ [f]
            ∧ ([(40 : ℚ), 0, -33].countP (fun x => decide (32 < |x|)) = 1 →
                f.type = if false then FailureType.ClickLeft else FailureType.ClickRight)
            ∧ (2 ≤ [(40 : ℚ), 0, -33].countP (fun x => decide (32 < |x|)) →
                f.type = if false then FailureType.BurstLeft else FailureType.BurstRight) :=
  ⟨by decide, ⟨40, by simp, by norm_num⟩,
   checkSampleData_click_or_burst (startLogging constructed 0) none Location.SampleRendering
     false [40, 0, -33] Identifier.null 0 (by decide) ⟨40, by simp, by norm_num⟩⟩

theorem errorValue_eq (data : List ℚ) :
    errorValue data
      = if (findMinAndMax data).1 < -maxValue then (findMinAndMax data).1
        else if (findMinAndMax data).2 > maxValue then (findMinAndMax data).2 else 0 := by
  simp [errorValue]

/-- C4 (counterexample). For the buffer [100, -33] the recorded extra value is -33,
which is not the sample of greatest magnitude: 100 has a greater one. -/
theorem checkSampleData_extraValue_counterexample :
    isLogging (startLogging constructed 0) = true
      ∧ (checkSampleData (startLogging constructed 0) none Location.SampleRendering true
          [100, -33] Identifier.null 0).2.pendingFailures.map (fun f => f.extraValue) = [-33]
      ∧ ¬ (∀ x ∈ [(100 : ℚ), -33], |x| ≤ |(-33 : ℚ)|) := by
  refine ⟨by decide, by decide, ?_⟩
  intro hall
  have h100 := hall 100 (by simp)
  norm_num [abs_le] at h100

/-- C4 (amended). While logging, for a buffer containing a sample of magnitude
above 32, the extra value of the `Failure` that `checkSampleData` records is a sample
of the buffer: the least one when some sample is below -32, and the greatest one
otherwise. When the samples exceed the threshold on one side only, it is the sample
of greatest magnitude. -/
theorem checkSampleData_extraValue (s : DebugLogger) (p : Option Processor)
    (location : Location) (isLeftChannel : Bool) (data : List ℚ) (id : Identifier) (now : ℚ)
    (h : isLogging s = true) (hex : ∃ x ∈ data, 32 < |x|) :
    ∃ f : Failure,
      (checkSampleData s p location isLeftChannel data id now).2.pendingFailures
          = s.pendingFailures ++ [f]
        ∧ f.extraValue ∈ data
        ∧ ((∃ x ∈ data, x < -32) → ∀ x ∈ data, f.extraValue ≤ x)
        ∧ ((¬ ∃ x ∈ data, x < -32) → ∀ x ∈ data, x ≤ f.extraValue)
        ∧ (((¬ ∃ x ∈ data, x < -32) ∨ (¬ ∃ x ∈ data, 32 < x)) →
            ∀ x ∈ data, |x| ≤ |f.extraValue|) := by
  rw [checkSampleData_logging s p location isLeftChannel data id now h]
  simp only [(isError_iff data).mpr hex, if_true]
  refine ⟨_, rfl, ?_⟩
  have hne : data ≠ [] := by
    rintro rfl
    obtain ⟨x, hx, _⟩ := hex
    simp at hx
  obtain ⟨hmin_mem, hmin_le, hmax_mem, hmax_le⟩ := findMinAndMax_spec data hne
  have hlow : (findMinAndMax data).1 < -maxValue ↔ ∃ x ∈ data, x < -32 := by
    simpa [maxValue] using min_lt_iff data
  have hhigh : (findMinAndMax data).2 > maxValue ↔ ∃ x ∈ data, 32 < x := by
    simpa [maxValue] using max_gt_iff data
  have hside : (∃ x ∈ data, x < -32) ∨ (∃ x ∈ data, 32 < x) := by
    obtain ⟨x, hx, habs⟩ := hex
    rcases lt_abs.mp habs with hgt | hlt
    · exact Or.inr ⟨x, hx, hgt⟩
    · exact Or.inl ⟨x, hx, by linarith⟩
  simp only [Failure.new, errorValue_eq]
  by_cases hl : ∃ x ∈ data, x < -32
  · have hl' := hlow.mpr hl
    simp only [hl', if_true]
    refine ⟨hmin_mem, fun _ => hmin_le, fun hn => absurd hl hn, ?_⟩
    intro hor x hx
    have hnh : ¬ ∃ x ∈ data, 32 < x := by
      rcases hor with hor | hor
      · exact absurd hl hor
      · exact hor
    have hx32 : x ≤ 32 := not_lt.mp (fun hlt => hnh ⟨x, hx, hlt⟩)
    have hm : (findMinAndMax data).1 < -32 := by simpa [maxValue] using hl'
    rw [abs_of_neg (by linarith : (findMinAndMax data).1 < 0)]
    exact abs_le.mpr ⟨by linarith [hmin_le x hx], by linarith⟩
  · have hl' : ¬ (findMinAndMax data).1 < -maxValue := fun c => hl (hlow.mp c)
    have hh : ∃ x ∈ data, 32 < x := hside.resolve_left hl
    have hh' := hhigh.mpr hh
    simp only [hl', hh', if_true, if_false]
    refine ⟨hmax_mem, fun c => absurd c hl, fun _ => hmax_le, ?_⟩
    intro _ x hx
    have hx32 : -32 ≤ x := not_lt.mp (fun hlt => hl ⟨x, hx, hlt⟩)
    have hm : 32 < (findMinAndMax data).2 := by simpa [maxValue] using hh'
    rw [abs_of_pos (by linarith : (0 : ℚ) < (findMinAndMax data).2)]
    exact abs_le.mpr ⟨by linarith, hmax_le x hx⟩

theorem checkSampleData_extraValue_witness :
    isLogging (startLogging constructed 0) = true
      ∧ (∃ x ∈ [(100 : ℚ), -33], 32 < |x|)
      ∧ ∃ f : Failure,
          (checkSampleData (startLogging constructed 0) none Location.SampleRendering true
            [100, -33] Identifier.null 0).2.pendingFailures
              = (startLogging constructed 0).pendingFailures ++ [f]
            ∧ f.extraValue ∈ [(100 : ℚ), -33]
            ∧ ((∃ x ∈ [(100 : ℚ), -33], x < -32) → ∀ x ∈ [(100 : ℚ), -33], f.extraValue ≤ x)
            ∧ ((¬ ∃ x ∈ [(100 : ℚ), -33], x < -32) →
                ∀ x ∈ [(100 : ℚ), -33], x ≤ f.extraValue)
            ∧ (((¬ ∃ x ∈ [(100 : ℚ), -33], x < -32) ∨ (¬ ∃ x ∈ [(100 : ℚ), -33], 32 < x)) →
                ∀ x ∈ [(100 : ℚ), -33], |x| ≤ |f.extraValue|) :=
  ⟨by decide, ⟨100, by simp, by norm_num⟩,
   checkSampleData_extraValue (startLogging constructed 0) none Location.SampleRendering
     true [100, -33] Identifier.null 0 (by decide) ⟨100, by simp, by norm_num⟩⟩

/-! ## Order of the drained entries -/

theorem sortsBefore_iff (a b : Entry) : sortsBefore a b ↔ a.messageIndex ≤ b.messageIndex := by
  unfold sortsBefore compareElements
  by_cases h : a.messageIndex > b.messageIndex
  · simp only [h, if_true]
    constructor
    · intro c; exact absurd c (by decide)
    · intro c; omega
  · simp only [h, if_false]
    constructor
    · intro _; omega
    · intro _; decide

theorem sortMessages_sorted (messages : List Entry) :
    List.Pairwise (fun a b => a.messageIndex ≤ b.messageIndex) (sortMessages messages) := by
  haveI : IsTotal Entry sortsBefore :=
    ⟨fun a b => by simp only [sortsBefore_iff]; exact le_total _ _⟩
  haveI : IsTrans Entry sortsBefore :=
    ⟨fun a b c => by simp only [sortsBefore_iff]; exact le_trans⟩
  have h : List.Sorted sortsBefore (sortMessages messages) :=
    List.sorted_insertionSort sortsBefore messages
  exact List.Pairwise.imp (fun hab => (sortsBefore_iff _ _).mp hab) h

theorem drainedMessages_sorted (s : DebugLogger) :
    List.Pairwise (fun a b => a.messageIndex ≤ b.messageIndex) (drainedMessages s) := by
  rw [drainedMessages_eq]
  exact sortMessages_sorted _

theorem entriesWritten_writeMessages (messages : List Entry) :
    ∀ trace : String, entriesWritten (writeMessages trace messages).1 = messages := by
  induction messages with
  | nil => intro trace; rfl
  | cons m rest ih =>
    intro trace
    by_cases c : (m.shouldPrintBacktrace && decide (trace ≠ "")) = true
    · simp only [writeMessages, c, if_true]
      simp only [entriesWritten, List.filterMap_cons]
      have := ih ""
      simp only [entriesWritten] at this
      rw [this]
    · simp only [writeMessages, c]
      simp only [entriesWritten, List.filterMap_cons]
      have := ih trace
      simp only [entriesWritten] at this
      simp [this]

theorem appendToLogFile_nil (files : List (List LogBlock)) : appendToLogFile files [] = files := by
  cases files <;> simp [appendToLogFile]

theorem writeMessages_nil (trace : String) : writeMessages trace [] = ([], trace) := rfl

/-- What a drain appends to the current log file: the blocks of the writing loop over
the sorted entries. -/
theorem timerCallback_logFiles (s : DebugLogger) :
    (timerCallback s).logFiles
      = appendToLogFile s.logFiles (writeMessages s.actualBackTrace (drainedMessages s)).1 := by
  unfold timerCallback
  by_cases hm : (drainedMessages s).isEmpty = true
  · have : drainedMessages s = [] := List.isEmpty_iff.mp hm
    simp [this, appendToLogFile_nil, writeMessages_nil]
  · by_cases hc : (decide ((swapOut s.pendingPerformanceWarnings).1.length ≠ 0)
        || decide ((swapOut s.pendingFailures).1.length ≠ 0)) = true
    · simp only [hm, hc, Bool.not_false, if_true]
    · simp only [hm, hc, Bool.not_false, if_true]
      simp

/-- C7. When the entries of the six pending queues carry pairwise distinct sequence
indices, the entries a drain writes to the current log file are exactly the pending
entries, each once, in strictly ascending order of their sequence indices. -/
theorem timerCallback_writes_in_index_order (s : DebugLogger) (current : List LogBlock)
    (older : List (List LogBlock)) (hfile : s.logFiles = current :: older)
    (hdistinct : ((pendingEntries s).map Entry.messageIndex).Nodup) :
    ∃ blocks : List LogBlock,
      (timerCallback s).logFiles = (current ++ blocks) :: older
        ∧ List.Perm (entriesWritten blocks) (pendingEntries s)
        ∧ List.Sorted (fun i j : Int => i < j)
            ((entriesWritten blocks).map Entry.messageIndex) := by
  refine ⟨(writeMessages s.actualBackTrace (drainedMessages s)).1, ?_, ?_, ?_⟩
  · rw [timerCallback_logFiles, hfile]
    rfl
  · rw [entriesWritten_writeMessages]
    exact drainedMessages_perm s
  · rw [entriesWritten_writeMessages]
    have hnd : ((drainedMessages s).map Entry.messageIndex).Nodup :=
      (((drainedMessages_perm s).map Entry.messageIndex).nodup_iff).mpr hdistinct
    have hne : List.Pairwise (fun a b : Entry => a.messageIndex ≠ b.messageIndex)
        (drainedMessages s) := by
      simpa [List.Nodup, List.pairwise_map] using hnd
    have hlt : List.Pairwise (fun a b : Entry => a.messageIndex < b.messageIndex)
        (drainedMessages s) :=
      ((drainedMessages_sorted s).and hne).imp (fun h => lt_of_le_of_ne h.1 h.2)
    simpa [List.Sorted, List.pairwise_map] using hlt

theorem timerCallback_writes_in_index_order_witness :
    windowThreeOneTwo.logFiles = [LogBlock.header, LogBlock.systemSpecs] :: []
      ∧ ((pendingEntries windowThreeOneTwo).map Entry.messageIndex).Nodup
      ∧ ∃ blocks : List LogBlock,
          (timerCallback windowThreeOneTwo).logFiles
              = ([LogBlock.header, LogBlock.systemSpecs] ++ blocks) :: []
            ∧ List.Perm (entriesWritten blocks) (pendingEntries windowThreeOneTwo)
            ∧ List.Sorted (fun i j : Int => i < j)
                ((entriesWritten blocks).map Entry.messageIndex) :=
  ⟨by decide, by decide,
   timerCallback_writes_in_index_order windowThreeOneTwo
     [LogBlock.header, LogBlock.systemSpecs] [] (by decide) (by decide)⟩

/-- The example of the specification: entries merged in the order 3, 1, 2 are
written in the order 1, 2, 3. -/
theorem windowThreeOneTwo_order :
    (mergeCopies windowThreeOneTwo.pendingPerformanceWarnings windowThreeOneTwo.pendingEvents
        windowThreeOneTwo.pendingFailures windowThreeOneTwo.pendingStringMessages
        windowThreeOneTwo.pendingAudioChanges
        windowThreeOneTwo.pendingParameterChanges).map Entry.messageIndex = [3, 1, 2]
      ∧ ((timerCallback windowThreeOneTwo).logFiles.map
          (fun file => (entriesWritten file).map Entry.messageIndex)) = [[1, 2, 3]] := by
  decide

/-! ## The error count of a session -/

theorem countP_isErrorEntry_mergeCopies (ws : List PerformanceWarning) (es : List Event)
    (fs : List Failure) (ms : List StringMessage) (as : List AudioSettingChange)
    (cs : List ParameterChange) :
    (mergeCopies ws es fs ms as cs).countP Entry.isErrorEntry = fs.length + ws.length := by
  have hw : (ws.map Entry.warning).countP Entry.isErrorEntry = ws.length := by
    induction ws with
    | nil => rfl
    | cons a l ih => simp [List.countP_cons, Entry.isErrorEntry, ih]
  have he : (es.map Entry.event).countP Entry.isErrorEntry = 0 := by
    induction es with
    | nil => rfl
    | cons a l ih => simp [List.countP_cons, Entry.isErrorEntry, ih]
  have hf : (fs.map Entry.failure).countP Entry.isErrorEntry = fs.length := by
    induction fs with
    | nil => rfl
    | cons a l ih => simp [List.countP_cons, Entry.isErrorEntry, ih]
  have hm : (ms.map Entry.stringMessage).countP Entry.isErrorEntry = 0 := by
    induction ms with
    | nil => rfl
    | cons a l ih => simp [List.countP_cons, Entry.isErrorEntry, ih]
  have ha : (as.map Entry.audioChange).countP Entry.isErrorEntry = 0 := by
    induction as with
    | nil => rfl
    | cons a l ih => simp [List.countP_cons, Entry.isErrorEntry, ih]
  have hc : (cs.map Entry.parameterChange).countP Entry.isErrorEntry = 0 := by
    induction cs with
    | nil => rfl
    | cons a l ih => simp [List.countP_cons, Entry.isErrorEntry, ih]
  simp only [mergeCopies, List.countP_append, hw, he, hf, hm, ha, hc]
  omega

theorem countP_isErrorEntry_drainedMessages (s : DebugLogger) :
    (drainedMessages s).countP Entry.isErrorEntry
      = s.pendingFailures.length + s.pendingPerformanceWarnings.length := by
  rw [(drainedMessages_perm_mergeCopies s).countP_eq, countP_isErrorEntry_mergeCopies]

theorem errorEntriesIn_append (a b : List LogBlock) :
    errorEntriesIn (a ++ b) = errorEntriesIn a + errorEntriesIn b := by
  simp [errorEntriesIn, List.countP_append]

theorem errorEntriesIn_writeMessages (messages : List Entry) :
    ∀ trace : String,
      errorEntriesIn (writeMessages trace messages).1 = messages.countP Entry.isErrorEntry := by
  induction messages with
  | nil => intro trace; rfl
  | cons m rest ih =>
    intro trace
    by_cases c : (m.shouldPrintBacktrace && decide (trace ≠ "")) = true
    · simp only [writeMessages, c, if_true]
      have := ih ""
      simp only [errorEntriesIn] at this ⊢
      simp only [List.countP_cons, this]
      simp
    · simp only [writeMessages, c, Bool.false_eq_true, if_false]
      have := ih trace
      simp only [errorEntriesIn] at this ⊢
      simp only [List.countP_cons, this]

/-- A drain adds the number of pending failures and performance warnings to the
error count, and leaves the started flag alone. -/
theorem timerCallback_errors (s : DebugLogger) :
    (timerCallback s).currentlyLogging = s.currentlyLogging
      ∧ (timerCallback s).numErrorsSinceLogStart
          = s.numErrorsSinceLogStart
            + (s.pendingFailures.length + s.pendingPerformanceWarnings.length : Nat) := by
  have hcount := countP_isErrorEntry_drainedMessages s
  unfold timerCallback
  by_cases hm : (drainedMessages s).isEmpty = true
  · have hnil : drainedMessages s = [] := List.isEmpty_iff.mp hm
    rw [hnil] at hcount
    simp only [List.countP_nil] at hcount
    simp only [hnil, List.isEmpty_nil, Bool.not_true]
    constructor
    · simp
    · simp only [Bool.false_eq_true, if_false]
      rw [← hcount]
      simp
  · simp only [hm, Bool.not_false, if_true, swapOut_fst]
    by_cases hc : (decide (s.pendingPerformanceWarnings.length ≠ 0)
        || decide (s.pendingFailures.length ≠ 0)) = true
    · simp only [hc, if_true]
      constructor
      · trivial
      · push_cast
        ring
    · simp only [hc]
      have hz : s.pendingPerformanceWarnings.length = 0 ∧ s.pendingFailures.length = 0 := by
        simpa using hc
      constructor
      · simp
      · simp [hz.1, hz.2]

theorem logEvent_fields (s : DebugLogger) (e : HiseEvent) :
    (logEvent s e).currentlyLogging = s.currentlyLogging
      ∧ (logEvent s e).numErrorsSinceLogStart = s.numErrorsSinceLogStart
      ∧ (logEvent s e).logFiles = s.logFiles := by
  unfold logEvent
  split <;> simp

theorem foldl_logEvent_fields (b : List HiseEvent) :
    ∀ s : DebugLogger,
      (b.foldl logEvent s).currentlyLogging = s.currentlyLogging
        ∧ (b.foldl logEvent s).numErrorsSinceLogStart = s.numErrorsSinceLogStart
        ∧ (b.foldl logEvent s).logFiles = s.logFiles := by
  induction b with
  | nil => intro s; simp
  | cons e b ih =>
    intro s
    simp only [List.foldl_cons]
    obtain ⟨h1, h2, h3⟩ := ih (logEvent s e)
    obtain ⟨g1, g2, g3⟩ := logEvent_fields s e
    exact ⟨h1.trans g1, h2.trans g2, h3.trans g3⟩

/-- A call other than start and stop leaves the started flag alone, raises the error
count by the number of failures and warnings it drains, and appends to the current
log file only as a drain. -/
theorem op_apply_fields (s : DebugLogger) (op : Op) :
    (op.apply s).currentlyLogging = s.currentlyLogging
      ∧ (op.apply s).numErrorsSinceLogStart = s.numErrorsSinceLogStart + (op.errorsDrained s : Nat)
      ∧ (op.apply s).logFiles
          = match op with
            | .timerCallback =>
              appendToLogFile s.logFiles
                (writeMessages s.actualBackTrace (drainedMessages s)).1
            | _ => s.logFiles := by
  cases op with
  | timerCallback =>
    obtain ⟨h1, h2⟩ := timerCallback_errors s
    exact ⟨h1, h2, timerCallback_logFiles s⟩
  | logEvents b =>
    simp only [Op.apply, Op.errorsDrained, logEvents]
    split
    · obtain ⟨h1, h2, h3⟩ := foldl_logEvent_fields b s
      exact ⟨h1, by simpa using h2, h3⟩
    · simp
  | checkAudioCallbackProperties sr n t₁ t₂ =>
    simp only [Op.apply, Op.errorsDrained, checkAudioCallbackProperties, addAudioDeviceChange,
      isLogging]
    split <;> (try split) <;> (try split) <;> (try split) <;> simp
  | checkSampleData p l c data id t =>
    simp only [Op.apply, Op.errorsDrained, checkSampleData, addFailure]
    split <;> (try split) <;> simp
  | checkAssertion p l r x t =>
    simp only [Op.apply, Op.errorsDrained, checkAssertion, addFailure]
    split <;> (try split) <;> simp
  | checkPriorityInversion k t =>
    simp only [Op.apply, Op.errorsDrained, checkPriorityInversion, addFailure]
    split <;> (try split) <;> simp
  | checkPriorityInversionSpinLock k l p id t =>
    simp only [Op.apply, Op.errorsDrained, checkPriorityInversionSpinLock, addFailure]
    split <;> (try split) <;> simp
  | logMessage m t => simp [Op.apply, Op.errorsDrained, logMessage]
  | logPerformanceWarning d v t =>
    simp only [Op.apply, Op.errorsDrained, logPerformanceWarning, addPerformanceWarning]
    split <;> simp
  | logParameterChange p c v t =>
    simp only [Op.apply, Op.errorsDrained, logParameterChange]
    split <;> (try split) <;> simp
  | addStreamingFailure u t => simp [Op.apply, Op.errorsDrained, addStreamingFailure, addFailure]
  | setPerformanceWarningLevel n t =>
    simp [Op.apply, Op.errorsDrained, setPerformanceWarningLevel, logMessage]
  | addListener l =>
    simp only [Op.apply, Op.errorsDrained, addListener]
    split <;> simp
  | removeListener l => simp [Op.apply, Op.errorsDrained, removeListener]

theorem op_apply_errorEntries (s : DebugLogger) (op : Op) (current : List LogBlock)
    (older : List (List LogBlock)) (hfile : s.logFiles = current :: older) :
    ∃ current₁ : List LogBlock,
      (op.apply s).logFiles = current₁ :: older
        ∧ errorEntriesIn current₁ = errorEntriesIn current + op.errorsDrained s := by
  obtain ⟨_, _, h3⟩ := op_apply_fields s op
  cases op with
  | timerCallback =>
    refine ⟨current ++ (writeMessages s.actualBackTrace (drainedMessages s)).1, ?_, ?_⟩
    · rw [h3, hfile]; rfl
    · rw [errorEntriesIn_append, errorEntriesIn_writeMessages,
        countP_isErrorEntry_drainedMessages]
      rfl
  | _ => exact ⟨current, by rw [h3, hfile], rfl⟩

/-- Along a run without start and stop the started flag stays, the error count grows
by the failures and warnings the drains take out of the queues, and these are the
failure and warning entries appended to the current log file. -/
theorem run_errors (ops : List Op) :
    ∀ (s : DebugLogger) (current : List LogBlock) (older : List (List LogBlock)),
      s.logFiles = current :: older →
      (run s ops).currentlyLogging = s.currentlyLogging
        ∧ (run s ops).numErrorsSinceLogStart
            = s.numErrorsSinceLogStart + (drainedErrors s ops : Nat)
        ∧ ∃ current₁ : List LogBlock,
            (run s ops).logFiles = current₁ :: older
              ∧ errorEntriesIn current₁ = errorEntriesIn current + drainedErrors s ops := by
  induction ops with
  | nil =>
    intro s current older hfile
    exact ⟨rfl, by simp [run, drainedErrors], current, hfile, rfl⟩
  | cons op ops ih =>
    intro s current older hfile
    obtain ⟨c₁, hc₁, he₁⟩ := op_apply_errorEntries s op current older hfile
    obtain ⟨h1, h2, _⟩ := op_apply_fields s op
    obtain ⟨g1, g2, c₂, hc₂, he₂⟩ := ih (op.apply s) c₁ older hc₁
    have hrun : run s (op :: ops) = run (op.apply s) ops := rfl
    rw [hrun]
    refine ⟨g1.trans h1, ?_, c₂, hc₂, ?_⟩
    · rw [g2, h2]
      simp only [drainedErrors]
      push_cast
      ring
    · rw [he₂, he₁]
      simp only [drainedErrors]
      omega

/-- C6. In a session started by `startLogging` and continued by any calls other
than start and stop, the error count is the number of `Failure` and
`PerformanceWarning` entries the drains since the start took out of the queues (and
wrote to the current log file), and `isLogging` is true exactly while that number is
below 200: true up to 199, false at 200 and above. -/
theorem isLogging_iff_drained_below_200 (s₀ : DebugLogger) (now : ℚ) (ops : List Op) :
    (run (startLogging s₀ now) ops).numErrorsSinceLogStart
        = (drainedErrors (startLogging s₀ now) ops : Nat)
      ∧ (run (startLogging s₀ now) ops).logFiles.head?.map errorEntriesIn
        = some (drainedErrors (startLogging s₀ now) ops)
      ∧ isLogging (run (startLogging s₀ now) ops)
        = decide (drainedErrors (startLogging s₀ now) ops < 200) := by
  obtain ⟨h1, h2, c₁, hc₁, he₁⟩ :=
    run_errors ops (startLogging s₀ now) [LogBlock.header, LogBlock.systemSpecs] s₀.logFiles rfl
  have hstart : (startLogging s₀ now).numErrorsSinceLogStart = 0 := rfl
  have hflag : (startLogging s₀ now).currentlyLogging = true := rfl
  rw [hstart, zero_add] at h2
  refine ⟨h2, ?_, ?_⟩
  · rw [hc₁]
    simp only [List.head?_cons, Option.map_some']
    rw [he₁]
    have : errorEntriesIn [LogBlock.header, LogBlock.systemSpecs] = 0 := by decide
    rw [this, zero_add]
  · simp only [isLogging, h1, hflag, h2, Bool.true_and]
    congr 1
    simp only [Nat.cast_lt_ofNat, eq_iff_iff]

/-- An instance of the ceiling: 200 failed assertions drained in one window make
`isLogging` false, 199 leave it true. -/
theorem ceiling_reached_by_200_failures :
    isLogging (run (startLogging constructed 0)
        (List.replicate 200 (Op.checkAssertion none Location.SampleRendering false 0 0)
          ++ [Op.timerCallback])) = false
      ∧ isLogging (run (startLogging constructed 0)
        (List.replicate 199 (Op.checkAssertion none Location.SampleRendering false 0 0)
          ++ [Op.timerCallback])) = true := by
  set_option maxRecDepth 100000 in decide

/-! ## One click, end to end -/

theorem mem_clickBuffer {i j : Nat} {v x : ℚ} (h : x ∈ clickBuffer i j v) : x = 0 ∨ x = v := by
  simp only [clickBuffer, List.mem_append, List.mem_cons, List.mem_replicate] at h
  rcases h with h | h | h
  · exact Or.inl h.2
  · exact Or.inr h
  · exact Or.inl h.2

theorem clickBuffer_scan (i j : Nat) (v : ℚ) (hv : 32 < v) :
    isError (clickBuffer i j v) = true ∧ numFaultySamples (clickBuffer i j v) = 1
      ∧ errorValue (clickBuffer i j v) = v := by
  have hmem : v ∈ clickBuffer i j v := by simp [clickBuffer]
  have hne : clickBuffer i j v ≠ [] := List.ne_nil_of_mem hmem
  obtain ⟨hmin_mem, _, hmax_mem, hmax_le⟩ := findMinAndMax_spec _ hne
  have hmax : (findMinAndMax (clickBuffer i j v)).2 = v := by
    rcases mem_clickBuffer hmax_mem with h0 | hv'
    · have := hmax_le v hmem
      rw [h0] at this
      linarith
    · exact hv'
  have hmin : ¬ (findMinAndMax (clickBuffer i j v)).1 < -maxValue := by
    simp only [maxValue]
    rcases mem_clickBuffer hmin_mem with h0 | hv' <;> rw [‹(findMinAndMax _).1 = _›] <;> linarith
  refine ⟨?_, ?_, ?_⟩
  · exact (isError_iff _).mpr ⟨v, hmem, by rw [abs_of_pos (by linarith)]; exact hv⟩
  · rw [numFaultySamples_eq]
    have hz : ∀ n : Nat, (List.replicate n (0 : ℚ)).countP (fun x => decide (32 < |x|)) = 0 := by
      intro n
      rw [List.countP_eq_zero]
      intro x hx
      rw [(List.mem_replicate.mp hx).2]
      norm_num
    have hv' : (32 : ℚ) < |v| := by rw [abs_of_pos (by linarith)]; exact hv
    simp [clickBuffer, List.countP_append, List.countP_cons, hz, hv']
  · rw [errorValue_eq, if_neg hmin, hmax, if_pos (by simpa [maxValue] using hv)]

/-- C5 (amended). In a session started on a logger whose six pending queues are
empty, one `checkSampleData` call on the left channel with a buffer in which one sample is
`v > 32` and all others are 0, followed by one drain, serialises exactly one entry, a
`Failure` of kind ClickLeft with extra value `v`, as the only block after the header
of the new log file, and raises the error count from 0 to 1. -/
theorem click_left_end_to_end (s₀ : DebugLogger) (p : Option Processor) (location : Location)
    (id : Identifier) (t₀ t : ℚ) (i j : Nat) (v : ℚ)
    (hq : queueSizes s₀ = [0, 0, 0, 0, 0, 0]) (hv : 32 < v) :
    (checkSampleData (startLogging s₀ t₀) p location true (clickBuffer i j v) id t).1 = false
      ∧ drainedMessages
          (checkSampleData (startLogging s₀ t₀) p location true (clickBuffer i j v) id t).2
        = [Entry.failure (Failure.new s₀.messageIndex 0 location FailureType.ClickLeft p
            ((1 / 1000) * (t - t₀)) v id)]
      ∧ (timerCallback
          (checkSampleData (startLogging s₀ t₀) p location true (clickBuffer i j v) id
            t).2).logFiles
        = [LogBlock.header, LogBlock.systemSpecs,
            LogBlock.text (Entry.failure (Failure.new s₀.messageIndex 0 location
              FailureType.ClickLeft p ((1 / 1000) * (t - t₀)) v id))] :: s₀.logFiles
      ∧ (startLogging s₀ t₀).numErrorsSinceLogStart = 0
      ∧ (timerCallback
          (checkSampleData (startLogging s₀ t₀) p location true (clickBuffer i j v) id
            t).2).numErrorsSinceLogStart = 1 := by
  obtain ⟨he, hn, hval⟩ := clickBuffer_scan i j v hv
  simp only [queueSizes, List.cons.injEq, List.length_eq_zero, and_true] at hq
  obtain ⟨q1, q2, q3, q4, q5, q6⟩ := hq
  have hstate : checkSampleData (startLogging s₀ t₀) p location true (clickBuffer i j v) id t
      = (false,
          { startLogging s₀ t₀ with
            locationForErrorInCurrentCallback := location,
            messageIndex := s₀.messageIndex + 1,
            pendingFailures := [Failure.new s₀.messageIndex 0 location FailureType.ClickLeft p
              ((1 / 1000) * (t - t₀)) v id] }) := by
    rw [checkSampleData_logging _ _ _ _ _ _ _ (isLogging_startLogging s₀ t₀)]
    simp [he, hn, hval, startLogging, q1, getCurrentTimeStamp]
  have hdrained : drainedMessages
      (checkSampleData (startLogging s₀ t₀) p location true (clickBuffer i j v) id t).2
      = [Entry.failure (Failure.new s₀.messageIndex 0 location FailureType.ClickLeft p
          ((1 / 1000) * (t - t₀)) v id)] := by
    rw [hstate, drainedMessages_eq]
    simp [startLogging, q2, q3, q4, q5, q6, mergeCopies, sortMessages]
  refine ⟨by rw [hstate], hdrained, ?_, rfl, ?_⟩
  · rw [timerCallback_logFiles, hdrained]
    rw [hstate]
    simp [writeMessages, Entry.shouldPrintBacktrace, Failure.new, startLogging,
      appendToLogFile]
  · rw [(timerCallback_errors _).2, hstate]
    simp [startLogging, q4]

theorem click_left_end_to_end_witness :
    queueSizes constructed = [0, 0, 0, 0, 0, 0] ∧ (32 : ℚ) < 40
      ∧ (clickBuffer 10 53 40).length = 64 ∧ (clickBuffer 10 53 40).get? 10 = some 40
      ∧ (timerCallback
          (checkSampleData (startLogging constructed 0) none Location.SampleRendering true
            (clickBuffer 10 53 40) Identifier.null 0).2).logFiles
        = [LogBlock.header, LogBlock.systemSpecs,
            LogBlock.text (Entry.failure (Failure.new constructed.messageIndex 0
              Location.SampleRendering FailureType.ClickLeft none ((1 / 1000) * (0 - 0)) 40
              Identifier.null))] :: constructed.logFiles :=
  ⟨by decide, by decide, by decide, by decide,
   (click_left_end_to_end constructed none Location.SampleRendering Identifier.null 0 0 10 53
      40 (by decide) (by decide)).2.2.1⟩

/-- C5 (counterexample). A session is started on a logger that still holds an entry:
a failed assertion pending at a stop, or a streaming failure recorded before the first
start. `startLogging` does not clear the queues, so after the `checkSampleData` call
with the 64-sample buffer (sample 10 is 40) the drain serialises two failures into
the new log file, the old entry and the ClickLeft, and the error count goes from 0
to 2. -/
theorem click_after_pending_entry_counterexample :
    (startLogging (stopLogging sessionWithListeners) 1).numErrorsSinceLogStart = 0
      ∧ ((timerCallback
          (checkSampleData (startLogging (stopLogging sessionWithListeners) 1) none
            Location.SampleRendering true (clickBuffer 10 53 40) Identifier.null
            2).2).logFiles.map (fun file => (entriesWritten file).map Entry.failureKind))
        = [[some (FailureType.Assertion, 1), some (FailureType.ClickLeft, 40)], []]
      ∧ (timerCallback
          (checkSampleData (startLogging (stopLogging sessionWithListeners) 1) none
            Location.SampleRendering true (clickBuffer 10 53 40) Identifier.null
            2).2).numErrorsSinceLogStart = 2
      ∧ (startLogging (addStreamingFailure constructed 0 0) 1).numErrorsSinceLogStart = 0
      ∧ ((timerCallback
          (checkSampleData (startLogging (addStreamingFailure constructed 0 0) 1) none
            Location.SampleRendering true (clickBuffer 10 53 40) Identifier.null
            2).2).logFiles.map (fun file => (entriesWritten file).map Entry.failureKind))
        = [[some (FailureType.StreamingFailure, 0), some (FailureType.ClickLeft, 40)]]
      ∧ (timerCallback
          (checkSampleData (startLogging (addStreamingFailure constructed 0 0) 1) none
            Location.SampleRendering true (clickBuffer 10 53 40) Identifier.null
            2).2).numErrorsSinceLogStart = 2 := by
  set_option maxRecDepth 100000 in decide

/-! ## Priority inversion probes -/

/-- C11. While logging, with the probed lock a flag that says whether another
thread holds it: both `checkPriorityInversion` variants append exactly one `Failure`
of kind `PriorityInversion` when the lock is held and leave the logger as it is when
the lock is free, and in both cases the lock is afterwards in the state it was in
before the call. -/
theorem checkPriorityInversion_probe (s : DebugLogger) (held : Bool) (l : Location)
    (p : Option Processor) (id : Identifier) (now : ℚ) (h : isLogging s = true) :
    (checkPriorityInversion s held now).2 = held
      ∧ (checkPriorityInversionSpinLock s held l p id now).2 = held
      ∧ (held = true →
          (checkPriorityInversion s held now).1.pendingFailures
              = s.pendingFailures ++ [Failure.new s.messageIndex (s.callbackIndex - 1)
                  Location.MainRenderCallback FailureType.PriorityInversion none
                  (getCurrentTimeStamp s now) 0 Identifier.null]
            ∧ (checkPriorityInversionSpinLock s held l p id now).1.pendingFailures
              = s.pendingFailures ++ [Failure.new s.messageIndex s.callbackIndex l
                  FailureType.PriorityInversion p (getCurrentTimeStamp s now) 0 id])
      ∧ (held = false →
          (checkPriorityInversion s held now).1 = s
            ∧ (checkPriorityInversionSpinLock s held l p id now).1 = s) := by
  cases held <;>
    simp [checkPriorityInversion, checkPriorityInversionSpinLock, tryEnter, h, addFailure,
      getCurrentTimeStamp]

theorem checkPriorityInversion_probe_witness :
    isLogging (startLogging constructed 0) = true
      ∧ (checkPriorityInversion (startLogging constructed 0) true 5).2 = true
      ∧ (checkPriorityInversion (startLogging constructed 0) true 5).1.pendingFailures.map
          (fun f => f.type) = [FailureType.PriorityInversion] :=
  ⟨by decide,
   (checkPriorityInversion_probe (startLogging constructed 0) true Location.NoteOnCallback none
      Identifier.null 5 (by decide)).1,
   by rw [((checkPriorityInversion_probe (startLogging constructed 0) true
      Location.NoteOnCallback none Identifier.null 5 (by decide)).2.2.1 rfl).1]; rfl⟩

/-! ## Audio callback properties -/

theorem checkAudioCallbackProperties_logging (s : DebugLogger) (sampleRate : ℚ)
    (samplesPerBlock : Int) (t₁ t₂ : ℚ) (h : isLogging s = true) :
    checkAudioCallbackProperties s sampleRate samplesPerBlock t₁ t₂
      = { s with
          callbackIndex := s.callbackIndex + 1,
          locationForErrorInCurrentCallback := Location.Empty,
          lastSampleRate := sampleRate,
          lastSamplesPerBlock := samplesPerBlock,
          messageIndex :=
            (if sampleRate ≠ s.lastSampleRate then s.messageIndex + 1 else s.messageIndex)
              + (if samplesPerBlock ≠ s.lastSamplesPerBlock then 1 else 0),
          pendingAudioChanges :=
            s.pendingAudioChanges
              ++ (if sampleRate ≠ s.lastSampleRate then
                    [AudioSettingChange.new s.messageIndex (s.callbackIndex + 1)
                      (getCurrentTimeStamp s t₁) FailureType.SampleRateChange
                      s.lastSampleRate sampleRate]
                  else [])
              ++ (if samplesPerBlock ≠ s.lastSamplesPerBlock then
                    [AudioSettingChange.new
                      (if sampleRate ≠ s.lastSampleRate then s.messageIndex + 1
                        else s.messageIndex)
                      (s.callbackIndex + 1) (getCurrentTimeStamp s t₂)
                      FailureType.BufferSizeChange s.lastSamplesPerBlock samplesPerBlock]
                  else []) } := by
  have hl : s.currentlyLogging = true ∧ s.numErrorsSinceLogStart < 200 := by
    simpa [isLogging] using h
  by_cases h1 : sampleRate = s.lastSampleRate <;>
    by_cases h2 : samplesPerBlock = s.lastSamplesPerBlock <;>
    simp [checkAudioCallbackProperties, addAudioDeviceChange, isLogging, hl.1, hl.2, h1, h2,
      getCurrentTimeStamp]

/-- C12. While logging, `checkAudioCallbackProperties` appends a `SampleRateChange`
with the stored rate as old and `sampleRate` as new value exactly when the two
differ, then a `BufferSizeChange` with the stored size as old and `samplesPerBlock`
as new value exactly when those differ; afterwards the stored values are the
arguments, and a repeated call with the same arguments appends no audio change. -/
theorem checkAudioCallbackProperties_reports_changes (s : DebugLogger) (sampleRate : ℚ)
    (samplesPerBlock : Int) (t₁ t₂ t₃ t₄ : ℚ) (h : isLogging s = true) :
    (checkAudioCallbackProperties s sampleRate samplesPerBlock t₁ t₂).pendingAudioChanges
        = s.pendingAudioChanges
          ++ (if sampleRate ≠ s.lastSampleRate then
                [AudioSettingChange.new s.messageIndex (s.callbackIndex + 1)
                  (getCurrentTimeStamp s t₁) FailureType.SampleRateChange
                  s.lastSampleRate sampleRate]
              else [])
          ++ (if samplesPerBlock ≠ s.lastSamplesPerBlock then
                [AudioSettingChange.new
                  (if sampleRate ≠ s.lastSampleRate then s.messageIndex + 1
                    else s.messageIndex)
                  (s.callbackIndex + 1) (getCurrentTimeStamp s t₂)
                  FailureType.BufferSizeChange s.lastSamplesPerBlock samplesPerBlock]
              else [])
      ∧ (checkAudioCallbackProperties s sampleRate samplesPerBlock t₁ t₂).lastSampleRate
          = sampleRate
      ∧ (checkAudioCallbackProperties s sampleRate samplesPerBlock t₁ t₂).lastSamplesPerBlock
          = samplesPerBlock
      ∧ (checkAudioCallbackProperties
            (checkAudioCallbackProperties s sampleRate samplesPerBlock t₁ t₂)
            sampleRate samplesPerBlock t₃ t₄).pendingAudioChanges
          = (checkAudioCallbackProperties s sampleRate samplesPerBlock t₁ t₂).pendingAudioChanges
      := by
  have h' : isLogging (checkAudioCallbackProperties s sampleRate samplesPerBlock t₁ t₂)
      = true := by
    rw [checkAudioCallbackProperties_logging s sampleRate samplesPerBlock t₁ t₂ h]
    simpa [isLogging] using h
  refine ⟨?_, ?_, ?_, ?_⟩
  · rw [checkAudioCallbackProperties_logging s sampleRate samplesPerBlock t₁ t₂ h]
  · rw [checkAudioCallbackProperties_logging s sampleRate samplesPerBlock t₁ t₂ h]
  · rw [checkAudioCallbackProperties_logging s sampleRate samplesPerBlock t₁ t₂ h]
  · rw [checkAudioCallbackProperties_logging _ sampleRate samplesPerBlock t₃ t₄ h']
    rw [checkAudioCallbackProperties_logging s sampleRate samplesPerBlock t₁ t₂ h]
    simp

theorem checkAudioCallbackProperties_reports_changes_witness :
    isLogging (startLogging constructed 0) = true
      ∧ (checkAudioCallbackProperties (startLogging constructed 0) (-1) 512 3
          4).pendingAudioChanges.map (fun a => (a.type, a.oldValue, a.newValue))
        = [(FailureType.BufferSizeChange, -1, 512)] :=
  ⟨by decide, by
    rw [(checkAudioCallbackProperties_reports_changes (startLogging constructed 0) (-1) 512 3 4
      5 6 (by decide)).1]
    decide⟩

/-! ## The state after a drain -/

/-- C15. After one drain, from any state, all six pending queues are empty and
the sequence counter is 0. -/
theorem timerCallback_empties_queues (s : DebugLogger) :
    (timerCallback s).pendingFailures = []
      ∧ (timerCallback s).pendingStringMessages = []
      ∧ (timerCallback s).pendingEvents = []
      ∧ (timerCallback s).pendingPerformanceWarnings = []
      ∧ (timerCallback s).pendingAudioChanges = []
      ∧ (timerCallback s).pendingParameterChanges = []
      ∧ queueSizes (timerCallback s) = [0, 0, 0, 0, 0, 0]
      ∧ (timerCallback s).messageIndex = 0 := by
  unfold timerCallback
  by_cases hm : (drainedMessages s).isEmpty = true
  · simp [hm, swapOut_snd, queueSizes]
  · by_cases hc : (decide ((swapOut s.pendingPerformanceWarnings).1.length ≠ 0)
        || decide ((swapOut s.pendingFailures).1.length ≠ 0)) = true
    · simp only [hm, hc, Bool.not_false, if_true]
      simp [swapOut_snd, queueSizes]
    · simp only [hm, hc, Bool.not_false, if_true]
      simp [swapOut_snd, queueSizes]

/-- C16. One drain, from any state, raises the error count by exactly the number
of pending `Failure` entries plus the number of pending `PerformanceWarning` entries;
what is pending in the other four queues does not enter the count, which stays as it
is when no failure and no warning is pending. -/
theorem timerCallback_raises_error_count (s : DebugLogger) :
    (timerCallback s).numErrorsSinceLogStart
        = s.numErrorsSinceLogStart + s.pendingFailures.length
          + s.pendingPerformanceWarnings.length
      ∧ (s.pendingFailures = [] → s.pendingPerformanceWarnings = [] →
          (timerCallback s).numErrorsSinceLogStart = s.numErrorsSinceLogStart) := by
  have h := (timerCallback_errors s).2
  refine ⟨?_, ?_⟩
  · rw [h]
    push_cast
    ring
  · intro hf hw
    rw [h, hf, hw]
    simp

theorem timerCallback_raises_error_count_witness :
    windowThreeOneTwo.numErrorsSinceLogStart = 0
      ∧ (pendingEntries windowThreeOneTwo).length = 3
      ∧ (timerCallback windowThreeOneTwo).numErrorsSinceLogStart = 2 :=
  ⟨by decide, by decide,
   (timerCallback_raises_error_count windowThreeOneTwo).1.trans (by decide)⟩

/-- C18. A drain that finds all six pending queues empty only resets the sequence
counter and clears the currently-failing flag: nothing is appended to the log file,
the error count stays, and no listener is notified. -/
theorem timerCallback_nothing_pending (s : DebugLogger)
    (hq : queueSizes s = [0, 0, 0, 0, 0, 0]) :
    timerCallback s = { s with messageIndex := 0, currentlyFailing := false }
      ∧ (timerCallback s).logFiles = s.logFiles
      ∧ (timerCallback s).currentlyFailing = false
      ∧ (timerCallback s).numErrorsSinceLogStart = s.numErrorsSinceLogStart
      ∧ (timerCallback s).notifications = s.notifications := by
  simp only [queueSizes, List.cons.injEq, List.length_eq_zero, and_true] at hq
  obtain ⟨q1, q2, q3, q4, q5, q6⟩ := hq
  have hd : drainedMessages s = [] := by
    rw [drainedMessages_eq]
    simp [q1, q2, q3, q4, q5, q6, mergeCopies, sortMessages]
  have hs : timerCallback s = { s with messageIndex := 0, currentlyFailing := false } := by
    unfold timerCallback
    simp only [hd, List.isEmpty_nil, Bool.not_true, Bool.false_eq_true, if_false, swapOut_snd]
    cases s
    simp only at q1 q2 q3 q4 q5 q6
    simp [q1, q2, q3, q4, q5, q6]
  rw [hs]
  exact ⟨rfl, rfl, rfl, rfl, rfl⟩

theorem timerCallback_nothing_pending_witness :
    queueSizes (startLogging constructed 0) = [0, 0, 0, 0, 0, 0]
      ∧ (timerCallback (startLogging constructed 0)).logFiles
        = (startLogging constructed 0).logFiles :=
  ⟨by decide, (timerCallback_nothing_pending (startLogging constructed 0) (by decide)).2.1⟩

/-! ## Toggle -/

/-- C20. The function `toggleLogging` runs `stopLogging` exactly when `isLogging`
is true and `startLogging` otherwise. From Idle it ends in a started session, from a
session that is logging it ends Idle, two toggles from Idle end Idle, and from a
started session whose error count has reached 200 it starts a fresh session. -/
theorem toggleLogging_cases (s : DebugLogger) (now now₂ : ℚ) :
    toggleLogging s now = (if isLogging s then stopLogging s else startLogging s now)
      ∧ (s.currentlyLogging = false →
          toggleLogging s now = startLogging s now
            ∧ (toggleLogging s now).currentlyLogging = true
            ∧ isLogging (toggleLogging s now) = true)
      ∧ (isLogging s = true →
          toggleLogging s now = stopLogging s
            ∧ (toggleLogging s now).currentlyLogging = false)
      ∧ (s.currentlyLogging = false →
          (toggleLogging (toggleLogging s now) now₂).currentlyLogging = false)
      ∧ (s.currentlyLogging = true → 200 ≤ s.numErrorsSinceLogStart →
          toggleLogging s now = startLogging s now
            ∧ (toggleLogging s now).currentlyLogging = true
            ∧ (toggleLogging s now).numErrorsSinceLogStart = 0
            ∧ isLogging (toggleLogging s now) = true) := by
  refine ⟨rfl, ?_, ?_, ?_, ?_⟩
  · intro h
    have hn : isLogging s = false := by simp [isLogging, h]
    have ht : toggleLogging s now = startLogging s now := by simp [toggleLogging, hn]
    rw [ht]
    exact ⟨rfl, rfl, isLogging_startLogging s now⟩
  · intro h
    have ht : toggleLogging s now = stopLogging s := by simp [toggleLogging, h]
    rw [ht]
    exact ⟨rfl, rfl⟩
  · intro h
    have hn : isLogging s = false := by simp [isLogging, h]
    have ht : toggleLogging s now = startLogging s now := by simp [toggleLogging, hn]
    rw [ht]
    simp [toggleLogging, isLogging_startLogging, stopLogging]
  · intro h hc
    have hn : isLogging s = false := by
      simp only [isLogging, h, Bool.true_and, decide_eq_false_iff_not, not_lt]
      exact hc
    have ht : toggleLogging s now = startLogging s now := by simp [toggleLogging, hn]
    rw [ht]
    exact ⟨rfl, rfl, rfl, isLogging_startLogging s now⟩

theorem toggleLogging_cases_witness :
    constructed.currentlyLogging = false
      ∧ isLogging (toggleLogging constructed 0) = true
      ∧ (toggleLogging (toggleLogging constructed 0) 1).currentlyLogging = false :=
  ⟨by decide, ((toggleLogging_cases constructed 0 1).2.1 (by decide)).2.2,
   (toggleLogging_cases constructed 0 1).2.2.2.1 (by decide)⟩

/-! ## logEvents -/

theorem foldl_logEvent_queues (b : List HiseEvent) :
    ∀ s : DebugLogger,
      (b.foldl logEvent s).pendingEvents
          = s.pendingEvents
            ++ eventsFrom s.messageIndex s.callbackIndex (b.filter (fun e => !e.isAftertouch))
        ∧ (b.foldl logEvent s).messageIndex
          = s.messageIndex + ((b.filter (fun e => !e.isAftertouch)).length : Nat)
        ∧ (b.foldl logEvent s).callbackIndex = s.callbackIndex
        ∧ (b.foldl logEvent s).pendingFailures = s.pendingFailures
        ∧ (b.foldl logEvent s).pendingStringMessages = s.pendingStringMessages
        ∧ (b.foldl logEvent s).pendingPerformanceWarnings = s.pendingPerformanceWarnings
        ∧ (b.foldl logEvent s).pendingAudioChanges = s.pendingAudioChanges
        ∧ (b.foldl logEvent s).pendingParameterChanges = s.pendingParameterChanges := by
  induction b with
  | nil => intro s; simp [eventsFrom]
  | cons e b ih =>
    intro s
    simp only [List.foldl_cons]
    obtain ⟨h1, h2, h3, h4, h5, h6, h7, h8⟩ := ih (logEvent s e)
    rw [h1, h2, h3, h4, h5, h6, h7, h8]
    by_cases ha : e.isAftertouch = true
    · simp [logEvent, ha]
    · simp only [Bool.not_eq_true] at ha
      simp only [logEvent, ha, Bool.false_eq_true, if_false, Bool.not_false, List.filter_cons,
        if_true, eventsFrom, List.length_cons, List.append_assoc, List.singleton_append]
      refine ⟨trivial, ?_, trivial, trivial, trivial, trivial, trivial, trivial⟩
      push_cast
      ring

theorem eventsFrom_length (m c : Int) (es : List HiseEvent) :
    (eventsFrom m c es).length = es.length := by
  induction es generalizing m with
  | nil => rfl
  | cons e es ih => simp [eventsFrom, ih]

theorem eventsFrom_events (m c : Int) (es : List HiseEvent) :
    (eventsFrom m c es).map (fun x => x.e) = es := by
  induction es generalizing m with
  | nil => rfl
  | cons e es ih => simp [eventsFrom, ih, Event.new]

theorem eventsFrom_index_ge (c : Int) (es : List HiseEvent) :
    ∀ (m : Int), ∀ x ∈ eventsFrom m c es, m ≤ x.messageIndex := by
  induction es with
  | nil => intro m x hx; simp [eventsFrom] at hx
  | cons e es ih =>
    intro m x hx
    simp only [eventsFrom, List.mem_cons] at hx
    rcases hx with hx | hx
    · rw [hx]; simp [Event.new]
    · have := ih (m + 1) x hx
      omega

theorem eventsFrom_sorted (c : Int) (es : List HiseEvent) :
    ∀ m : Int, List.Sorted (fun i j : Int => i < j)
      ((eventsFrom m c es).map (fun x => x.messageIndex)) := by
  induction es with
  | nil => intro m; simp [eventsFrom]
  | cons e es ih =>
    intro m
    simp only [eventsFrom, List.map_cons, List.sorted_cons, List.mem_map]
    refine ⟨?_, ih (m + 1)⟩
    rintro i ⟨x, hx, rfl⟩
    have := eventsFrom_index_ge c es (m + 1) x hx
    simp only [Event.new]
    omega

/-- C14. While logging, `logEvents` appends to the pending events exactly one
`Event` for each event of the batch that is not an aftertouch event, in batch order,
with sequence indices that count up from the sequence counter; aftertouch events
add nothing, so the queue grows by the number of the other events, and the other
five queues stay as they are. -/
theorem logEvents_records_non_aftertouch (s : DebugLogger) (masterBuffer : List HiseEvent)
    (h : isLogging s = true) :
    (logEvents s masterBuffer).pendingEvents
        = s.pendingEvents ++ eventsFrom s.messageIndex s.callbackIndex
            (masterBuffer.filter (fun e => !e.isAftertouch))
      ∧ (eventsFrom s.messageIndex s.callbackIndex
            (masterBuffer.filter (fun e => !e.isAftertouch))).map (fun x => x.e)
          = masterBuffer.filter (fun e => !e.isAftertouch)
      ∧ List.Sorted (fun i j : Int => i < j)
          ((eventsFrom s.messageIndex s.callbackIndex
            (masterBuffer.filter (fun e => !e.isAftertouch))).map (fun x => x.messageIndex))
      ∧ (logEvents s masterBuffer).pendingEvents.length
          = s.pendingEvents.length + masterBuffer.countP (fun e => !e.isAftertouch)
      ∧ (logEvents s masterBuffer).pendingFailures = s.pendingFailures
      ∧ (logEvents s masterBuffer).pendingStringMessages = s.pendingStringMessages
      ∧ (logEvents s masterBuffer).pendingPerformanceWarnings = s.pendingPerformanceWarnings
      ∧ (logEvents s masterBuffer).pendingAudioChanges = s.pendingAudioChanges
      ∧ (logEvents s masterBuffer).pendingParameterChanges = s.pendingParameterChanges := by
  obtain ⟨h1, _, _, h4, h5, h6, h7, h8⟩ := foldl_logEvent_queues masterBuffer s
  simp only [logEvents, h, if_true]
  refine ⟨h1, eventsFrom_events _ _ _, eventsFrom_sorted _ _ _, ?_, h4, h5, h6, h7, h8⟩
  rw [h1, List.length_append, eventsFrom_length, List.countP_eq_length_filter]

theorem logEvents_records_non_aftertouch_witness :
    isLogging (startLogging constructed 0) = true
      ∧ (logEvents (startLogging constructed 0)
          [⟨HiseEventType.NoteOn, 1, 0, 60, 100, 1⟩, ⟨HiseEventType.Aftertouch, 1, 0, 60, 90, 1⟩,
           ⟨HiseEventType.NoteOff, 1, 9, 60, 0, 1⟩]).pendingEvents.map
          (fun x => (x.messageIndex, x.e.type))
        = [(0, HiseEventType.NoteOn), (1, HiseEventType.NoteOff)] :=
  ⟨by decide, by
    rw [(logEvents_records_non_aftertouch (startLogging constructed 0)
      [⟨HiseEventType.NoteOn, 1, 0, 60, 100, 1⟩, ⟨HiseEventType.Aftertouch, 1, 0, 60, 90, 1⟩,
       ⟨HiseEventType.NoteOff, 1, 9, 60, 0, 1⟩] (by decide)).1]
    decide⟩

/-! ## Listener notification -/

theorem notifyListeners_eq (ls : List WeakReference) (n : Notification) :
    notifyListeners ls n = (liveTargets ls).map (fun t => (t, n)) := by
  simp [notifyListeners, liveTargets, List.map_filterMap]

theorem mem_liveTargets (ls : List WeakReference) (l : Nat) :
    l ∈ liveTargets ls ↔ ∃ w ∈ ls, w.expired = false ∧ w.target = l := by
  simp only [liveTargets, List.mem_filterMap, WeakReference.get]
  constructor
  · rintro ⟨w, hw, hget⟩
    by_cases he : w.expired = true
    · simp [he] at hget
    · simp only [he, Bool.false_eq_true, if_false, Option.some.injEq] at hget
      exact ⟨w, hw, by simpa using he, hget⟩
  · rintro ⟨w, hw, he, ht⟩
    exact ⟨w, hw, by simp [he, ht]⟩

theorem count_notifyListeners (ls : List WeakReference) (n : Notification) (l : Nat) :
    (notifyListeners ls n).count (l, n) = (liveTargets ls).count l := by
  rw [notifyListeners_eq]
  induction liveTargets ls with
  | nil => rfl
  | cons t ts ih =>
    simp only [List.map_cons, List.count_cons, ih]
    by_cases ht : t = l
    · simp [ht]
    · simp [ht]

theorem timerCallback_notifications (s : DebugLogger) :
    (timerCallback s).notifications
      = s.notifications
        ++ (if s.pendingFailures ≠ [] ∨ s.pendingPerformanceWarnings ≠ []
            then notifyListeners s.listeners Notification.errorDetected else []) := by
  have hcount := countP_isErrorEntry_drainedMessages s
  unfold timerCallback
  by_cases hm : (drainedMessages s).isEmpty = true
  · have hnil : drainedMessages s = [] := List.isEmpty_iff.mp hm
    rw [hnil] at hcount
    simp only [List.countP_nil] at hcount
    have hf : s.pendingFailures = [] := List.length_eq_zero.mp (by omega)
    have hw : s.pendingPerformanceWarnings = [] := List.length_eq_zero.mp (by omega)
    simp [hnil, hf, hw]
  · simp only [hm, Bool.not_false, if_true, swapOut_fst]
    by_cases hc : (decide (s.pendingPerformanceWarnings.length ≠ 0)
        || decide (s.pendingFailures.length ≠ 0)) = true
    · have hor : s.pendingFailures ≠ [] ∨ s.pendingPerformanceWarnings ≠ [] := by
        simp only [Bool.or_eq_true, decide_eq_true_eq] at hc
        rcases hc with hc | hc
        · exact Or.inr (fun e => hc (by rw [e]; rfl))
        · exact Or.inl (fun e => hc (by rw [e]; rfl))
      simp only [hc, if_true, hor]
    · have hz : s.pendingPerformanceWarnings.length = 0 ∧ s.pendingFailures.length = 0 := by
        simpa using hc
      have hf : s.pendingFailures = [] := List.length_eq_zero.mp hz.2
      have hw : s.pendingPerformanceWarnings = [] := List.length_eq_zero.mp hz.1
      simp [hc, hf, hw]

theorem newNotifications_timerCallback (s : DebugLogger) :
    newNotifications s (timerCallback s)
      = if s.pendingFailures ≠ [] ∨ s.pendingPerformanceWarnings ≠ []
        then notifyListeners s.listeners Notification.errorDetected else [] := by
  simp [newNotifications, timerCallback_notifications]

theorem liveTargets_append (a b : List WeakReference) :
    liveTargets (a ++ b) = liveTargets a ++ liveTargets b := by
  simp [liveTargets, List.filterMap_append]

/-- The references `addListener` leaves: the listener is reachable, once if the live
references were pairwise distinct before. -/
theorem liveTargets_addListener (s : DebugLogger) (l : Nat)
    (hreg : (liveTargets s.listeners).Nodup) :
    (liveTargets (addListener s l).listeners).Nodup
      ∧ l ∈ liveTargets (addListener s l).listeners := by
  unfold addListener
  by_cases hany : s.listeners.any (fun w => w.get == some l) = true
  · simp only [hany, if_true]
    refine ⟨hreg, ?_⟩
    simp only [List.any_eq_true, beq_iff_eq] at hany
    obtain ⟨w, hw, hget⟩ := hany
    exact List.mem_filterMap.mpr ⟨w, hw, hget⟩
  · simp only [hany, Bool.false_eq_true, if_false]
    have hnot : l ∉ liveTargets s.listeners := by
      intro hmem
      obtain ⟨w, hw, hget⟩ := List.mem_filterMap.mp hmem
      exact hany (List.any_eq_true.mpr ⟨w, hw, by simp [hget]⟩)
    rw [liveTargets_append]
    have hone : liveTargets [(⟨l, false⟩ : WeakReference)] = [l] := rfl
    rw [hone]
    refine ⟨?_, by simp⟩
    rw [List.nodup_append]
    refine ⟨hreg, List.nodup_singleton l, ?_⟩
    intro a ha hb
    rw [List.mem_singleton] at hb
    exact hnot (hb ▸ ha)

theorem liveTargets_removeListener (s : DebugLogger) (l : Nat)
    (hreg : (liveTargets s.listeners).Nodup) :
    (liveTargets (removeListener s l).listeners).Nodup := by
  unfold removeListener liveTargets
  exact (List.Sublist.filterMap _ (List.filter_sublist _)).nodup hreg

theorem addListener_pending (s : DebugLogger) (l : Nat) :
    (addListener s l).pendingFailures = s.pendingFailures
      ∧ (addListener s l).pendingPerformanceWarnings = s.pendingPerformanceWarnings := by
  unfold addListener
  split <;> exact ⟨rfl, rfl⟩

/-- C17. When the live references among the registered listeners are pairwise
distinct, as `addListener` keeps them, one drain calls `errorDetected` on a listener
exactly once if a `Failure` or a `PerformanceWarning` is pending and a reference to
the listener that has not expired is registered, and not at all otherwise; the drain
makes no other callback. A listener added twice is notified once. -/
theorem errorDetected_once_per_live_listener (s : DebugLogger) (l : Nat)
    (hreg : (liveTargets s.listeners).Nodup) :
    (newNotifications s (timerCallback s)).count (l, Notification.errorDetected)
        = (if (s.pendingFailures ≠ [] ∨ s.pendingPerformanceWarnings ≠ [])
              ∧ l ∈ liveTargets s.listeners then 1 else 0)
      ∧ (l ∈ liveTargets s.listeners ↔ ∃ w ∈ s.listeners, w.expired = false ∧ w.target = l)
      ∧ (∀ x ∈ newNotifications s (timerCallback s), x.2 = Notification.errorDetected)
      ∧ (newNotifications (addListener (addListener s l) l)
            (timerCallback (addListener (addListener s l) l))).count
            (l, Notification.errorDetected)
          = (if s.pendingFailures ≠ [] ∨ s.pendingPerformanceWarnings ≠ [] then 1 else 0) := by
  have hcount : ∀ r : DebugLogger, (liveTargets r.listeners).Nodup →
      (newNotifications r (timerCallback r)).count (l, Notification.errorDetected)
        = (if (r.pendingFailures ≠ [] ∨ r.pendingPerformanceWarnings ≠ [])
              ∧ l ∈ liveTargets r.listeners then 1 else 0) := by
    intro r hr
    rw [newNotifications_timerCallback]
    by_cases herr : r.pendingFailures ≠ [] ∨ r.pendingPerformanceWarnings ≠ []
    · rw [if_pos herr, count_notifyListeners]
      by_cases hl : l ∈ liveTargets r.listeners
      · rw [if_pos ⟨herr, hl⟩]
        exact List.count_eq_one_of_mem hr hl
      · rw [if_neg (fun c => hl c.2)]
        exact List.count_eq_zero_of_not_mem hl
    · rw [if_neg herr, if_neg (fun c => herr c.1)]
      rfl
  refine ⟨hcount s hreg, mem_liveTargets _ _, ?_, ?_⟩
  · intro x hx
    rw [newNotifications_timerCallback] at hx
    by_cases herr : s.pendingFailures ≠ [] ∨ s.pendingPerformanceWarnings ≠ []
    · rw [if_pos herr, notifyListeners_eq] at hx
      obtain ⟨t, _, rfl⟩ := List.mem_map.mp hx
      rfl
    · rw [if_neg herr] at hx
      simp at hx
  · obtain ⟨h1, _⟩ := liveTargets_addListener s l hreg
    obtain ⟨h2, hmem⟩ := liveTargets_addListener (addListener s l) l h1
    rw [hcount _ h2]
    obtain ⟨p1, p2⟩ := addListener_pending s l
    obtain ⟨p3, p4⟩ := addListener_pending (addListener s l) l
    rw [p3, p4, p1, p2]
    by_cases herr : s.pendingFailures ≠ [] ∨ s.pendingPerformanceWarnings ≠ []
    · rw [if_pos ⟨herr, hmem⟩, if_pos herr]
    · rw [if_neg (fun c => herr c.1), if_neg herr]

theorem errorDetected_once_per_live_listener_witness :
    (liveTargets sessionWithListeners.listeners).Nodup
      ∧ (newNotifications sessionWithListeners (timerCallback sessionWithListeners)).count
          (1, Notification.errorDetected) = 1
      ∧ (newNotifications sessionWithListeners (timerCallback sessionWithListeners)).count
          (2, Notification.errorDetected) = 0 :=
  ⟨by decide,
   (errorDetected_once_per_live_listener sessionWithListeners 1 (by decide)).1.trans
     (by decide),
   (errorDetected_once_per_live_listener sessionWithListeners 2 (by decide)).1.trans
     (by decide)⟩

/-! ## Entries pending at a stop -/

/-- C19 (counterexample). A session with one failed assertion pending is stopped and
started again: the first drain of the new session serialises that entry, into the new
log file. -/
theorem stop_start_drain_counterexample :
    pendingEntries sessionWithListeners
        = [Entry.failure (Failure.new 0 0 Location.SampleRendering FailureType.Assertion none 0
            1 Identifier.null)]
      ∧ (timerCallback (startLogging (stopLogging sessionWithListeners) 1)).logFiles.map
          entriesWritten
        = [[Entry.failure (Failure.new 0 0 Location.SampleRendering FailureType.Assertion none
            0 1 Identifier.null)], []] := by
  decide

/-- C19 (amended). The function `stopLogging` neither writes nor removes the
entries still queued: they stay in the six pending queues, and in every sequence
stop, start, drain that drain writes each of them, once, to the log file of the new
session. -/
theorem stop_start_drain_writes_pending (s : DebugLogger) (now : ℚ) :
    pendingEntries (stopLogging s) = pendingEntries s
      ∧ (stopLogging s).logFiles = s.logFiles
      ∧ pendingEntries (startLogging (stopLogging s) now) = pendingEntries s
      ∧ ∃ blocks : List LogBlock,
          (timerCallback (startLogging (stopLogging s) now)).logFiles
              = ([LogBlock.header, LogBlock.systemSpecs] ++ blocks) :: s.logFiles
            ∧ List.Perm (entriesWritten blocks) (pendingEntries s) := by
  refine ⟨rfl, rfl, rfl, ?_⟩
  refine ⟨(writeMessages (startLogging (stopLogging s) now).actualBackTrace
    (drainedMessages (startLogging (stopLogging s) now))).1, ?_, ?_⟩
  · rw [timerCallback_logFiles]
    rfl
  · rw [entriesWritten_writeMessages]
    exact drainedMessages_perm (startLogging (stopLogging s) now)

/-! ## The callback index -/

theorem timerCallback_callbackIndex (s : DebugLogger) :
    (timerCallback s).callbackIndex = s.callbackIndex := by
  unfold timerCallback
  by_cases hm : (drainedMessages s).isEmpty = true
  · simp [hm]
  · by_cases hc : (decide ((swapOut s.pendingPerformanceWarnings).1.length ≠ 0)
        || decide ((swapOut s.pendingFailures).1.length ≠ 0)) = true
    · simp only [hm, hc, Bool.not_false, if_true]
    · simp only [hm, hc, Bool.not_false, if_true]
      simp

/-- Among the calls of `Op` only a `checkAudioCallbackProperties` made while logging
changes the callback index, and it adds 1. -/
theorem op_apply_callbackIndex (s : DebugLogger) (o : Op) :
    (o.apply s).callbackIndex
      = if (Call.op o).isLoggedCallback s then s.callbackIndex + 1 else s.callbackIndex := by
  cases o with
  | timerCallback => exact timerCallback_callbackIndex s
  | logEvents b =>
    simp only [Op.apply, Call.isLoggedCallback, logEvents]
    split
    · simpa using (foldl_logEvent_queues b s).2.2.1
    · simp
  | checkAudioCallbackProperties sr n t₁ t₂ =>
    simp only [Op.apply, Call.isLoggedCallback]
    by_cases h : isLogging s = true
    · rw [checkAudioCallbackProperties_logging s sr n t₁ t₂ h]
      simp [h]
    · simp only [Bool.not_eq_true] at h
      rw [checkAudioCallbackProperties_inactive s sr n t₁ t₂ h]
      simp [h]
  | checkSampleData p l c data id t =>
    simp only [Op.apply, Call.isLoggedCallback, Bool.false_eq_true, if_false,
      checkSampleData, addFailure]
    split <;> (try split) <;> simp
  | checkAssertion p l r x t =>
    simp only [Op.apply, Call.isLoggedCallback, Bool.false_eq_true, if_false,
      checkAssertion, addFailure]
    split <;> (try split) <;> simp
  | checkPriorityInversion k t =>
    simp only [Op.apply, Call.isLoggedCallback, Bool.false_eq_true, if_false,
      checkPriorityInversion, addFailure]
    split <;> (try split) <;> simp
  | checkPriorityInversionSpinLock k l p id t =>
    simp only [Op.apply, Call.isLoggedCallback, Bool.false_eq_true, if_false,
      checkPriorityInversionSpinLock, addFailure]
    split <;> (try split) <;> simp
  | logMessage m t => simp [Op.apply, Call.isLoggedCallback, logMessage]
  | logPerformanceWarning d v t =>
    simp only [Op.apply, Call.isLoggedCallback, Bool.false_eq_true, if_false,
      logPerformanceWarning, addPerformanceWarning]
    split <;> simp
  | logParameterChange p c v t =>
    simp only [Op.apply, Call.isLoggedCallback, Bool.false_eq_true, if_false,
      logParameterChange]
    split <;> (try split) <;> simp
  | addStreamingFailure u t =>
    simp [Op.apply, Call.isLoggedCallback, addStreamingFailure, addFailure]
  | setPerformanceWarningLevel n t =>
    simp [Op.apply, Call.isLoggedCallback, setPerformanceWarningLevel, logMessage]
  | addListener l =>
    simp only [Op.apply, Call.isLoggedCallback, Bool.false_eq_true, if_false,
      addListener]
    split <;> simp
  | removeListener l => simp [Op.apply, Call.isLoggedCallback, removeListener]

/-- What any call does to the callback index: a start sets it to 0, a
`checkAudioCallbackProperties` made while logging adds 1, every other call leaves it. -/
theorem call_apply_callbackIndex (s : DebugLogger) (c : Call) :
    (c.apply s).callbackIndex
      = if c.startsSession s then 0
        else if c.isLoggedCallback s then s.callbackIndex + 1 else s.callbackIndex := by
  cases c with
  | op o =>
    simp only [Call.apply, Call.startsSession, Bool.false_eq_true, if_false]
    exact op_apply_callbackIndex s o
  | startLogging now => simp [Call.apply, Call.startsSession, startLogging]
  | stopLogging => simp [Call.apply, Call.startsSession, Call.isLoggedCallback, stopLogging]
  | toggleLogging now =>
    by_cases h : isLogging s = true
    · simp [Call.apply, Call.startsSession, Call.isLoggedCallback, toggleLogging, h,
        stopLogging]
    · simp only [Bool.not_eq_true] at h
      simp [Call.apply, Call.startsSession, toggleLogging, h, startLogging]

theorem runCalls_callbackIndex (calls : List Call) :
    ∀ (s : DebugLogger) (n : Nat), s.callbackIndex = n →
      (runCalls s calls).callbackIndex = callbacksSinceStart s n calls := by
  induction calls with
  | nil => intro s n h; simpa [runCalls, callbacksSinceStart] using h
  | cons c cs ih =>
    intro s n h
    have hrun : runCalls s (c :: cs) = runCalls (c.apply s) cs := rfl
    rw [hrun]
    simp only [callbacksSinceStart]
    apply ih
    rw [call_apply_callbackIndex, h]
    by_cases h1 : c.startsSession s = true
    · simp [h1]
    · by_cases h2 : c.isLoggedCallback s = true
      · simp [h1, h2]
      · simp [h1, h2]

/-- C13. After a `startLogging` and any further calls, the callback index is the
number of `checkAudioCallbackProperties` calls made while `isLogging` was true since
the last start. Each such call raises the index by exactly 1 and resets the error
location of the current callback to Empty, and no call that does not run
`startLogging` lowers the index. -/
theorem callbackIndex_counts_logged_callbacks (s₀ : DebugLogger) (now : ℚ)
    (calls : List Call) :
    (runCalls (startLogging s₀ now) calls).callbackIndex
        = callbacksSinceStart (startLogging s₀ now) 0 calls
      ∧ (∀ (s : DebugLogger) (sampleRate : ℚ) (samplesPerBlock : Int) (t₁ t₂ : ℚ),
          isLogging s = true →
            (checkAudioCallbackProperties s sampleRate samplesPerBlock t₁ t₂).callbackIndex
                = s.callbackIndex + 1
              ∧ (checkAudioCallbackProperties s sampleRate samplesPerBlock t₁
                  t₂).locationForErrorInCurrentCallback = Location.Empty)
      ∧ (∀ (s : DebugLogger) (c : Call), c.startsSession s = false →
          s.callbackIndex ≤ (c.apply s).callbackIndex) := by
  refine ⟨runCalls_callbackIndex calls (startLogging s₀ now) 0 rfl, ?_, ?_⟩
  · intro s sr n t₁ t₂ h
    rw [checkAudioCallbackProperties_logging s sr n t₁ t₂ h]
    exact ⟨rfl, rfl⟩
  · intro s c hc
    rw [call_apply_callbackIndex, hc]
    simp only [Bool.false_eq_true, if_false]
    split <;> omega

theorem callbackIndex_counts_logged_callbacks_witness :
    (runCalls (startLogging constructed 0)
        [Call.op (Op.checkAudioCallbackProperties 44100 512 1 1),
         Call.op (Op.checkAudioCallbackProperties 44100 512 2 2),
         Call.stopLogging,
         Call.op (Op.checkAudioCallbackProperties 44100 512 3 3)]).callbackIndex = 2 :=
  (callbackIndex_counts_logged_callbacks constructed 0
    [Call.op (Op.checkAudioCallbackProperties 44100 512 1 1),
     Call.op (Op.checkAudioCallbackProperties 44100 512 2 2),
     Call.stopLogging,
     Call.op (Op.checkAudioCallbackProperties 44100 512 3 3)]).1.trans (by decide)

/-! ## Registered listeners along a run -/

theorem timerCallback_listeners (s : DebugLogger) :
    (timerCallback s).listeners = s.listeners := by
  unfold timerCallback
  by_cases hm : (drainedMessages s).isEmpty = true
  · simp [hm]
  · by_cases hc : (decide ((swapOut s.pendingPerformanceWarnings).1.length ≠ 0)
        || decide ((swapOut s.pendingFailures).1.length ≠ 0)) = true
    · simp only [hm, hc, Bool.not_false, if_true]
    · simp only [hm, hc, Bool.not_false, if_true]
      simp

theorem foldl_logEvent_listeners (b : List HiseEvent) :
    ∀ s : DebugLogger, (b.foldl logEvent s).listeners = s.listeners := by
  induction b with
  | nil => intro s; rfl
  | cons e b ih =>
    intro s
    simp only [List.foldl_cons]
    rw [ih]
    unfold logEvent
    split <;> rfl

theorem op_apply_liveTargets (s : DebugLogger) (o : Op)
    (hreg : (liveTargets s.listeners).Nodup) : (liveTargets (o.apply s).listeners).Nodup := by
  cases o with
  | addListener l => exact (liveTargets_addListener s l hreg).1
  | removeListener l => exact liveTargets_removeListener s l hreg
  | timerCallback =>
    simp only [Op.apply]
    rw [timerCallback_listeners]
    exact hreg
  | logEvents b =>
    simp only [Op.apply, logEvents]
    split
    · rw [foldl_logEvent_listeners]; exact hreg
    · exact hreg
  | checkAudioCallbackProperties sr n t₁ t₂ =>
    simp only [Op.apply]
    by_cases h : isLogging s = true
    · rw [checkAudioCallbackProperties_logging s sr n t₁ t₂ h]
      exact hreg
    · simp only [Bool.not_eq_true] at h
      rw [checkAudioCallbackProperties_inactive s sr n t₁ t₂ h]
      exact hreg
  | checkSampleData p l c data id t =>
    simp only [Op.apply, checkSampleData, addFailure]
    split <;> (try split) <;> exact hreg
  | checkAssertion p l r x t =>
    simp only [Op.apply, checkAssertion, addFailure]
    split <;> (try split) <;> exact hreg
  | checkPriorityInversion k t =>
    simp only [Op.apply, checkPriorityInversion, addFailure]
    split <;> (try split) <;> exact hreg
  | checkPriorityInversionSpinLock k l p id t =>
    simp only [Op.apply, checkPriorityInversionSpinLock, addFailure]
    split <;> (try split) <;> exact hreg
  | logMessage m t => exact hreg
  | logPerformanceWarning d v t =>
    simp only [Op.apply, logPerformanceWarning, addPerformanceWarning]
    split <;> exact hreg
  | logParameterChange p c v t =>
    simp only [Op.apply, logParameterChange]
    split <;> (try split) <;> exact hreg
  | addStreamingFailure u t => exact hreg
  | setPerformanceWarningLevel n t => exact hreg

/-- In every state reached from the constructed logger the live references among
the registered listeners are pairwise distinct. -/
theorem runCalls_liveTargets_nodup (calls : List Call) :
    ∀ s : DebugLogger, (liveTargets s.listeners).Nodup →
      (liveTargets (runCalls s calls).listeners).Nodup := by
  induction calls with
  | nil => intro s h; exact h
  | cons c cs ih =>
    intro s h
    have hrun : runCalls s (c :: cs) = runCalls (c.apply s) cs := rfl
    rw [hrun]
    apply ih
    cases c with
    | op o => exact op_apply_liveTargets s o h
    | startLogging now => exact h
    | stopLogging => exact h
    | toggleLogging now =>
      simp only [Call.apply, toggleLogging]
      split <;> exact h

/-! ## Display names -/

theorem find_locationCases (value : Location → Int) (hv : Function.Injective value)
    (x : Location) : locationCases.find? (fun y => value y == value x) = some x := by
  have hp : (fun y => value y == value x) = (fun y => decide (y = x)) := by
    funext y
    by_cases h : y = x
    · simp [h]
    · have : value y ≠ value x := fun c => h (hv c)
      simp [h, this]
  rw [hp]
  cases x <;> rfl

theorem find_failureCases (value : FailureType → Int) (hv : Function.Injective value)
    (x : FailureType) : failureCases.find? (fun y => value y == value x) = some x := by
  have hp : (fun y => value y == value x) = (fun y => decide (y = x)) := by
    funext y
    by_cases h : y = x
    · simp [h]
    · have : value y ≠ value x := fun c => h (hv c)
      simp [h, this]
  rw [hp]
  cases x <;> rfl

theorem location_identifier_injective :
    ∀ x y : Location, x.identifier = y.identifier → x = y := by
  intro x y
  cases x <;> cases y <;> first | (intro _; rfl) | (intro h; exact absurd h (by decide))

theorem failure_identifier_injective :
    ∀ x y : FailureType, x.identifier = y.identifier → x = y := by
  intro x y
  cases x <;> cases y <;> first | (intro _; rfl) | (intro h; exact absurd h (by decide))

theorem location_declaredValue_injective : Function.Injective Location.declaredValue := by
  have hnd : (locationCases.map Location.declaredValue).Nodup := by decide
  have hall : ∀ x : Location, x ∈ locationCases := by
    intro x
    cases x <;> decide
  intro x y h
  exact List.inj_on_of_nodup_map hnd (hall x) (hall y) h

theorem failure_declaredValue_injective :
    Function.Injective FailureType.declaredValue := by
  have hnd : (failureCases.map FailureType.declaredValue).Nodup := by decide
  have hall : ∀ x : FailureType, x ∈ failureCases := by
    intro x
    cases x <;> decide
  intro x y h
  exact List.inj_on_of_nodup_map hnd (hall x) (hall y) h

/-- C23. With the enumerators holding pairwise distinct integer values,
`getNameForLocation` and `getNameForFailure` return a name for every integer: for the
value of an enumerator the identifier of that enumerator, so distinct enumerators get
distinct names, and for every integer that is the value of no enumerator the text
"Unknown Location", respectively "Unknown failure". -/
theorem getNameFor_total (locationValue : Location → Int) (failureValue : FailureType → Int)
    (hl : Function.Injective locationValue) (hf : Function.Injective failureValue) :
    (∀ x : Location, getNameForLocation locationValue (locationValue x) = x.identifier)
      ∧ (∀ x y : Location,
          getNameForLocation locationValue (locationValue x)
            = getNameForLocation locationValue (locationValue y) → x = y)
      ∧ (∀ n : Int, (∀ x : Location, locationValue x ≠ n) →
          getNameForLocation locationValue n = "Unknown Location")
      ∧ (∀ x : FailureType, getNameForFailure failureValue (failureValue x) = x.identifier)
      ∧ (∀ x y : FailureType,
          getNameForFailure failureValue (failureValue x)
            = getNameForFailure failureValue (failureValue y) → x = y)
      ∧ (∀ n : Int, (∀ x : FailureType, failureValue x ≠ n) →
          getNameForFailure failureValue n = "Unknown failure") := by
  have h1 : ∀ x : Location,
      getNameForLocation locationValue (locationValue x) = x.identifier := by
    intro x
    simp only [getNameForLocation, find_locationCases locationValue hl x]
  have h2 : ∀ x : FailureType,
      getNameForFailure failureValue (failureValue x) = x.identifier := by
    intro x
    simp only [getNameForFailure, find_failureCases failureValue hf x]
  refine ⟨h1, ?_, ?_, h2, ?_, ?_⟩
  · intro x y h
    rw [h1, h1] at h
    exact location_identifier_injective x y h
  · intro n hn
    have : locationCases.find? (fun y => locationValue y == n) = none := by
      rw [List.find?_eq_none]
      intro x _
      simp [hn x]
    simp only [getNameForLocation, this]
  · intro x y h
    rw [h2, h2] at h
    exact failure_identifier_injective x y h
  · intro n hn
    have : failureCases.find? (fun y => failureValue y == n) = none := by
      rw [List.find?_eq_none]
      intro x _
      simp [hn x]
    simp only [getNameForFailure, this]

theorem getNameFor_total_witness :
    getNameForLocation Location.declaredValue 3 = "SampleRendering"
      ∧ getNameForFailure FailureType.declaredValue 11 = "PriorityInversion"
      ∧ getNameForLocation Location.declaredValue 31 = "Unknown Location"
      ∧ getNameForFailure FailureType.declaredValue (-1) = "Unknown failure" :=
  ⟨(getNameFor_total Location.declaredValue FailureType.declaredValue
      location_declaredValue_injective failure_declaredValue_injective).1
      Location.SampleRendering,
   (getNameFor_total Location.declaredValue FailureType.declaredValue
      location_declaredValue_injective failure_declaredValue_injective).2.2.2.1
      FailureType.PriorityInversion,
   (getNameFor_total Location.declaredValue FailureType.declaredValue
      location_declaredValue_injective failure_declaredValue_injective).2.2.1 31
      (by intro x; cases x <;> decide),
   (getNameFor_total Location.declaredValue FailureType.declaredValue
      location_declaredValue_injective failure_declaredValue_injective).2.2.2.2.2 (-1)
      (by intro x; cases x <;> decide)⟩

/-! ## The last error message -/

/-- C24 (evaluation at the failing input). A session with one failed assertion
pending is drained: the drain serialises that `Failure` and counts it, and afterwards
`getLastErrorMessage` reports the count but no failure kind, the stored text still
being empty. -/
theorem getLastErrorMessage_after_drain_has_no_kind :
    pendingEntries sessionWithListeners
        = [Entry.failure (Failure.new 0 0 Location.SampleRendering FailureType.Assertion none 0
            1 Identifier.null)]
      ∧ (timerCallback sessionWithListeners).numErrorsSinceLogStart = 1
      ∧ (timerCallback sessionWithListeners).lastErrorMessage = ""
      ∧ getLastErrorMessage (timerCallback sessionWithListeners)
        = "# Errors: 1, Last Error Type: " := by
  decide

/-! ## What the calls leave alone -/

/-- The fields a drain resets, and those it does not touch. -/
theorem timerCallback_frame (s : DebugLogger) :
    (timerCallback s).lastErrorMessage = s.lastErrorMessage
      ∧ ((timerCallback s).currentlyFailing = true → s.currentlyFailing = true)
      ∧ (timerCallback s).currentlyLogging = s.currentlyLogging
      ∧ (timerCallback s).timerRunning = s.timerRunning
      ∧ (timerCallback s).actualBackTrace
          = (writeMessages s.actualBackTrace (drainedMessages s)).2
      ∧ (timerCallback s).messageIndex = 0
      ∧ (timerCallback s).pendingFailures = []
      ∧ (timerCallback s).pendingStringMessages = []
      ∧ (timerCallback s).pendingEvents = []
      ∧ (timerCallback s).pendingPerformanceWarnings = []
      ∧ (timerCallback s).pendingAudioChanges = []
      ∧ (timerCallback s).pendingParameterChanges = [] := by
  unfold timerCallback
  by_cases hm : (drainedMessages s).isEmpty = true
  · have hnil : drainedMessages s = [] := List.isEmpty_iff.mp hm
    simp [hnil, swapOut_snd, writeMessages_nil]
  · by_cases hc : (decide ((swapOut s.pendingPerformanceWarnings).1.length ≠ 0)
        || decide ((swapOut s.pendingFailures).1.length ≠ 0)) = true
    · simp only [hm, hc, Bool.not_false, if_true]
      simp [swapOut_snd]
    · simp only [hm, hc, Bool.not_false, if_true]
      simp [swapOut_snd]

theorem foldl_logEvent_misc (b : List HiseEvent) :
    ∀ s : DebugLogger,
      (b.foldl logEvent s).lastErrorMessage = s.lastErrorMessage
        ∧ (b.foldl logEvent s).currentlyFailing = s.currentlyFailing
        ∧ (b.foldl logEvent s).notifications = s.notifications := by
  induction b with
  | nil => intro s; exact ⟨rfl, rfl, rfl⟩
  | cons e b ih =>
    intro s
    simp only [List.foldl_cons]
    obtain ⟨h1, h2, h3⟩ := ih (logEvent s e)
    rw [h1, h2, h3]
    unfold logEvent
    split <;> exact ⟨rfl, rfl, rfl⟩

theorem newNotifications_of_eq (s r : DebugLogger) (h : r.notifications = s.notifications) :
    newNotifications s r = [] := by
  simp [newNotifications, h]

/-- What a call of `Op` can do to the stored error text, the currently-failing flag,
the record of listener callbacks and the pending audio changes: the text stays, the
flag is not raised, the only callbacks are `errorDetected`, and every audio change
pending afterwards was pending before or is a sample-rate or buffer-size change. -/
theorem op_apply_misc (s : DebugLogger) (o : Op) :
    (o.apply s).lastErrorMessage = s.lastErrorMessage
      ∧ ((o.apply s).currentlyFailing = true → s.currentlyFailing = true)
      ∧ (∀ x ∈ newNotifications s (o.apply s), x.2 = Notification.errorDetected)
      ∧ (∀ a ∈ (o.apply s).pendingAudioChanges,
          a ∈ s.pendingAudioChanges ∨ a.type = FailureType.SampleRateChange
            ∨ a.type = FailureType.BufferSizeChange) := by
  have same : ∀ r : DebugLogger, r.lastErrorMessage = s.lastErrorMessage →
      r.currentlyFailing = s.currentlyFailing → r.notifications = s.notifications →
      r.pendingAudioChanges = s.pendingAudioChanges →
      r.lastErrorMessage = s.lastErrorMessage
        ∧ (r.currentlyFailing = true → s.currentlyFailing = true)
        ∧ (∀ x ∈ newNotifications s r, x.2 = Notification.errorDetected)
        ∧ (∀ a ∈ r.pendingAudioChanges,
            a ∈ s.pendingAudioChanges ∨ a.type = FailureType.SampleRateChange
              ∨ a.type = FailureType.BufferSizeChange) := by
    intro r h1 h2 h3 h4
    refine ⟨h1, fun h => h2 ▸ h, ?_, ?_⟩
    · rw [newNotifications_of_eq s r h3]
      intro x hx
      simp at hx
    · intro a ha
      rw [h4] at ha
      exact Or.inl ha
  cases o with
  | timerCallback =>
    obtain ⟨h1, h2, _, _, _, _, _, _, _, _, h11, _⟩ := timerCallback_frame s
    refine ⟨h1, h2, ?_, ?_⟩
    · intro x hx
      simp only [Op.apply] at hx
      rw [newNotifications_timerCallback] at hx
      split at hx
      · rw [notifyListeners_eq] at hx
        obtain ⟨t, _, rfl⟩ := List.mem_map.mp hx
        rfl
      · simp at hx
    · intro a ha
      simp only [Op.apply] at ha
      rw [h11] at ha
      simp at ha
  | logEvents b =>
    simp only [Op.apply, logEvents]
    split
    · obtain ⟨h1, h2, h3⟩ := foldl_logEvent_misc b s
      exact same _ h1 h2 h3 (foldl_logEvent_queues b s).2.2.2.2.2.2.1
    · exact same s rfl rfl rfl rfl
  | checkAudioCallbackProperties sr n t₁ t₂ =>
    simp only [Op.apply]
    by_cases h : isLogging s = true
    · rw [checkAudioCallbackProperties_logging s sr n t₁ t₂ h]
      refine ⟨rfl, fun c => c, ?_, ?_⟩
      · intro x hx
        simp [newNotifications] at hx
      · intro a ha
        simp only [List.mem_append] at ha
        rcases ha with (ha | ha) | ha
        · exact Or.inl ha
        · split at ha
          · rw [List.mem_singleton.mp ha]
            exact Or.inr (Or.inl rfl)
          · simp at ha
        · split at ha
          · rw [List.mem_singleton.mp ha]
            exact Or.inr (Or.inr rfl)
          · simp at ha
    · simp only [Bool.not_eq_true] at h
      rw [checkAudioCallbackProperties_inactive s sr n t₁ t₂ h]
      exact same s rfl rfl rfl rfl
  | checkSampleData p l c data id t =>
    simp only [Op.apply, checkSampleData, addFailure]
    split <;> (try split) <;> exact same _ rfl rfl rfl rfl
  | checkAssertion p l r x t =>
    simp only [Op.apply, checkAssertion, addFailure]
    split <;> (try split) <;> exact same _ rfl rfl rfl rfl
  | checkPriorityInversion k t =>
    simp only [Op.apply, checkPriorityInversion, addFailure]
    split <;> (try split) <;> exact same _ rfl rfl rfl rfl
  | checkPriorityInversionSpinLock k l p id t =>
    simp only [Op.apply, checkPriorityInversionSpinLock, addFailure]
    split <;> (try split) <;> exact same _ rfl rfl rfl rfl
  | logMessage m t => exact same _ rfl rfl rfl rfl
  | logPerformanceWarning d v t =>
    simp only [Op.apply, logPerformanceWarning, addPerformanceWarning]
    split <;> exact same _ rfl rfl rfl rfl
  | logParameterChange p c v t =>
    simp only [Op.apply, logParameterChange]
    split <;> (try split) <;> exact same _ rfl rfl rfl rfl
  | addStreamingFailure u t => exact same _ rfl rfl rfl rfl
  | setPerformanceWarningLevel n t => exact same _ rfl rfl rfl rfl
  | addListener l =>
    simp only [Op.apply, addListener]
    split <;> exact same _ rfl rfl rfl rfl
  | removeListener l => exact same _ rfl rfl rfl rfl


/-- What any call can do to the stored error text, the currently-failing flag and
the pending audio changes. -/
theorem call_apply_misc (s : DebugLogger) (c : Call) :
    (c.apply s).lastErrorMessage = s.lastErrorMessage
      ∧ ((c.apply s).currentlyFailing = true → s.currentlyFailing = true)
      ∧ (∀ a ∈ (c.apply s).pendingAudioChanges,
          a ∈ s.pendingAudioChanges ∨ a.type = FailureType.SampleRateChange
            ∨ a.type = FailureType.BufferSizeChange) := by
  cases c with
  | op o =>
    obtain ⟨h1, h2, _, h4⟩ := op_apply_misc s o
    exact ⟨h1, h2, h4⟩
  | startLogging now => exact ⟨rfl, fun h => h, fun a ha => Or.inl ha⟩
  | stopLogging => exact ⟨rfl, fun h => h, fun a ha => Or.inl ha⟩
  | toggleLogging now =>
    simp only [Call.apply, toggleLogging]
    split <;> exact ⟨rfl, fun h => h, fun a ha => Or.inl ha⟩

/-- No call assigns the stored error text: it is what it was at the start of the run. -/
theorem runCalls_lastErrorMessage (calls : List Call) :
    ∀ s : DebugLogger, (runCalls s calls).lastErrorMessage = s.lastErrorMessage := by
  induction calls with
  | nil => intro s; rfl
  | cons c cs ih =>
    intro s
    have hrun : runCalls s (c :: cs) = runCalls (c.apply s) cs := rfl
    rw [hrun, ih, (call_apply_misc s c).1]

theorem runCalls_currentlyFailing (calls : List Call) :
    ∀ s : DebugLogger, s.currentlyFailing = false →
      (runCalls s calls).currentlyFailing = false := by
  induction calls with
  | nil => intro s h; exact h
  | cons c cs ih =>
    intro s h
    have hrun : runCalls s (c :: cs) = runCalls (c.apply s) cs := rfl
    rw [hrun]
    apply ih
    cases hc : (c.apply s).currentlyFailing with
    | false => rfl
    | true =>
      have := (call_apply_misc s c).2.1 hc
      rw [h] at this
      exact absurd this (by decide)

theorem runCalls_pendingAudioChanges (calls : List Call) :
    ∀ s : DebugLogger,
      (∀ a ∈ s.pendingAudioChanges,
        a.type = FailureType.SampleRateChange ∨ a.type = FailureType.BufferSizeChange) →
      ∀ a ∈ (runCalls s calls).pendingAudioChanges,
        a.type = FailureType.SampleRateChange ∨ a.type = FailureType.BufferSizeChange := by
  induction calls with
  | nil => intro s h; exact h
  | cons c cs ih =>
    intro s h
    have hrun : runCalls s (c :: cs) = runCalls (c.apply s) cs := rfl
    rw [hrun]
    apply ih
    intro a ha
    rcases (call_apply_misc s c).2.2 a ha with hold | hnew
    · exact h a hold
    · exact hnew

/-! ## Implicit deactivation and a fresh start -/

/-- C21. A drain that takes the error count of a started session from below 200
to 200 or more makes `isLogging` false, but leaves the started flag true and the timer
as it was, and calls `logEnded` on no listener. `stopLogging` clears the flag and
calls `logEnded` on the live listeners, and a call of any kind that clears the flag,
or that calls `logEnded`, does what `stopLogging` does. -/
theorem implicit_deactivation_keeps_started (s : DebugLogger)
    (hstarted : s.currentlyLogging = true) (hbelow : s.numErrorsSinceLogStart < 200)
    (hreached : 200 ≤ (timerCallback s).numErrorsSinceLogStart) :
    isLogging s = true
      ∧ isLogging (timerCallback s) = false
      ∧ (timerCallback s).currentlyLogging = true
      ∧ (timerCallback s).timerRunning = s.timerRunning
      ∧ (∀ x ∈ newNotifications s (timerCallback s), x.2 ≠ Notification.logEnded)
      ∧ (stopLogging s).currentlyLogging = false
      ∧ newNotifications s (stopLogging s) = notifyListeners s.listeners Notification.logEnded
      ∧ (∀ (r : DebugLogger) (c : Call), r.currentlyLogging = true →
          (c.apply r).currentlyLogging = false → c.apply r = stopLogging r)
      ∧ (∀ (r : DebugLogger) (c : Call),
          (∃ x ∈ newNotifications r (c.apply r), x.2 = Notification.logEnded) →
          c.apply r = stopLogging r) := by
  obtain ⟨_, _, hflag, htimer, _⟩ := timerCallback_frame s
  refine ⟨?_, ?_, ?_, htimer, ?_, rfl, ?_, ?_, ?_⟩
  · simp [isLogging, hstarted, hbelow]
  · simp only [isLogging, hflag, hstarted, Bool.true_and, decide_eq_false_iff_not, not_lt]
    exact hreached
  · rw [hflag, hstarted]
  · intro x hx
    rw [(op_apply_misc s Op.timerCallback).2.2.1 x hx]
    decide
  · simp [newNotifications, stopLogging]
  · intro r c hr hc
    cases c with
    | op o =>
      have := (op_apply_fields r o).1
      simp only [Call.apply] at hc
      rw [this, hr] at hc
      exact absurd hc (by decide)
    | startLogging now => exact absurd hc (by simp [Call.apply, startLogging])
    | stopLogging => rfl
    | toggleLogging now =>
      by_cases hl : isLogging r = true
      · simp [Call.apply, toggleLogging, hl]
      · simp only [Bool.not_eq_true] at hl
        simp [Call.apply, toggleLogging, hl, startLogging] at hc
  · rintro r c ⟨x, hx, hend⟩
    have hstart : ∀ now : ℚ, x ∈ newNotifications r (startLogging r now) → False := by
      intro now hmem
      simp only [newNotifications, startLogging, List.drop_left, notifyListeners_eq,
        List.mem_map] at hmem
      obtain ⟨t, _, rfl⟩ := hmem
      simp at hend
    cases c with
    | op o =>
      have := (op_apply_misc r o).2.2.1 x hx
      rw [this] at hend
      exact absurd hend (by decide)
    | startLogging now => exact absurd (hstart now hx) id
    | stopLogging => rfl
    | toggleLogging now =>
      by_cases hl : isLogging r = true
      · simp [Call.apply, toggleLogging, hl]
      · simp only [Bool.not_eq_true] at hl
        simp only [Call.apply, toggleLogging, hl, Bool.false_eq_true, if_false] at hx
        exact absurd (hstart now hx) id

theorem implicit_deactivation_keeps_started_witness :
    sessionBelowCeiling.currentlyLogging = true
      ∧ sessionBelowCeiling.numErrorsSinceLogStart < 200
      ∧ 200 ≤ (timerCallback sessionBelowCeiling).numErrorsSinceLogStart
      ∧ isLogging (timerCallback sessionBelowCeiling) = false
      ∧ (timerCallback sessionBelowCeiling).currentlyLogging = true :=
  ⟨by decide, by decide, by decide,
   (implicit_deactivation_keeps_started sessionBelowCeiling (by decide) (by decide)
      (by decide)).2.1,
   (implicit_deactivation_keeps_started sessionBelowCeiling (by decide) (by decide)
      (by decide)).2.2.1⟩

/-- C22. After `startLogging`, from any state, also one deactivated by 200 or more
errors, the error count is 0 and `isLogging` is true; the callbacks it makes are
`logStarted`, one for each registered reference that has not expired, so with the
live references pairwise distinct a listener receives `logStarted` exactly once if a
live reference to it is registered, and not at all otherwise. -/
theorem startLogging_fresh_session (s : DebugLogger) (now : ℚ) (l : Nat)
    (hreg : (liveTargets s.listeners).Nodup) :
    (startLogging s now).numErrorsSinceLogStart = 0
      ∧ isLogging (startLogging s now) = true
      ∧ newNotifications s (startLogging s now)
          = notifyListeners s.listeners Notification.logStarted
      ∧ (newNotifications s (startLogging s now)).count (l, Notification.logStarted)
          = (if l ∈ liveTargets s.listeners then 1 else 0)
      ∧ (l ∈ liveTargets s.listeners ↔ ∃ w ∈ s.listeners, w.expired = false ∧ w.target = l)
      := by
  have hn : newNotifications s (startLogging s now)
      = notifyListeners s.listeners Notification.logStarted := by
    simp [newNotifications, startLogging]
  refine ⟨rfl, isLogging_startLogging s now, hn, ?_, mem_liveTargets _ _⟩
  rw [hn, count_notifyListeners]
  by_cases hl : l ∈ liveTargets s.listeners
  · rw [if_pos hl]
    exact List.count_eq_one_of_mem hreg hl
  · rw [if_neg hl]
    exact List.count_eq_zero_of_not_mem hl

theorem startLogging_fresh_session_witness :
    (liveTargets (timerCallback sessionBelowCeiling).listeners).Nodup
      ∧ (timerCallback sessionBelowCeiling).numErrorsSinceLogStart = 200
      ∧ isLogging (timerCallback sessionBelowCeiling) = false
      ∧ isLogging (startLogging (timerCallback sessionBelowCeiling) 9) = true
      ∧ (newNotifications (timerCallback sessionBelowCeiling)
          (startLogging (timerCallback sessionBelowCeiling) 9)).count
          (7, Notification.logStarted) = 1 :=
  ⟨by decide, by decide, by decide,
   (startLogging_fresh_session (timerCallback sessionBelowCeiling) 9 7 (by decide)).2.1,
   (startLogging_fresh_session (timerCallback sessionBelowCeiling) 9 7
      (by decide)).2.2.2.1.trans (by decide)⟩


/-! ## The stack back trace -/

theorem writeMessages_empty_trace (messages : List Entry) :
    writeMessages "" messages = (messages.map LogBlock.text, "") := by
  induction messages with
  | nil => rfl
  | cons m rest ih => simp [writeMessages, ih]

theorem writeMessages_no_request (messages : List Entry) (trace : String)
    (h : ∀ e ∈ messages, e.shouldPrintBacktrace = false) :
    writeMessages trace messages = (messages.map LogBlock.text, trace) := by
  induction messages with
  | nil => rfl
  | cons m rest ih =>
    have hm : m.shouldPrintBacktrace = false := h m (List.mem_cons_self _ _)
    have hrest := ih (fun e he => h e (List.mem_cons_of_mem _ he))
    simp [writeMessages, hm, hrest]

theorem writeMessages_first_request (pre post : List Entry) (e : Entry) (trace : String)
    (hpre : ∀ x ∈ pre, x.shouldPrintBacktrace = false) (he : e.shouldPrintBacktrace = true)
    (htrace : trace ≠ "") :
    writeMessages trace (pre ++ e :: post)
      = (pre.map LogBlock.text
          ++ LogBlock.text e :: LogBlock.stackBackTrace trace :: post.map LogBlock.text, "") := by
  induction pre with
  | nil => simp [writeMessages, he, htrace, writeMessages_empty_trace]
  | cons m rest ih =>
    have hm : m.shouldPrintBacktrace = false := hpre m (List.mem_cons_self _ _)
    have hrest := ih (fun x hx => hpre x (List.mem_cons_of_mem _ hx))
    simp [writeMessages, hm, hrest]

/-- C28. Only a `Failure` of kind `PriorityInversion` requests a stack back trace,
and a drain writes the block only while the captured trace is not empty. With a
captured trace, the drain writes the block once, directly after the first priority
inversion in the order of writing, and the captured trace is empty afterwards; with
an empty trace, or with no priority inversion among the entries, it writes the
entries only and leaves the trace as it is. -/
theorem backTrace_written_once (s : DebugLogger) (pre post : List Entry) (f : Failure)
    (hd : drainedMessages s = pre ++ Entry.failure f :: post)
    (hf : f.type = FailureType.PriorityInversion)
    (hpre : ∀ e ∈ pre, e.shouldPrintBacktrace = false)
    (htrace : s.actualBackTrace ≠ "") :
    (timerCallback s).logFiles
        = appendToLogFile s.logFiles
            (pre.map LogBlock.text
              ++ LogBlock.text (Entry.failure f) :: LogBlock.stackBackTrace s.actualBackTrace
                :: post.map LogBlock.text)
      ∧ (timerCallback s).actualBackTrace = ""
      ∧ (∀ e : Entry, e.shouldPrintBacktrace = true
          ↔ ∃ g : Failure, e = Entry.failure g ∧ g.type = FailureType.PriorityInversion)
      ∧ (∀ r : DebugLogger,
          (r.actualBackTrace = "" ∨ ∀ e ∈ drainedMessages r, e.shouldPrintBacktrace = false) →
          (timerCallback r).logFiles
              = appendToLogFile r.logFiles ((drainedMessages r).map LogBlock.text)
            ∧ (timerCallback r).actualBackTrace = r.actualBackTrace) := by
  have hreq : (Entry.failure f).shouldPrintBacktrace = true := by
    simp [Entry.shouldPrintBacktrace, hf]
  have hw := writeMessages_first_request pre post (Entry.failure f) s.actualBackTrace hpre hreq
    htrace
  refine ⟨?_, ?_, ?_, ?_⟩
  · rw [timerCallback_logFiles, hd, hw]
  · rw [(timerCallback_frame s).2.2.2.2.1, hd, hw]
  · intro e
    cases e with
    | failure g =>
      simp [Entry.shouldPrintBacktrace]
    | warning w => simp [Entry.shouldPrintBacktrace]
    | event e => simp [Entry.shouldPrintBacktrace]
    | stringMessage m => simp [Entry.shouldPrintBacktrace]
    | audioChange a => simp [Entry.shouldPrintBacktrace]
    | parameterChange c => simp [Entry.shouldPrintBacktrace]
  · intro r hr
    have hwr : writeMessages r.actualBackTrace (drainedMessages r)
        = ((drainedMessages r).map LogBlock.text, r.actualBackTrace) := by
      rcases hr with hr | hr
      · rw [hr]
        exact writeMessages_empty_trace _
      · exact writeMessages_no_request _ _ hr
    rw [timerCallback_logFiles, (timerCallback_frame r).2.2.2.2.1, hwr]
    exact ⟨rfl, rfl⟩

theorem backTrace_written_once_witness :
    sessionWithBackTrace.actualBackTrace ≠ ""
      ∧ (timerCallback sessionWithBackTrace).logFiles
        = [[LogBlock.header, LogBlock.systemSpecs,
            LogBlock.text (Entry.stringMessage (StringMessage.new 0 1 "note" 0)),
            LogBlock.text (Entry.failure (Failure.new 1 0 Location.MainRenderCallback
              FailureType.PriorityInversion none 0 0 Identifier.null)),
            LogBlock.stackBackTrace "frame 0",
            LogBlock.text (Entry.failure (Failure.new 2 1 Location.NoteOnCallback
              FailureType.PriorityInversion none 0 0 Identifier.null))]]
      ∧ (timerCallback sessionWithBackTrace).actualBackTrace = "" :=
  ⟨by decide,
   (backTrace_written_once sessionWithBackTrace
      [Entry.stringMessage (StringMessage.new 0 1 "note" 0)]
      [Entry.failure (Failure.new 2 1 Location.NoteOnCallback FailureType.PriorityInversion
        none 0 0 Identifier.null)]
      (Failure.new 1 0 Location.MainRenderCallback FailureType.PriorityInversion none 0 0
        Identifier.null)
      (by decide) rfl (by decide) (by decide)).1.trans (by decide),
   (backTrace_written_once sessionWithBackTrace
      [Entry.stringMessage (StringMessage.new 0 1 "note" 0)]
      [Entry.failure (Failure.new 2 1 Location.NoteOnCallback FailureType.PriorityInversion
        none 0 0 Identifier.null)]
      (Failure.new 1 0 Location.MainRenderCallback FailureType.PriorityInversion none 0 0
        Identifier.null)
      (by decide) rfl (by decide) (by decide)).2.1⟩

/-! ## Reachable states -/

/-- C29. In every state reached by calls of any kind from a logger whose pending
audio changes are sample-rate or buffer-size changes, as they are when the queue is
empty, every pending `AudioSettingChange` has type `SampleRateChange` or
`BufferSizeChange`; so for each of them, and for each the next drain serialises,
`getMessageText` reaches its return statement. -/
theorem pendingAudioChanges_have_a_text (s₀ : DebugLogger) (calls : List Call)
    (h₀ : ∀ a ∈ s₀.pendingAudioChanges,
      a.type = FailureType.SampleRateChange ∨ a.type = FailureType.BufferSizeChange) :
    (∀ a ∈ (runCalls s₀ calls).pendingAudioChanges,
        (a.type = FailureType.SampleRateChange ∨ a.type = FailureType.BufferSizeChange)
          ∧ a.getMessageTextReturns = true)
      ∧ (∀ a : AudioSettingChange,
          Entry.audioChange a ∈ drainedMessages (runCalls s₀ calls) →
            a.getMessageTextReturns = true) := by
  have hall := runCalls_pendingAudioChanges calls s₀ h₀
  have hret : ∀ a ∈ (runCalls s₀ calls).pendingAudioChanges,
      a.getMessageTextReturns = true := by
    intro a ha
    rcases hall a ha with h | h <;> simp [AudioSettingChange.getMessageTextReturns, h]
  refine ⟨fun a ha => ⟨hall a ha, hret a ha⟩, ?_⟩
  intro a ha
  have hmem : Entry.audioChange a ∈ pendingEntries (runCalls s₀ calls) :=
    (drainedMessages_perm _).mem_iff.mp ha
  simp only [pendingEntries, List.mem_append, List.mem_map, reduceCtorEq, and_false,
    exists_false, or_false, false_or, Entry.audioChange.injEq, exists_eq_right] at hmem
  exact hret a hmem

theorem pendingAudioChanges_have_a_text_witness :
    (∀ a ∈ constructed.pendingAudioChanges,
        a.type = FailureType.SampleRateChange ∨ a.type = FailureType.BufferSizeChange)
      ∧ (runCalls constructed
          [Call.startLogging 0,
           Call.op (Op.checkAudioCallbackProperties 44100 512 1 1)]).pendingAudioChanges.length
        = 2
      ∧ ∀ a ∈ (runCalls constructed
          [Call.startLogging 0,
           Call.op (Op.checkAudioCallbackProperties 44100 512 1 1)]).pendingAudioChanges,
          (a.type = FailureType.SampleRateChange ∨ a.type = FailureType.BufferSizeChange)
            ∧ a.getMessageTextReturns = true :=
  ⟨by decide, by decide,
   (pendingAudioChanges_have_a_text constructed
      [Call.startLogging 0, Call.op (Op.checkAudioCallbackProperties 44100 512 1 1)]
      (by decide)).1⟩

/-- C30. No call sets the currently-failing flag: from a logger whose flag is false
`isCurrentlyFailing` is false after every sequence of calls, and in particular after
a drain, whatever that drain serialised. -/
theorem isCurrentlyFailing_never_true (s₀ : DebugLogger) (calls : List Call)
    (h₀ : s₀.currentlyFailing = false) :
    isCurrentlyFailing (runCalls s₀ calls) = false
      ∧ isCurrentlyFailing (timerCallback (runCalls s₀ calls)) = false := by
  have h := runCalls_currentlyFailing calls s₀ h₀
  refine ⟨h, ?_⟩
  cases hc : (timerCallback (runCalls s₀ calls)).currentlyFailing with
  | false => simp [isCurrentlyFailing, hc]
  | true =>
    have := (timerCallback_frame (runCalls s₀ calls)).2.1 hc
    rw [h] at this
    exact absurd this (by decide)

theorem isCurrentlyFailing_never_true_witness :
    constructed.currentlyFailing = false
      ∧ errorEntriesIn ((runCalls constructed
          [Call.startLogging 0,
           Call.op (Op.checkAssertion none Location.SampleRendering false 1 2),
           Call.op Op.timerCallback]).logFiles.headD []) = 1
      ∧ isCurrentlyFailing (runCalls constructed
          [Call.startLogging 0,
           Call.op (Op.checkAssertion none Location.SampleRendering false 1 2),
           Call.op Op.timerCallback]) = false :=
  ⟨by decide, by decide,
   (isCurrentlyFailing_never_true constructed
      [Call.startLogging 0,
       Call.op (Op.checkAssertion none Location.SampleRendering false 1 2),
       Call.op Op.timerCallback] (by decide)).1⟩


/-! ## Sequence indices -/

theorem seqInv_push (c : Int) (l₁ l₂ : List (List Int)) (q : List Int)
    (h : SeqInv c (l₁ ++ q :: l₂)) : SeqInv (c + 1) (l₁ ++ (q ++ [c]) :: l₂) := by
  obtain ⟨hq, hnd⟩ := h
  have hlt : ∀ i ∈ (l₁ ++ q :: l₂).flatten, i < c := by
    intro i hi
    obtain ⟨q', hq', hiq⟩ := List.mem_flatten.mp hi
    exact (hq q' hq').2 i hiq
  refine ⟨?_, ?_⟩
  · intro q' hq'
    rcases List.mem_append.mp hq' with hin | hin
    · obtain ⟨hs, hb⟩ := hq q' (List.mem_append_left _ hin)
      exact ⟨hs, fun i hi => by have := hb i hi; omega⟩
    · rcases List.mem_cons.mp hin with heq | hin
      · obtain ⟨hs, hb⟩ := hq q (List.mem_append_right _ (List.mem_cons_self _ _))
        subst heq
        refine ⟨?_, ?_⟩
        · refine List.pairwise_append.mpr ⟨hs, List.pairwise_singleton _ _, ?_⟩
          intro a ha b hb'
          rw [List.mem_singleton.mp hb']
          exact hb a ha
        · intro i hi
          rcases List.mem_append.mp hi with hi | hi
          · have := hb i hi; omega
          · rw [List.mem_singleton.mp hi]; omega
      · obtain ⟨hs, hb⟩ := hq q' (List.mem_append_right _ (List.mem_cons_of_mem _ hin))
        exact ⟨hs, fun i hi => by have := hb i hi; omega⟩
  · have hperm : List.Perm (l₁ ++ (q ++ [c]) :: l₂).flatten (c :: (l₁ ++ q :: l₂).flatten) := by
      have e1 : (l₁ ++ (q ++ [c]) :: l₂).flatten = (l₁.flatten ++ q) ++ c :: l₂.flatten := by
        simp
      have e2 : (l₁ ++ q :: l₂).flatten = (l₁.flatten ++ q) ++ l₂.flatten := by
        simp
      rw [e1, e2]
      exact List.perm_middle
    rw [hperm.nodup_iff, List.nodup_cons]
    exact ⟨fun hmem => absurd (hlt c hmem) (lt_irrefl c), hnd⟩

theorem seqInv_sublist (c : Int) (l₁ l₂ : List (List Int)) (q q' : List Int)
    (hsub : q'.Sublist q) (h : SeqInv c (l₁ ++ q :: l₂)) : SeqInv c (l₁ ++ q' :: l₂) := by
  obtain ⟨hq, hnd⟩ := h
  refine ⟨?_, ?_⟩
  · intro x hx
    rcases List.mem_append.mp hx with hin | hin
    · exact hq x (List.mem_append_left _ hin)
    · rcases List.mem_cons.mp hin with heq | hin
      · obtain ⟨hs, hb⟩ := hq q (List.mem_append_right _ (List.mem_cons_self _ _))
        subst heq
        exact ⟨hs.sublist hsub, fun i hi => hb i (hsub.subset hi)⟩
      · exact hq x (List.mem_append_right _ (List.mem_cons_of_mem _ hin))
  · have hs : ((l₁ ++ q' :: l₂).flatten).Sublist (l₁ ++ q :: l₂).flatten := by
      simp only [List.flatten_append, List.flatten_cons]
      exact (List.Sublist.refl _).append (hsub.append (List.Sublist.refl _))
    exact hnd.sublist hs

theorem seqInv_empty : SeqInv 0 [[], [], [], [], [], []] := by
  refine ⟨?_, by simp⟩
  intro q hq
  simp only [List.mem_cons, List.mem_singleton, List.not_mem_nil, or_false, or_self] at hq
  subst hq
  exact ⟨List.Pairwise.nil, fun i hi => absurd hi (List.not_mem_nil i)⟩

/-- The property of the sequence indices only looks at the sequence counter and the
six pending queues. -/
theorem inv_frame (s r : DebugLogger) (h : SeqInv s.messageIndex (queueIndices s))
    (hm : r.messageIndex = s.messageIndex) (h1 : r.pendingFailures = s.pendingFailures)
    (h2 : r.pendingStringMessages = s.pendingStringMessages)
    (h3 : r.pendingEvents = s.pendingEvents)
    (h4 : r.pendingPerformanceWarnings = s.pendingPerformanceWarnings)
    (h5 : r.pendingAudioChanges = s.pendingAudioChanges)
    (h6 : r.pendingParameterChanges = s.pendingParameterChanges) :
    SeqInv r.messageIndex (queueIndices r) := by
  simp only [queueIndices, hm, h1, h2, h3, h4, h5, h6]
  exact h

/-- An entry numbered with the sequence counter is appended to `pendingFailures` and the
counter goes up by 1. -/
theorem inv_push_failures (s r : DebugLogger) (e : Failure)
    (h : SeqInv s.messageIndex (queueIndices s)) (he : e.messageIndex = s.messageIndex)
    (hm : r.messageIndex = s.messageIndex + 1)
    (h1 : r.pendingFailures = s.pendingFailures ++ [e])
    (h2 : r.pendingStringMessages = s.pendingStringMessages)
    (h3 : r.pendingEvents = s.pendingEvents)
    (h4 : r.pendingPerformanceWarnings = s.pendingPerformanceWarnings)
    (h5 : r.pendingAudioChanges = s.pendingAudioChanges)
    (h6 : r.pendingParameterChanges = s.pendingParameterChanges) :
    SeqInv r.messageIndex (queueIndices r) := by
  have hp := seqInv_push s.messageIndex
    []
    [s.pendingStringMessages.map (fun x : StringMessage => x.messageIndex), s.pendingEvents.map (fun x : Event => x.messageIndex), s.pendingPerformanceWarnings.map (fun x : PerformanceWarning => x.messageIndex), s.pendingAudioChanges.map (fun x : AudioSettingChange => x.messageIndex), s.pendingParameterChanges.map (fun x : ParameterChange => x.messageIndex)]
    (s.pendingFailures.map (fun x : Failure => x.messageIndex)) h
  simp only [queueIndices, hm, h1, h2, h3, h4, h5, h6, List.map_append, List.map_cons,
    List.map_nil, he]
  exact hp

/-- An entry numbered with the sequence counter is appended to `pendingStringMessages` and the
counter goes up by 1. -/
theorem inv_push_stringMessages (s r : DebugLogger) (e : StringMessage)
    (h : SeqInv s.messageIndex (queueIndices s)) (he : e.messageIndex = s.messageIndex)
    (hm : r.messageIndex = s.messageIndex + 1)
    (h1 : r.pendingFailures = s.pendingFailures)
    (h2 : r.pendingStringMessages = s.pendingStringMessages ++ [e])
    (h3 : r.pendingEvents = s.pendingEvents)
    (h4 : r.pendingPerformanceWarnings = s.pendingPerformanceWarnings)
    (h5 : r.pendingAudioChanges = s.pendingAudioChanges)
    (h6 : r.pendingParameterChanges = s.pendingParameterChanges) :
    SeqInv r.messageIndex (queueIndices r) := by
  have hp := seqInv_push s.messageIndex
    [s.pendingFailures.map (fun x : Failure => x.messageIndex)]
    [s.pendingEvents.map (fun x : Event => x.messageIndex), s.pendingPerformanceWarnings.map (fun x : PerformanceWarning => x.messageIndex), s.pendingAudioChanges.map (fun x : AudioSettingChange => x.messageIndex), s.pendingParameterChanges.map (fun x : ParameterChange => x.messageIndex)]
    (s.pendingStringMessages.map (fun x : StringMessage => x.messageIndex)) h
  simp only [queueIndices, hm, h1, h2, h3, h4, h5, h6, List.map_append, List.map_cons,
    List.map_nil, he]
  exact hp

/-- An entry numbered with the sequence counter is appended to `pendingEvents` and the
counter goes up by 1. -/
theorem inv_push_events (s r : DebugLogger) (e : Event)
    (h : SeqInv s.messageIndex (queueIndices s)) (he : e.messageIndex = s.messageIndex)
    (hm : r.messageIndex = s.messageIndex + 1)
    (h1 : r.pendingFailures = s.pendingFailures)
    (h2 : r.pendingStringMessages = s.pendingStringMessages)
    (h3 : r.pendingEvents = s.pendingEvents ++ [e])
    (h4 : r.pendingPerformanceWarnings = s.pendingPerformanceWarnings)
    (h5 : r.pendingAudioChanges = s.pendingAudioChanges)
    (h6 : r.pendingParameterChanges = s.pendingParameterChanges) :
    SeqInv r.messageIndex (queueIndices r) := by
  have hp := seqInv_push s.messageIndex
    [s.pendingFailures.map (fun x : Failure => x.messageIndex), s.pendingStringMessages.map (fun x : StringMessage => x.messageIndex)]
    [s.pendingPerformanceWarnings.map (fun x : PerformanceWarning => x.messageIndex), s.pendingAudioChanges.map (fun x : AudioSettingChange => x.messageIndex), s.pendingParameterChanges.map (fun x : ParameterChange => x.messageIndex)]
    (s.pendingEvents.map (fun x : Event => x.messageIndex)) h
  simp only [queueIndices, hm, h1, h2, h3, h4, h5, h6, List.map_append, List.map_cons,
    List.map_nil, he]
  exact hp

/-- An entry numbered with the sequence counter is appended to `pendingPerformanceWarnings` and the
counter goes up by 1. -/
theorem inv_push_performanceWarnings (s r : DebugLogger) (e : PerformanceWarning)
    (h : SeqInv s.messageIndex (queueIndices s)) (he : e.messageIndex = s.messageIndex)
    (hm : r.messageIndex = s.messageIndex + 1)
    (h1 : r.pendingFailures = s.pendingFailures)
    (h2 : r.pendingStringMessages = s.pendingStringMessages)
    (h3 : r.pendingEvents = s.pendingEvents)
    (h4 : r.pendingPerformanceWarnings = s.pendingPerformanceWarnings ++ [e])
    (h5 : r.pendingAudioChanges = s.pendingAudioChanges)
    (h6 : r.pendingParameterChanges = s.pendingParameterChanges) :
    SeqInv r.messageIndex (queueIndices r) := by
  have hp := seqInv_push s.messageIndex
    [s.pendingFailures.map (fun x : Failure => x.messageIndex), s.pendingStringMessages.map (fun x : StringMessage => x.messageIndex), s.pendingEvents.map (fun x : Event => x.messageIndex)]
    [s.pendingAudioChanges.map (fun x : AudioSettingChange => x.messageIndex), s.pendingParameterChanges.map (fun x : ParameterChange => x.messageIndex)]
    (s.pendingPerformanceWarnings.map (fun x : PerformanceWarning => x.messageIndex)) h
  simp only [queueIndices, hm, h1, h2, h3, h4, h5, h6, List.map_append, List.map_cons,
    List.map_nil, he]
  exact hp

/-- An entry numbered with the sequence counter is appended to `pendingAudioChanges` and the
counter goes up by 1. -/
theorem inv_push_audioChanges (s r : DebugLogger) (e : AudioSettingChange)
    (h : SeqInv s.messageIndex (queueIndices s)) (he : e.messageIndex = s.messageIndex)
    (hm : r.messageIndex = s.messageIndex + 1)
    (h1 : r.pendingFailures = s.pendingFailures)
    (h2 : r.pendingStringMessages = s.pendingStringMessages)
    (h3 : r.pendingEvents = s.pendingEvents)
    (h4 : r.pendingPerformanceWarnings = s.pendingPerformanceWarnings)
    (h5 : r.pendingAudioChanges = s.pendingAudioChanges ++ [e])
    (h6 : r.pendingParameterChanges = s.pendingParameterChanges) :
    SeqInv r.messageIndex (queueIndices r) := by
  have hp := seqInv_push s.messageIndex
    [s.pendingFailures.map (fun x : Failure => x.messageIndex), s.pendingStringMessages.map (fun x : StringMessage => x.messageIndex), s.pendingEvents.map (fun x : Event => x.messageIndex), s.pendingPerformanceWarnings.map (fun x : PerformanceWarning => x.messageIndex)]
    [s.pendingParameterChanges.map (fun x : ParameterChange => x.messageIndex)]
    (s.pendingAudioChanges.map (fun x : AudioSettingChange => x.messageIndex)) h
  simp only [queueIndices, hm, h1, h2, h3, h4, h5, h6, List.map_append, List.map_cons,
    List.map_nil, he]
  exact hp

/-- An entry numbered with the sequence counter is appended to `pendingParameterChanges` and the
counter goes up by 1, after entries were removed from the queue. -/
theorem inv_push_parameterChanges (s r : DebugLogger) (e : ParameterChange) (kept : List ParameterChange)
    (hkept : kept.Sublist s.pendingParameterChanges)
    (h : SeqInv s.messageIndex (queueIndices s)) (he : e.messageIndex = s.messageIndex)
    (hm : r.messageIndex = s.messageIndex + 1)
    (h1 : r.pendingFailures = s.pendingFailures)
    (h2 : r.pendingStringMessages = s.pendingStringMessages)
    (h3 : r.pendingEvents = s.pendingEvents)
    (h4 : r.pendingPerformanceWarnings = s.pendingPerformanceWarnings)
    (h5 : r.pendingAudioChanges = s.pendingAudioChanges)
    (h6 : r.pendingParameterChanges = kept ++ [e]) :
    SeqInv r.messageIndex (queueIndices r) := by
  have hs := seqInv_sublist s.messageIndex
    [s.pendingFailures.map (fun x : Failure => x.messageIndex), s.pendingStringMessages.map (fun x : StringMessage => x.messageIndex), s.pendingEvents.map (fun x : Event => x.messageIndex), s.pendingPerformanceWarnings.map (fun x : PerformanceWarning => x.messageIndex), s.pendingAudioChanges.map (fun x : AudioSettingChange => x.messageIndex)]
    []
    (s.pendingParameterChanges.map (fun x : ParameterChange => x.messageIndex)) (kept.map (fun x : ParameterChange => x.messageIndex))
    (hkept.map _) h
  have hp := seqInv_push s.messageIndex
    [s.pendingFailures.map (fun x : Failure => x.messageIndex), s.pendingStringMessages.map (fun x : StringMessage => x.messageIndex), s.pendingEvents.map (fun x : Event => x.messageIndex), s.pendingPerformanceWarnings.map (fun x : PerformanceWarning => x.messageIndex), s.pendingAudioChanges.map (fun x : AudioSettingChange => x.messageIndex)]
    []
    (kept.map (fun x : ParameterChange => x.messageIndex)) hs
  simp only [queueIndices, hm, h1, h2, h3, h4, h5, h6, List.map_append, List.map_cons,
    List.map_nil, he]
  exact hp


theorem inv_timerCallback (s : DebugLogger) :
    SeqInv (timerCallback s).messageIndex (queueIndices (timerCallback s)) := by
  obtain ⟨_, _, _, _, _, hm, h1, h2, h3, h4, h5, h6⟩ := timerCallback_frame s
  simp only [queueIndices, hm, h1, h2, h3, h4, h5, h6, List.map_nil]
  exact seqInv_empty

theorem inv_logEvent (s : DebugLogger) (e : HiseEvent)
    (h : SeqInv s.messageIndex (queueIndices s)) :
    SeqInv (logEvent s e).messageIndex (queueIndices (logEvent s e)) := by
  unfold logEvent
  split
  · exact h
  · exact inv_push_events s _ (Event.new s.messageIndex s.callbackIndex e) h rfl rfl rfl rfl rfl
      rfl rfl rfl

theorem inv_foldl_logEvent (b : List HiseEvent) :
    ∀ s : DebugLogger, SeqInv s.messageIndex (queueIndices s) →
      SeqInv (b.foldl logEvent s).messageIndex (queueIndices (b.foldl logEvent s)) := by
  induction b with
  | nil => intro s h; exact h
  | cons e b ih =>
    intro s h
    simp only [List.foldl_cons]
    exact ih _ (inv_logEvent s e h)

theorem inv_addAudioDeviceChange (s : DebugLogger) (changeType : FailureType)
    (oldValue newValue now : ℚ) (h : SeqInv s.messageIndex (queueIndices s)) :
    SeqInv (addAudioDeviceChange s changeType oldValue newValue now).messageIndex
      (queueIndices (addAudioDeviceChange s changeType oldValue newValue now)) := by
  unfold addAudioDeviceChange
  split
  · exact inv_push_audioChanges s _
      (AudioSettingChange.new s.messageIndex s.callbackIndex (getCurrentTimeStamp s now)
        changeType oldValue newValue) h rfl rfl rfl rfl rfl rfl rfl rfl
  · exact h

theorem inv_checkAudioCallbackProperties (s : DebugLogger) (sampleRate : ℚ)
    (samplesPerBlock : Int) (t₁ t₂ : ℚ) (h : SeqInv s.messageIndex (queueIndices s)) :
    SeqInv (checkAudioCallbackProperties s sampleRate samplesPerBlock t₁ t₂).messageIndex
      (queueIndices (checkAudioCallbackProperties s sampleRate samplesPerBlock t₁ t₂)) := by
  by_cases hl : isLogging s = true
  · rw [checkAudioCallbackProperties_logging s sampleRate samplesPerBlock t₁ t₂ hl]
    by_cases h1 : sampleRate = s.lastSampleRate
    · by_cases h2 : samplesPerBlock = s.lastSamplesPerBlock
      · exact inv_frame s _ h (by simp [h1, h2]) rfl rfl rfl rfl (by simp [h1, h2]) rfl
      · exact inv_push_audioChanges s _
          (AudioSettingChange.new s.messageIndex (s.callbackIndex + 1)
            (getCurrentTimeStamp s t₂) FailureType.BufferSizeChange s.lastSamplesPerBlock
            samplesPerBlock)
          h rfl (by simp [h1, h2]) rfl rfl rfl rfl (by simp [h1, h2]) rfl
    · by_cases h2 : samplesPerBlock = s.lastSamplesPerBlock
      · exact inv_push_audioChanges s _
          (AudioSettingChange.new s.messageIndex (s.callbackIndex + 1)
            (getCurrentTimeStamp s t₁) FailureType.SampleRateChange s.lastSampleRate
            sampleRate)
          h rfl (by simp [h1, h2]) rfl rfl rfl rfl (by simp [h1, h2]) rfl
      · have hmid := inv_push_audioChanges s
          { s with
            messageIndex := s.messageIndex + 1,
            pendingAudioChanges := s.pendingAudioChanges
              ++ [AudioSettingChange.new s.messageIndex (s.callbackIndex + 1)
                    (getCurrentTimeStamp s t₁) FailureType.SampleRateChange s.lastSampleRate
                    sampleRate] }
          (AudioSettingChange.new s.messageIndex (s.callbackIndex + 1)
            (getCurrentTimeStamp s t₁) FailureType.SampleRateChange s.lastSampleRate
            sampleRate)
          h rfl rfl rfl rfl rfl rfl rfl rfl
        exact inv_push_audioChanges _ _
          (AudioSettingChange.new (s.messageIndex + 1) (s.callbackIndex + 1)
            (getCurrentTimeStamp s t₂) FailureType.BufferSizeChange s.lastSamplesPerBlock
            samplesPerBlock)
          hmid rfl (by simp [h1, h2]) rfl rfl rfl rfl (by simp [h1, h2]) rfl
  · simp only [Bool.not_eq_true] at hl
    rw [checkAudioCallbackProperties_inactive s sampleRate samplesPerBlock t₁ t₂ hl]
    exact h

theorem inv_logParameterChange (s : DebugLogger) (p : JavascriptProcessor)
    (c : Option ScriptComponent) (v : var) (t : ℚ)
    (h : SeqInv s.messageIndex (queueIndices s)) :
    SeqInv (logParameterChange s p c v t).messageIndex
      (queueIndices (logParameterChange s p c v t)) := by
  unfold logParameterChange
  split
  · split
    · refine inv_push_parameterChanges s _ _ _ ?_ h ?_ rfl rfl rfl rfl rfl rfl rfl
      · split
        · exact List.dropLast_sublist _
        · exact List.Sublist.refl _
      · rfl
    · exact h
  · exact h

/-- Every call of `Op` keeps the property of the sequence indices. -/
theorem inv_op_apply (s : DebugLogger) (o : Op) (h : SeqInv s.messageIndex (queueIndices s)) :
    SeqInv (o.apply s).messageIndex (queueIndices (o.apply s)) := by
  cases o with
  | timerCallback => exact inv_timerCallback s
  | logEvents b =>
    simp only [Op.apply, logEvents]
    split
    · exact inv_foldl_logEvent b s h
    · exact h
  | checkAudioCallbackProperties sr n t₁ t₂ =>
    exact inv_checkAudioCallbackProperties s sr n t₁ t₂ h
  | checkSampleData p l c data id t =>
    simp only [Op.apply, checkSampleData, addFailure]
    split
    · exact h
    · split
      · exact inv_push_failures s _ _ h rfl rfl rfl rfl rfl rfl rfl rfl
      · exact h
  | checkAssertion p l r x t =>
    simp only [Op.apply, checkAssertion, addFailure]
    split
    · exact h
    · split
      · exact inv_push_failures s _ _ h rfl rfl rfl rfl rfl rfl rfl rfl
      · exact h
  | checkPriorityInversion k t =>
    simp only [Op.apply, checkPriorityInversion, addFailure]
    split
    · exact h
    · split
      · exact inv_push_failures s _ _ h rfl rfl rfl rfl rfl rfl rfl rfl
      · exact h
  | checkPriorityInversionSpinLock k l p id t =>
    simp only [Op.apply, checkPriorityInversionSpinLock, addFailure]
    split
    · exact h
    · split
      · exact h
      · exact inv_push_failures s _ _ h rfl rfl rfl rfl rfl rfl rfl rfl
  | logMessage m t =>
    exact inv_push_stringMessages s _ _ h rfl rfl rfl rfl rfl rfl rfl rfl
  | logPerformanceWarning d v t =>
    simp only [Op.apply, logPerformanceWarning, addPerformanceWarning]
    split
    · exact h
    · exact inv_push_performanceWarnings s _ _ h rfl rfl rfl rfl rfl rfl rfl rfl
  | logParameterChange p c v t => exact inv_logParameterChange s p c v t h
  | addStreamingFailure u t =>
    exact inv_push_failures s _ _ h rfl rfl rfl rfl rfl rfl rfl rfl
  | setPerformanceWarningLevel n t =>
    exact inv_push_stringMessages s _ _ h rfl rfl rfl rfl rfl rfl rfl rfl
  | addListener l =>
    simp only [Op.apply, addListener]
    split <;> exact h
  | removeListener l => exact h

theorem inv_call_apply (s : DebugLogger) (c : Call)
    (h : SeqInv s.messageIndex (queueIndices s)) :
    SeqInv (c.apply s).messageIndex (queueIndices (c.apply s)) := by
  cases c with
  | op o => exact inv_op_apply s o h
  | startLogging now => exact h
  | stopLogging => exact h
  | toggleLogging now =>
    simp only [Call.apply, toggleLogging]
    split <;> exact h

theorem inv_runCalls (calls : List Call) :
    ∀ s : DebugLogger, SeqInv s.messageIndex (queueIndices s) →
      SeqInv (runCalls s calls).messageIndex (queueIndices (runCalls s calls)) := by
  induction calls with
  | nil => intro s h; exact h
  | cons c cs ih =>
    intro s h
    have hrun : runCalls s (c :: cs) = runCalls (c.apply s) cs := rfl
    rw [hrun]
    exact ih _ (inv_call_apply s c h)

theorem pendingEntries_indices (s : DebugLogger) :
    (pendingEntries s).map Entry.messageIndex = (queueIndices s).flatten := by
  simp only [pendingEntries, queueIndices, List.map_append, List.map_map, List.flatten_cons,
    List.flatten_nil, List.append_nil, List.append_assoc]
  rfl

/-- C27. In every state reached by calls of any kind, executed one after another,
from a logger whose sequence counter is 0 and whose queues are empty, the entries of
the six pending queues have pairwise distinct sequence indices, each smaller than the
sequence counter, and within each queue the indices strictly increase in queue
order. -/
theorem sequence_indices_distinct_and_increasing (s₀ : DebugLogger) (calls : List Call)
    (hc : s₀.messageIndex = 0) (hq : queueSizes s₀ = [0, 0, 0, 0, 0, 0]) :
    ((pendingEntries (runCalls s₀ calls)).map Entry.messageIndex).Nodup
      ∧ (∀ e ∈ pendingEntries (runCalls s₀ calls),
          e.messageIndex < (runCalls s₀ calls).messageIndex)
      ∧ List.Sorted (fun i j : Int => i < j)
          ((runCalls s₀ calls).pendingFailures.map (fun x => x.messageIndex))
      ∧ List.Sorted (fun i j : Int => i < j)
          ((runCalls s₀ calls).pendingStringMessages.map (fun x => x.messageIndex))
      ∧ List.Sorted (fun i j : Int => i < j)
          ((runCalls s₀ calls).pendingEvents.map (fun x => x.messageIndex))
      ∧ List.Sorted (fun i j : Int => i < j)
          ((runCalls s₀ calls).pendingPerformanceWarnings.map (fun x => x.messageIndex))
      ∧ List.Sorted (fun i j : Int => i < j)
          ((runCalls s₀ calls).pendingAudioChanges.map (fun x => x.messageIndex))
      ∧ List.Sorted (fun i j : Int => i < j)
          ((runCalls s₀ calls).pendingParameterChanges.map (fun x => x.messageIndex)) := by
  have h₀ : SeqInv s₀.messageIndex (queueIndices s₀) := by
    simp only [queueSizes, List.cons.injEq, List.length_eq_zero, and_true] at hq
    obtain ⟨q1, q2, q3, q4, q5, q6⟩ := hq
    simp only [queueIndices, hc, q1, q2, q3, q4, q5, q6, List.map_nil]
    exact seqInv_empty
  obtain ⟨hqs, hnd⟩ := inv_runCalls calls s₀ h₀
  refine ⟨?_, ?_, ?_, ?_, ?_, ?_, ?_, ?_⟩
  · rw [pendingEntries_indices]
    exact hnd
  · intro e he
    have hmem : e.messageIndex ∈ (queueIndices (runCalls s₀ calls)).flatten := by
      rw [← pendingEntries_indices]
      exact List.mem_map_of_mem _ he
    obtain ⟨q, hq', hi⟩ := List.mem_flatten.mp hmem
    exact (hqs q hq').2 _ hi
  · exact (hqs _ (by simp [queueIndices])).1
  · exact (hqs _ (by simp [queueIndices])).1
  · exact (hqs _ (by simp [queueIndices])).1
  · exact (hqs _ (by simp [queueIndices])).1
  · exact (hqs _ (by simp [queueIndices])).1
  · exact (hqs _ (by simp [queueIndices])).1

theorem sequence_indices_distinct_and_increasing_witness :
    constructed.messageIndex = 0 ∧ queueSizes constructed = [0, 0, 0, 0, 0, 0]
      ∧ (pendingEntries (runCalls constructed
          [Call.startLogging 0,
           Call.op (Op.checkAudioCallbackProperties 44100 512 1 1),
           Call.op (Op.logMessage "note" 2),
           Call.op (Op.checkAssertion none Location.SampleRendering false 1 3)])).map
          Entry.messageIndex = [3, 2, 0, 1]
      ∧ ((pendingEntries (runCalls constructed
          [Call.startLogging 0,
           Call.op (Op.checkAudioCallbackProperties 44100 512 1 1),
           Call.op (Op.logMessage "note" 2),
           Call.op (Op.checkAssertion none Location.SampleRendering false 1 3)])).map
          Entry.messageIndex).Nodup :=
  ⟨by decide, by decide, by decide,
   (sequence_indices_distinct_and_increasing constructed
      [Call.startLogging 0,
       Call.op (Op.checkAudioCallbackProperties 44100 512 1 1),
       Call.op (Op.logMessage "note" 2),
       Call.op (Op.checkAssertion none Location.SampleRendering false 1 3)]
      (by decide) (by decide)).1⟩

end DebugLogger

/-! # The snex parameter tests -/

namespace ParameterExpression

/-- C25. For every value of the global `x`, and whatever the argument of `main`
and the nodes held before, `main` stores `TestExpression::op(x) = 2 * x - 1` in the
value of the second node of the chain and returns it; with `x = 5` it returns 9. -/
theorem main_returns_expression_of_x (g : Globals) (input : ℚ) :
    (main g input).1 = TestExpression.op g.x
      ∧ TestExpression.op g.x = 2 * g.x - 1
      ∧ (main g input).2.second.value = 2 * g.x - 1
      ∧ (main g input).2.first = g.first
      ∧ (g.x = 5 → (main g input).1 = 9) := by
  refine ⟨rfl, rfl, rfl, rfl, ?_⟩
  intro hx
  simp only [main, ParameterType.call, Test.setParameter, TestExpression.op, hx]
  norm_num

theorem main_returns_expression_of_x_witness :
    ({} : Globals).x = 5 ∧ (main {} 12).1 = 9 :=
  ⟨rfl, (main_returns_expression_of_x {} 12).2.2.2.2 rfl⟩

end ParameterExpression

namespace ParameterMixed

/-- C26 (evaluation at the failing input). Whatever its argument and the nodes
held before, `main` returns 13: the parameter chain hands `from0To1(0.2) = 0.4` to
both parameters, so `value` becomes 0.4 and `o` becomes `(0.4 + 1) * 9 = 12.6`. For
the declared input 12 the result is 13, not the declared output 29. -/
theorem main_returns_13 (c : Chain) (input : ℚ) :
    (main c input).2.first.value = 4 / 10
      ∧ (main c input).2.second.o = 126 / 10
      ∧ (main c input).1 = 13
      ∧ (main {} 12).1 ≠ 29 := by
  refine ⟨?_, ?_, ?_, ?_⟩ <;>
    norm_num [main, ParameterChainType.call, ParameterType1.call, OtherParameter.call,
      Test.setParameter, OtherTest.setParameter, TestExpression.op, MyRangeConverter.from0To1]

end ParameterMixed
